import Mathlib

/-!
# Secure-Payload Dispatcher (linuxd): shallow embedding

The dispatcher of `services/spd/linuxd` is embedded as functions over an explicit
state `DState`.  A C function that may hand the core to the secure payload returns
an `Outcome`: it either returns to its C caller, halts the firmware (a failed
`assert` in a build with assertions, or `panic()`), parks the C runtime in
`linuxd_enter_sp`, or abandons the current frame through `linuxd_exit_sp`.
-/

set_option linter.unusedVariables false

namespace Linuxd

/-! ## Build configuration, header constants, platform registers -/

/-- Build switches that the sources test with the preprocessor. -/
structure BuildConfig where
  ENABLE_ASSERTIONS : Bool
  LINUX_NS_INTR_ASYNC_PREEMPT : Bool
  LINUX_INIT_ASYNC : Bool
  EL3_EXCEPTION_HANDLING : Bool
deriving DecidableEq, Repr

/-- Constants of the headers the sources include but which are not among the
sources (`linux.h`, the SMC calling convention header), together with the
read-only registers of the platform.  They are parameters of the embedding. -/
structure Platform where
  LINUX_PUTCHAR : Nat
  LINUX_PREEMPTED : Nat
  LINUX_HANDLED_S_EL1_INTR : Nat
  LINUX_ENTRY_DONE : Nat
  LINUX_ABORT_DONE : Nat
  LINUX_ON_DONE : Nat
  LINUX_RESUME_DONE : Nat
  LINUX_OFF_DONE : Nat
  LINUX_SUSPEND_DONE : Nat
  LINUX_SYSTEM_OFF_DONE : Nat
  LINUX_SYSTEM_RESET_DONE : Nat
  LINUX_FID_ABORT : Nat
  LINUX_FID_RESUME : Nat
  LINUX_GET_ARGS : Nat
  TOS_CALL_COUNT : Nat
  TOS_UID : Nat
  TOS_CALL_VERSION : Nat
  LINUX_NUM_FID : Nat
  LINUX_VERSION_MAJOR : Nat
  LINUX_VERSION_MINOR : Nat
  LINUX_MIGRATE_INFO : Nat
  LINUX_HANDLE_SEL1_INTR_AND_RETURN : Nat
  SMC_OK : Nat
  SMC_UNK : Nat
  SMC_PREEMPTED : Nat
  /-- Byte offsets of the members of `linux_vectors_t`. -/
  cpu_on_entry : Nat
  cpu_off_entry : Nat
  cpu_resume_entry : Nat
  cpu_suspend_entry : Nat
  sel1_intr_entry : Nat
  system_off_entry : Nat
  system_reset_entry : Nat
  abort_yield_smc_entry : Nat
  /-- Value of `read_mpidr_el1()` on each core. -/
  mpidr : Nat → Nat
  /-- Value of `read_sctlr_el3()`. -/
  sctlr_el3 : Nat
  /-- Address of the C runtime stack frame that `linuxd_enter_sp` captures on each core. -/
  c_rt_sp : Nat → Nat

/-- The `case` labels of the `switch` in `linuxd_smc_handler`, in source order. -/
def Platform.case_labels (P : Platform) : List Nat :=
  [P.LINUX_PUTCHAR, P.LINUX_PREEMPTED, P.LINUX_HANDLED_S_EL1_INTR, P.LINUX_ENTRY_DONE,
   P.LINUX_ABORT_DONE, P.LINUX_ON_DONE, P.LINUX_RESUME_DONE, P.LINUX_OFF_DONE,
   P.LINUX_SUSPEND_DONE, P.LINUX_SYSTEM_OFF_DONE, P.LINUX_SYSTEM_RESET_DONE,
   P.LINUX_FID_ABORT, P.LINUX_FID_RESUME, P.LINUX_GET_ARGS,
   P.TOS_CALL_COUNT, P.TOS_UID, P.TOS_CALL_VERSION]

/-- A C `switch` compiles only when its labels are pairwise different. -/
def Platform.labels_distinct (P : Platform) : Prop := P.case_labels.Nodup

instance (P : Platform) : Decidable P.labels_distinct := by
  unfold Platform.labels_distinct; infer_instance

/-- Security states of the context-management library. -/
inductive SecurityState where
  | SECURE
  | NON_SECURE
deriving DecidableEq, Repr

open SecurityState

/-! ## Data model (`linuxd_private.h`) -/

/-- General purpose registers of a `cpu_context_t`: `x0`..`x3` carry SMC results,
`x4_x17` are the remaining registers inside `LINUXD_SP_CTX_SIZE`, `x18_x30` the rest. -/
structure gp_regs_t where
  x0 : Nat
  x1 : Nat
  x2 : Nat
  x3 : Nat
  x4_x17 : List Nat
  x18_x30 : List Nat
deriving DecidableEq, Repr

/-- Caller saved registers `x0`..`x17` (`sp_ctx_regs_t`, `LINUXD_SP_CTX_SIZE` bytes). -/
structure sp_ctx_regs_t where
  x0 : Nat
  x1 : Nat
  x2 : Nat
  x3 : Nat
  x4_x17 : List Nat
deriving DecidableEq, Repr

/-- Architectural state of one world on one core: general purpose registers, the EL3
return state, and the EL1 system register file as one opaque snapshot. -/
structure cpu_context_t where
  gpregs : gp_regs_t
  spsr_el3 : Nat
  elr_el3 : Nat
  el1_sysregs : Nat
deriving DecidableEq, Repr

/-- Per-cpu state of the secure payload (`linux_context_t`). -/
structure linux_context_t where
  saved_elr_el3 : Nat
  saved_spsr_el3 : Nat
  state : Nat
  mpidr : Nat
  c_rt_ctx : Nat
  cpu_ctx : cpu_context_t
  saved_linux_args : Nat × Nat
  sp_ctx : sp_ctx_regs_t
deriving DecidableEq, Repr

/-- Entry point descriptor (`entry_point_info_t`). -/
structure entry_point_info_t where
  h_type : Nat
  h_version : Nat
  h_attr : Nat
  pc : Nat
  spsr : Nat
  args : List Nat
deriving DecidableEq, Repr

/-- Pointers to the `cpu_context_t` objects a handler can be given as `handle`. -/
inductive CtxPtr where
  | sp_cpu_ctx (core : Nat)
  | ns_cpu_ctx (core : Nat)
deriving DecidableEq, Repr

/-- Interrupt handlers the dispatcher registers. -/
inductive IntrHandler where
  | linuxd_sel1_interrupt_handler
  | linuxd_ns_interrupt_handler
deriving DecidableEq, Repr

/-- State of the dispatcher and of the collaborators it drives. -/
structure DState where
  /-- Global `linux_vectors`; `0` is `NULL`. -/
  linux_vectors : Nat
  /-- Global array `linuxd_sp_context`. -/
  linuxd_sp_context : Nat → linux_context_t
  /-- Non-secure `cpu_context_t` of each core. -/
  ns_cpu_context : Nat → cpu_context_t
  /-- What `cm_get_context` returns on each core. -/
  cm_context : Nat → SecurityState → Option CtxPtr
  /-- World designated by the last `cm_set_next_eret_context` on each core. -/
  next_eret_context : Nat → Option SecurityState
  /-- Live EL1 system registers of each core. -/
  el1_sysregs : Nat → Nat
  /-- Live `ELR_EL3` of each core. -/
  elr_el3 : Nat → Nat
  /-- Image descriptor returned by `bl31_plat_get_next_image_ep_info(SECURE)`. -/
  bl32_ep_info : Option entry_point_info_t
  /-- Image descriptor returned by `bl31_plat_get_next_image_ep_info(NON_SECURE)`. -/
  bl33_ep_info : Option entry_point_info_t
  /-- Number of `psci_register_spd_pm_hook(&linuxd_pm)` calls made. -/
  pm_hook_registrations : Nat
  /-- Successful `register_interrupt_type_handler` calls: type, handler, flags. -/
  intr_handlers : List (Nat × IntrHandler × Nat)
  /-- Per core: is routing of non-secure interrupts to EL3 while in secure state enabled. -/
  ns_intr_rm_local : Nat → Bool
  /-- Number of `bl31_register_bl32_init(&linuxd_init)` calls made. -/
  bl32_init_registrations : Nat
  /-- Argument of the last `bl31_set_next_image_type` call. -/
  next_image_type : Option SecurityState
  /-- Argument of the last `ehf_allow_ns_preemption` call on each core. -/
  ns_preempt_code : Nat → Option Nat
  /-- Characters written with `putchar`, newest first. -/
  console : List Nat

/-- What a dispatcher function does with control. -/
inductive Outcome (α : Type) where
  /-- The function returns `a` to its C caller. -/
  | ret (a : α) (s : DState)
  /-- A failed `assert` or `panic()`: the firmware halts. -/
  | halt (s : DState)
  /-- The C runtime is parked in `linuxd_enter_sp` under handle `h`, the core runs the
  secure payload; `k` is the rest of the C call stack. -/
  | enter_sp (h : Nat) (s : DState) (k : Nat → DState → Outcome α)
  /-- The call `linuxd_exit_sp(c_rt_ctx, ret)`: the current C frame is abandoned. -/
  | exit_sp (c_rt_ctx : Nat) (ret : Nat) (s : DState)

/-- Sequencing of C statements: `o` followed by `f` on the value `o` returns. -/
def Outcome.bind {α β : Type} : Outcome α → (α → DState → Outcome β) → Outcome β
  | .ret a s, f => f a s
  | .halt s, _ => .halt s
  | .enter_sp h s k, f => .enter_sp h s (fun v t => (k v t).bind f)
  | .exit_sp c r s, _ => .exit_sp c r s

/-! ## Macros of `linuxd_private.h` -/

/-- Bitwise complement of a 32-bit word (`~` applied to an operand of `uint32_t` width). -/
def not32 (x : Nat) : Nat := 2 ^ 32 - 1 - x % 2 ^ 32

def LINUX_PSTATE_OFF : Nat := 0
def LINUX_PSTATE_ON : Nat := 1
def LINUX_PSTATE_SUSPEND : Nat := 2
def LINUX_PSTATE_SHIFT : Nat := 0
def LINUX_PSTATE_MASK : Nat := 0x3

def get_linux_pstate (state : Nat) : Nat :=
  (state >>> LINUX_PSTATE_SHIFT) &&& LINUX_PSTATE_MASK

def clr_linux_pstate (state : Nat) : Nat :=
  state &&& not32 (LINUX_PSTATE_MASK <<< LINUX_PSTATE_SHIFT)

def set_linux_pstate (st pst : Nat) : Nat :=
  clr_linux_pstate st ||| ((pst &&& LINUX_PSTATE_MASK) <<< LINUX_PSTATE_SHIFT)

def YIELD_SMC_ACTIVE_FLAG_SHIFT : Nat := 2
def YIELD_SMC_ACTIVE_FLAG_MASK : Nat := 1

def get_yield_smc_active_flag (state : Nat) : Nat :=
  (state >>> YIELD_SMC_ACTIVE_FLAG_SHIFT) &&& YIELD_SMC_ACTIVE_FLAG_MASK

def set_yield_smc_active_flag (state : Nat) : Nat :=
  state ||| (1 <<< YIELD_SMC_ACTIVE_FLAG_SHIFT)

def clr_yield_smc_active_flag (state : Nat) : Nat :=
  state &&& not32 (YIELD_SMC_ACTIVE_FLAG_MASK <<< YIELD_SMC_ACTIVE_FLAG_SHIFT)

def store_linux_args (c : linux_context_t) (x1 x2 : Nat) : linux_context_t :=
  { c with saved_linux_args := (x1, x2) }

def get_linux_args (c : linux_context_t) : Nat × Nat :=
  (c.saved_linux_args.1, c.saved_linux_args.2)

/-! ## Architecture and library constants -/

def MODE_RW_64 : Nat := 0
def MODE_RW_32 : Nat := 1
def LINUX_AARCH32 : Nat := MODE_RW_32
def LINUX_AARCH64 : Nat := MODE_RW_64
def MODE_EL1 : Nat := 1
def MODE_SP_ELX : Nat := 1
def DISABLE_ALL_EXCEPTIONS : Nat := 0xf
def SCTLR_EE_BIT : Nat := 1 <<< 25
def EP_ST_ENABLE : Nat := 0x4
def EP_EE_BIG : Nat := 0x2
def PARAM_EP : Nat := 1
def VERSION_1 : Nat := 1
def INTR_TYPE_S_EL1 : Nat := 0
def INTR_TYPE_NS : Nat := 2

/-- Encoding of a security state as the integer the C sources use. -/
def SecurityState.toNat : SecurityState → Nat
  | SECURE => 0
  | NON_SECURE => 1

def SPSR_64 (el sp daif : Nat) : Nat :=
  (MODE_RW_64 <<< 4) ||| ((el &&& 0x3) <<< 2) ||| ((sp &&& 0x1) <<< 0) |||
    ((daif &&& 0xf) <<< 6)

/-- Conversion of a 64-bit value to `int32_t`. -/
def to_int32 (v : Nat) : Int :=
  if v % 2 ^ 32 < 2 ^ 31 then (v % 2 ^ 32 : Nat) else (v % 2 ^ 32 : Nat) - 2 ^ 32

/-- Macro `is_caller_non_secure` of the SMC calling convention header. -/
def is_caller_non_secure (flags : Nat) : Bool := flags &&& 1 != 0

/-- Macro `get_interrupt_src_ss` of the interrupt management header. -/
def get_interrupt_src_ss (flags : Nat) : SecurityState :=
  if flags &&& 1 = 0 then SECURE else NON_SECURE

/-- Macro `set_interrupt_rm_flag` of the interrupt management header. -/
def set_interrupt_rm_flag (flag : Nat) (ss : SecurityState) : Nat :=
  flag ||| (1 <<< ss.toNat)

/-- Macro `GET_SECURITY_STATE` of the entry point header. -/
def GET_SECURITY_STATE (attr : Nat) : SecurityState :=
  if attr &&& 1 = 0 then SECURE else NON_SECURE

/-! ## State access -/

/-- The `cpu_context_t` a pointer designates. -/
def DState.ctx_at (s : DState) : CtxPtr → cpu_context_t
  | .sp_cpu_ctx c => (s.linuxd_sp_context c).cpu_ctx
  | .ns_cpu_ctx c => s.ns_cpu_context c

/-- Assignment through `&linuxd_sp_context[core]`. -/
def upd_linux_ctx (core : Nat) (f : linux_context_t → linux_context_t) (s : DState) : DState :=
  { s with
    linuxd_sp_context := Function.update s.linuxd_sp_context core (f (s.linuxd_sp_context core)) }

/-- Assignment through a pointer to a `cpu_context_t`. -/
def write_ctx (p : CtxPtr) (f : cpu_context_t → cpu_context_t) (s : DState) : DState :=
  match p with
  | .sp_cpu_ctx c => upd_linux_ctx c (fun l => { l with cpu_ctx := f l.cpu_ctx }) s
  | .ns_cpu_ctx c =>
      { s with ns_cpu_context := Function.update s.ns_cpu_context c (f (s.ns_cpu_context c)) }

/-- Assignment through a pointer that may be `NULL`; a store through `NULL` is not modelled
and leaves the state as it is. -/
def write_ctx_opt (p : Option CtxPtr) (f : cpu_context_t → cpu_context_t) (s : DState) : DState :=
  match p with
  | none => s
  | some q => write_ctx q f s

/-- The `assert` macro: checked only in builds with `ENABLE_ASSERTIONS`. -/
def c_assert {α : Type} (cfg : BuildConfig) (cond : Bool) (s : DState) (k : Outcome α) :
    Outcome α :=
  if cfg.ENABLE_ASSERTIONS && !cond then .halt s else k

/-! ## Collaborators -/

/-- Modelled from the spec: `cm_get_context` of the privileged-register context manager
(`get_active(world)`), which is not among the sources. -/
def cm_get_context (core : Nat) (w : SecurityState) (s : DState) : Option CtxPtr :=
  s.cm_context core w

/-- Modelled from the spec: `cm_set_context`, which records the context of a world. -/
def cm_set_context (core : Nat) (p : CtxPtr) (w : SecurityState) (s : DState) : DState :=
  { s with
    cm_context := Function.update s.cm_context core (Function.update (s.cm_context core) w (some p)) }

/-- Modelled from the spec: `cm_el1_sysregs_context_save` (`save(world)`) copies the live EL1
system registers of the core into the context of the world. -/
def cm_el1_sysregs_context_save (core : Nat) (w : SecurityState) (s : DState) : DState :=
  write_ctx_opt (s.cm_context core w) (fun c => { c with el1_sysregs := s.el1_sysregs core }) s

/-- Modelled from the spec: `cm_el1_sysregs_context_restore` (`restore(world)`) makes the
saved EL1 system registers of the world the live ones. -/
def cm_el1_sysregs_context_restore (core : Nat) (w : SecurityState) (s : DState) : DState :=
  match s.cm_context core w with
  | none => s
  | some p => { s with el1_sysregs := Function.update s.el1_sysregs core (s.ctx_at p).el1_sysregs }

/-- Modelled from the spec: `cm_set_next_eret_context` (`set_next_resume(world)`). -/
def cm_set_next_eret_context (core : Nat) (w : SecurityState) (s : DState) : DState :=
  { s with next_eret_context := Function.update s.next_eret_context core (some w) }

/-- Modelled from the spec: `cm_set_elr_el3` programs the return address of a world. -/
def cm_set_elr_el3 (core : Nat) (w : SecurityState) (pc : Nat) (s : DState) : DState :=
  write_ctx_opt (s.cm_context core w) (fun c => { c with elr_el3 := pc }) s

/-- Modelled from the spec: `cm_set_elr_spsr_el3` programs return address and status. -/
def cm_set_elr_spsr_el3 (core : Nat) (w : SecurityState) (pc spsr : Nat) (s : DState) : DState :=
  write_ctx_opt (s.cm_context core w) (fun c => { c with elr_el3 := pc, spsr_el3 := spsr }) s

/-- Modelled from the spec: `cm_init_my_context` builds the context of the world named in the
descriptor afresh from the descriptor (entry address, status, arguments). -/
def cm_init_my_context (core : Nat) (ep : entry_point_info_t) (s : DState) : DState :=
  write_ctx_opt (s.cm_context core (GET_SECURITY_STATE ep.h_attr))
    (fun _ =>
      { gpregs := { x0 := ep.args.getD 0 0, x1 := ep.args.getD 1 0, x2 := ep.args.getD 2 0,
                    x3 := ep.args.getD 3 0,
                    x4_x17 := (ep.args.drop 4).take 4 ++ List.replicate 10 0,
                    x18_x30 := List.replicate 13 0 },
        spsr_el3 := ep.spsr, elr_el3 := ep.pc, el1_sysregs := 0 }) s

/-- Modelled from the spec: `cm_prepare_el3_exit` makes the world the one resumed next. -/
def cm_prepare_el3_exit (core : Nat) (w : SecurityState) (s : DState) : DState :=
  cm_set_next_eret_context core w (cm_el1_sysregs_context_restore core w s)

/-- Modelled from the spec: `disable_intr_rm_local(INTR_TYPE_NS, SECURE)` of the interrupt
router. -/
def disable_intr_rm_local (core : Nat) (s : DState) : DState :=
  { s with ns_intr_rm_local := Function.update s.ns_intr_rm_local core false }

/-- Modelled from the spec: `enable_intr_rm_local(INTR_TYPE_NS, SECURE)` of the interrupt
router. -/
def enable_intr_rm_local (core : Nat) (s : DState) : DState :=
  { s with ns_intr_rm_local := Function.update s.ns_intr_rm_local core true }

/-- Modelled from the spec: `register_interrupt_type_handler` (`register_handler`) of the
interrupt router; a type takes one handler, a second registration is refused with a
non-zero code. -/
def register_interrupt_type_handler (type : Nat) (handler : IntrHandler) (flags : Nat)
    (s : DState) : Nat × DState :=
  if s.intr_handlers.any (fun e => e.1 == type) then (2 ^ 64 - 114, s)
  else (0, { s with intr_handlers := (type, handler, flags) :: s.intr_handlers })

/-- Modelled from the spec: `psci_register_spd_pm_hook(&linuxd_pm)` of the power orchestrator. -/
def psci_register_spd_pm_hook (s : DState) : DState :=
  { s with pm_hook_registrations := s.pm_hook_registrations + 1 }

/-- Modelled from the spec: `bl31_register_bl32_init(&linuxd_init)`. -/
def bl31_register_bl32_init (s : DState) : DState :=
  { s with bl32_init_registrations := s.bl32_init_registrations + 1 }

/-- Modelled from the spec: `bl31_set_next_image_type`. -/
def bl31_set_next_image_type (w : SecurityState) (s : DState) : DState :=
  { s with next_image_type := some w }

/-- Modelled from the spec: `ehf_allow_ns_preemption`. -/
def ehf_allow_ns_preemption (core : Nat) (code : Nat) (s : DState) : DState :=
  { s with ns_preempt_code := Function.update s.ns_preempt_code core (some code) }

/-- The `SMC_RET0` macro. -/
def SMC_RET0 (h : Option CtxPtr) (s : DState) : Outcome (Option CtxPtr) := .ret h s

/-- The `SMC_RET1` macro: result in `x0` of the context behind the handle. -/
def SMC_RET1 (h : Option CtxPtr) (r0 : Nat) (s : DState) : Outcome (Option CtxPtr) :=
  .ret h (write_ctx_opt h (fun c => { c with gpregs := { c.gpregs with x0 := r0 } }) s)

/-- The `SMC_RET2` macro. -/
def SMC_RET2 (h : Option CtxPtr) (r0 r1 : Nat) (s : DState) : Outcome (Option CtxPtr) :=
  .ret h (write_ctx_opt h (fun c => { c with gpregs := { c.gpregs with x0 := r0, x1 := r1 } }) s)

/-- The `SMC_RET4` macro. -/
def SMC_RET4 (h : Option CtxPtr) (r0 r1 r2 r3 : Nat) (s : DState) : Outcome (Option CtxPtr) :=
  .ret h (write_ctx_opt h
    (fun c => { c with gpregs := { c.gpregs with x0 := r0, x1 := r1, x2 := r2, x3 := r3 } }) s)

/-- Bytes of `linux_uuid`, defined with `DEFINE_SVC_UUID2(linux_uuid, 0xa056305b, 0x9132,
0x7b42, 0x98, 0x11, 0x71, 0x68, 0xca, 0x50, 0xf3, 0xfb)`.  The macro belongs to a header that
is not among the sources; it stores the first three fields most significant byte first and the
remaining eight bytes in the order given. -/
def linux_uuid : List Nat :=
  [0xa0, 0x56, 0x30, 0x5b, 0x91, 0x32, 0x7b, 0x42, 0x98, 0x11, 0x71, 0x68, 0xca, 0x50, 0xf3, 0xfb]

/-- The `i`-th little-endian 32-bit word of a byte list. -/
def uuid_word (u : List Nat) (i : Nat) : Nat :=
  u.getD (4 * i) 0 + 2 ^ 8 * u.getD (4 * i + 1) 0 + 2 ^ 16 * u.getD (4 * i + 2) 0 +
    2 ^ 24 * u.getD (4 * i + 3) 0

/-- The `SMC_UUID_RET` macro. -/
def SMC_UUID_RET (h : Option CtxPtr) (u : List Nat) (s : DState) : Outcome (Option CtxPtr) :=
  SMC_RET4 h (uuid_word u 0) (uuid_word u 1) (uuid_word u 2) (uuid_word u 3) s

/-- Modelled from the spec: `linuxd_enter_sp` (assembly, not among the sources) captures the
caller's continuation, stores its handle in `c_rt_ctx` of the context, and leaves for the
secure payload; it returns the value passed to the matching `linuxd_exit_sp`. -/
def linuxd_enter_sp (P : Platform) (core : Nat) (s : DState) : Outcome Nat :=
  .enter_sp (P.c_rt_sp core)
    (upd_linux_ctx core (fun c => { c with c_rt_ctx := P.c_rt_sp core }) s)
    (fun rc t => .ret rc t)

/-- Modelled from the spec: `linuxd_exit_sp` (assembly, not among the sources) resumes the
continuation stored under the handle with the value; it never returns to its caller. -/
def linuxd_exit_sp {α : Type} (c_rt_ctx ret : Nat) (s : DState) : Outcome α :=
  .exit_sp c_rt_ctx ret s

/-- The parked C runtime `pending` receives the completion signal `signal`: when the signal is
a `linuxd_exit_sp` on the handle under which the runtime is parked, the rest of the C call
stack runs with the value; nothing is defined otherwise. -/
def Outcome.resume {α β : Type} (pending : Outcome α) (signal : Outcome β) : Option (Outcome α) :=
  match pending, signal with
  | .enter_sp h _ k, .exit_sp c v t => if c = h then some (k v t) else none
  | _, _ => none

/-! ## `linuxd_common.c` -/

/-- Initialise the context of the core and the entry point descriptor for the secure
payload; the descriptor written through `linux_entry_point` is the value returned. -/
def linuxd_init_linux_ep_state (cfg : BuildConfig) (P : Platform) (core : Nat)
    (linux_entry_point : entry_point_info_t) (rw pc : Nat) (s : DState) :
    Outcome entry_point_info_t :=
  c_assert cfg (pc != 0) s <|
  c_assert cfg (rw == LINUX_AARCH64) s <|
  let s := upd_linux_ctx core (fun c => { c with mpidr := P.mpidr core }) s
  let s := upd_linux_ctx core (fun c => { c with state := 0 }) s
  let s := upd_linux_ctx core (fun c => { c with state := set_linux_pstate c.state LINUX_PSTATE_OFF }) s
  let s := upd_linux_ctx core (fun c => { c with state := clr_yield_smc_active_flag c.state }) s
  let s := cm_set_context core (.sp_cpu_ctx core) SECURE s
  let ep_attr := SECURE.toNat ||| EP_ST_ENABLE
  let ep_attr := if P.sctlr_el3 &&& SCTLR_EE_BIT != 0 then ep_attr ||| EP_EE_BIG else ep_attr
  let ep := { linux_entry_point with h_type := PARAM_EP, h_version := VERSION_1, h_attr := ep_attr }
  let ep := { ep with pc := pc }
  let ep := { ep with spsr := SPSR_64 MODE_EL1 MODE_SP_ELX DISABLE_ALL_EXCEPTIONS }
  let ep := { ep with args := List.replicate 8 0 }
  .ret ep s

/-- Apply the secure context of the core and enter the secure payload; returns the value
given to the matching `linuxd_synchronous_sp_exit`. -/
def linuxd_synchronous_sp_entry (cfg : BuildConfig) (P : Platform) (core : Nat) (s : DState) :
    Outcome Nat :=
  c_assert cfg ((s.linuxd_sp_context core).c_rt_ctx == 0) s <|
  c_assert cfg (cm_get_context core SECURE s == some (.sp_cpu_ctx core)) s <|
  let s := cm_el1_sysregs_context_restore core SECURE s
  let s := cm_set_next_eret_context core SECURE s
  (linuxd_enter_sp P core s).bind fun rc s =>
  let s := if cfg.ENABLE_ASSERTIONS then upd_linux_ctx core (fun c => { c with c_rt_ctx := 0 }) s
           else s
  .ret rc s

/-- Save the secure context of the core and resume the C runtime parked by
`linuxd_synchronous_sp_entry`. -/
def linuxd_synchronous_sp_exit {α : Type} (cfg : BuildConfig) (core : Nat) (ret : Nat)
    (s : DState) : Outcome α :=
  c_assert cfg (cm_get_context core SECURE s == some (.sp_cpu_ctx core)) s <|
  let s := cm_el1_sysregs_context_save core SECURE s
  c_assert cfg ((s.linuxd_sp_context core).c_rt_ctx != 0) s <|
  linuxd_exit_sp (s.linuxd_sp_context core).c_rt_ctx ret s

/-- Abort any preempted SMC request; returns 1 if there was one, 0 otherwise. -/
def linuxd_abort_preempted_smc (cfg : BuildConfig) (P : Platform) (core : Nat) (s : DState) :
    Outcome Int :=
  if get_yield_smc_active_flag (s.linuxd_sp_context core).state = 0 then .ret 0 s
  else
    let s := upd_linux_ctx core (fun c => { c with state := clr_yield_smc_active_flag c.state }) s
    let s := cm_set_elr_el3 core SECURE ((s.linux_vectors + P.abort_yield_smc_entry) % 2 ^ 64) s
    (linuxd_synchronous_sp_entry cfg P core s).bind fun rc s =>
    if rc != 0 then .halt s
    else .ret 1 s

/-! ## `linuxd_main.c` -/

/-- Secure EL1 preemption: switch to the normal world with `SMC_PREEMPTED` in `x0`. -/
def linuxd_handle_sp_preemption (cfg : BuildConfig) (P : Platform) (core : Nat)
    (handle : CtxPtr) (s : DState) : Outcome (Option CtxPtr) :=
  c_assert cfg (some handle == cm_get_context core SECURE s) s <|
  let s := cm_el1_sysregs_context_save core SECURE s
  let ns_cpu_context := cm_get_context core NON_SECURE s
  c_assert cfg ns_cpu_context.isSome s <|
  let s := cm_el1_sysregs_context_restore core NON_SECURE s
  let s := cm_set_next_eret_context core NON_SECURE s
  SMC_RET1 ns_cpu_context P.SMC_PREEMPTED s

/-- Copy of `LINUXD_SP_CTX_SIZE` bytes from a `cpu_context_t` into an `sp_ctx_regs_t`. -/
def memcpy_to_sp_ctx (c : cpu_context_t) : sp_ctx_regs_t :=
  { x0 := c.gpregs.x0, x1 := c.gpregs.x1, x2 := c.gpregs.x2, x3 := c.gpregs.x3,
    x4_x17 := c.gpregs.x4_x17 }

/-- Copy of `LINUXD_SP_CTX_SIZE` bytes from an `sp_ctx_regs_t` into a `cpu_context_t`. -/
def memcpy_from_sp_ctx (c : cpu_context_t) (r : sp_ctx_regs_t) : cpu_context_t :=
  { c with gpregs := { c.gpregs with x0 := r.x0, x1 := r.x1, x2 := r.x2, x3 := r.x3,
                                     x4_x17 := r.x4_x17 } }

/-- Handler registered for S-EL1 interrupts. -/
def linuxd_sel1_interrupt_handler (cfg : BuildConfig) (P : Platform) (core : Nat)
    (id flags : Nat) (handle : CtxPtr) (cookie : Nat) (s : DState) : Outcome (Option CtxPtr) :=
  c_assert cfg (get_interrupt_src_ss flags == NON_SECURE) s <|
  c_assert cfg (some handle == cm_get_context core NON_SECURE s) s <|
  let s := cm_el1_sysregs_context_save core NON_SECURE s
  c_assert cfg (some (.sp_cpu_ctx core) == cm_get_context core SECURE s) s <|
  let s :=
    if get_yield_smc_active_flag (s.linuxd_sp_context core).state != 0 then
      let s := upd_linux_ctx core
        (fun c => { c with saved_spsr_el3 := c.cpu_ctx.spsr_el3 % 2 ^ 32 }) s
      let s := upd_linux_ctx core (fun c => { c with saved_elr_el3 := c.cpu_ctx.elr_el3 }) s
      if cfg.LINUX_NS_INTR_ASYNC_PREEMPT then
        upd_linux_ctx core (fun c => { c with sp_ctx := memcpy_to_sp_ctx c.cpu_ctx }) s
      else s
    else s
  let s := cm_el1_sysregs_context_restore core SECURE s
  let s := cm_set_elr_spsr_el3 core SECURE ((s.linux_vectors + P.sel1_intr_entry) % 2 ^ 64)
    (SPSR_64 MODE_EL1 MODE_SP_ELX DISABLE_ALL_EXCEPTIONS) s
  let s := cm_set_next_eret_context core SECURE s
  SMC_RET2 (some (.sp_cpu_ctx core)) P.LINUX_HANDLE_SEL1_INTR_AND_RETURN (s.elr_el3 core) s

/-- Handler registered for non-secure interrupts (`LINUX_NS_INTR_ASYNC_PREEMPT` builds). -/
def linuxd_ns_interrupt_handler (cfg : BuildConfig) (P : Platform) (core : Nat)
    (id flags : Nat) (handle : CtxPtr) (cookie : Nat) (s : DState) : Outcome (Option CtxPtr) :=
  c_assert cfg (get_interrupt_src_ss flags == SECURE) s <|
  let s := disable_intr_rm_local core s
  linuxd_handle_sp_preemption cfg P core handle s

/-- Secure Payload Dispatcher setup. -/
def linuxd_setup (cfg : BuildConfig) (P : Platform) (core : Nat) (s : DState) : Outcome Int :=
  match s.bl32_ep_info with
  | none => .ret 1 s
  | some linux_ep_info =>
    if linux_ep_info.pc = 0 then .ret 1 s
    else
      (linuxd_init_linux_ep_state cfg P core linux_ep_info LINUX_AARCH64 linux_ep_info.pc s).bind
        fun ep s =>
      let s := { s with bl32_ep_info := some ep }
      let s := if cfg.LINUX_INIT_ASYNC then bl31_set_next_image_type SECURE s
               else bl31_register_bl32_init s
      .ret 0 s

/-- First entry into the secure payload on the primary cpu after a cold boot. -/
def linuxd_init (cfg : BuildConfig) (P : Platform) (core : Nat) (s : DState) : Outcome Int :=
  let linux_entry_point := s.bl32_ep_info
  c_assert cfg linux_entry_point.isSome s <|
  let s := match linux_entry_point with
    | some ep => cm_init_my_context core ep s
    | none => s
  (linuxd_synchronous_sp_entry cfg P core s).bind fun rc s =>
  c_assert cfg (rc != 0) s <|
  .ret (to_int32 rc) s

/-- The `putchar` call of the `LINUX_PUTCHAR` case. -/
def putchar (c : Nat) (s : DState) : DState :=
  { s with console := (c % 256) :: s.console }

/-- The statements of the `LINUX_ENTRY_DONE` case guarded by `if (linux_vectors)`. -/
def linuxd_entry_done_register (cfg : BuildConfig) (core : Nat) (s : DState) : Outcome Unit :=
  let s := upd_linux_ctx core (fun c => { c with state := set_linux_pstate c.state LINUX_PSTATE_ON }) s
  let s := psci_register_spd_pm_hook s
  let flags := set_interrupt_rm_flag 0 NON_SECURE
  let r := register_interrupt_type_handler INTR_TYPE_S_EL1
    IntrHandler.linuxd_sel1_interrupt_handler flags s
  if r.1 != 0 then .halt r.2
  else if cfg.LINUX_NS_INTR_ASYNC_PREEMPT then
    let flags := set_interrupt_rm_flag 0 SECURE
    let r := register_interrupt_type_handler INTR_TYPE_NS
      IntrHandler.linuxd_ns_interrupt_handler flags r.2
    if r.1 != 0 then .halt r.2
    else .ret () (disable_intr_rm_local core r.2)
  else .ret () r.2

/-- Handler of all SMCs in the Trusted OS range. -/
def linuxd_smc_handler (cfg : BuildConfig) (P : Platform) (core : Nat)
    (smc_fid x1 x2 x3 x4 : Nat) (cookie : Nat) (handle : CtxPtr) (flags : Nat) (s : DState) :
    Outcome (Option CtxPtr) :=
  let ns := is_caller_non_secure flags
  if smc_fid = P.LINUX_PUTCHAR then
    SMC_RET0 (some handle) (putchar x1 s)
  else if smc_fid = P.LINUX_PREEMPTED then
    if ns then SMC_RET1 (some handle) P.SMC_UNK s
    else linuxd_handle_sp_preemption cfg P core handle s
  else if smc_fid = P.LINUX_HANDLED_S_EL1_INTR then
    if ns then SMC_RET1 (some handle) P.SMC_UNK s
    else
      c_assert cfg (some handle == cm_get_context core SECURE s) s <|
      let s :=
        if get_yield_smc_active_flag (s.linuxd_sp_context core).state != 0 then
          let s := upd_linux_ctx core
            (fun c => { c with cpu_ctx := { c.cpu_ctx with spsr_el3 := c.saved_spsr_el3 } }) s
          let s := upd_linux_ctx core
            (fun c => { c with cpu_ctx := { c.cpu_ctx with elr_el3 := c.saved_elr_el3 } }) s
          if cfg.LINUX_NS_INTR_ASYNC_PREEMPT then
            upd_linux_ctx core (fun c => { c with cpu_ctx := memcpy_from_sp_ctx c.cpu_ctx c.sp_ctx }) s
          else s
        else s
      let ns_cpu_context := cm_get_context core NON_SECURE s
      c_assert cfg ns_cpu_context.isSome s <|
      let s := cm_el1_sysregs_context_restore core NON_SECURE s
      let s := cm_set_next_eret_context core NON_SECURE s
      SMC_RET0 ns_cpu_context s
  else if smc_fid = P.LINUX_ENTRY_DONE then
    if ns then SMC_RET1 (some handle) P.SMC_UNK s
    else
      c_assert cfg (s.linux_vectors == 0) s <|
      let s := { s with linux_vectors := x1 }
      (if s.linux_vectors != 0 then linuxd_entry_done_register cfg core s else .ret () s).bind
        fun _ s =>
      if cfg.LINUX_INIT_ASYNC then
        c_assert cfg (cm_get_context core SECURE s == some (.sp_cpu_ctx core)) s <|
        let s := cm_el1_sysregs_context_save core SECURE s
        let next_image_info := s.bl33_ep_info
        c_assert cfg next_image_info.isSome s <|
        c_assert cfg (next_image_info.all fun e => NON_SECURE == GET_SECURITY_STATE e.h_attr) s <|
        let s := match next_image_info with
          | some e => cm_init_my_context core e s
          | none => s
        let s := cm_prepare_el3_exit core NON_SECURE s
        SMC_RET0 (cm_get_context core NON_SECURE s) s
      else
        linuxd_synchronous_sp_exit cfg core x1 s
  else if smc_fid = P.LINUX_ABORT_DONE ∨ smc_fid = P.LINUX_ON_DONE ∨
      smc_fid = P.LINUX_RESUME_DONE ∨ smc_fid = P.LINUX_OFF_DONE ∨
      smc_fid = P.LINUX_SUSPEND_DONE ∨ smc_fid = P.LINUX_SYSTEM_OFF_DONE ∨
      smc_fid = P.LINUX_SYSTEM_RESET_DONE then
    if ns then SMC_RET1 (some handle) P.SMC_UNK s
    else linuxd_synchronous_sp_exit cfg core x1 s
  else if smc_fid = P.LINUX_FID_ABORT then
    if !ns then
      c_assert cfg false s <|
      SMC_RET1 (some handle) P.SMC_UNK s
    else
      c_assert cfg (some handle == cm_get_context core NON_SECURE s) s <|
      let s := cm_el1_sysregs_context_save core NON_SECURE s
      (linuxd_abort_preempted_smc cfg P core s).bind fun aborted s =>
      if aborted = 0 then
        let s := cm_set_next_eret_context core NON_SECURE s
        SMC_RET1 (some handle) P.SMC_UNK s
      else
        let s := cm_el1_sysregs_context_restore core NON_SECURE s
        let s := cm_set_next_eret_context core NON_SECURE s
        SMC_RET1 (some handle) P.SMC_OK s
  else if smc_fid = P.LINUX_FID_RESUME then
    if !ns then
      c_assert cfg false s <|
      SMC_RET1 (some handle) P.SMC_UNK s
    else
      c_assert cfg (some handle == cm_get_context core NON_SECURE s) s <|
      if get_yield_smc_active_flag (s.linuxd_sp_context core).state = 0 then
        SMC_RET1 (some handle) P.SMC_UNK s
      else
        let s := cm_el1_sysregs_context_save core NON_SECURE s
        let s := if cfg.LINUX_NS_INTR_ASYNC_PREEMPT then enable_intr_rm_local core s else s
        let s := if cfg.EL3_EXCEPTION_HANDLING then ehf_allow_ns_preemption core P.LINUX_PREEMPTED s
                 else s
        let s := cm_el1_sysregs_context_restore core SECURE s
        let s := cm_set_next_eret_context core SECURE s
        SMC_RET0 (some (.sp_cpu_ctx core)) s
  else if smc_fid = P.LINUX_GET_ARGS then
    if ns then SMC_RET1 (some handle) P.SMC_UNK s
    else
      let a := get_linux_args (s.linuxd_sp_context core)
      SMC_RET2 (some handle) a.1 a.2 s
  else if smc_fid = P.TOS_CALL_COUNT then
    SMC_RET1 (some handle) P.LINUX_NUM_FID s
  else if smc_fid = P.TOS_UID then
    SMC_UUID_RET (some handle) linux_uuid s
  else if smc_fid = P.TOS_CALL_VERSION then
    SMC_RET2 (some handle) P.LINUX_VERSION_MAJOR P.LINUX_VERSION_MINOR s
  else
    SMC_RET1 (some handle) P.SMC_UNK s

/-! ## `linuxd_pm.c` -/

/-- The target cpu is being turned on: nothing to do. -/
def linuxd_cpu_on_handler (target_cpu : Nat) (s : DState) : Outcome Unit := .ret () s

/-- This cpu is being turned off. -/
def linuxd_cpu_off_handler (cfg : BuildConfig) (P : Platform) (core : Nat) (unused : Nat)
    (s : DState) : Outcome Int :=
  c_assert cfg (s.linux_vectors != 0) s <|
  c_assert cfg (get_linux_pstate (s.linuxd_sp_context core).state == LINUX_PSTATE_ON) s <|
  (linuxd_abort_preempted_smc cfg P core s).bind fun _ s =>
  let s := cm_set_elr_el3 core SECURE ((s.linux_vectors + P.cpu_off_entry) % 2 ^ 64) s
  (linuxd_synchronous_sp_entry cfg P core s).bind fun rc s =>
  let rc := to_int32 rc
  if rc != 0 then .halt s
  else
    let s := upd_linux_ctx core (fun c => { c with state := set_linux_pstate c.state LINUX_PSTATE_OFF }) s
    .ret 0 s

/-- This cpu is being suspended. -/
def linuxd_cpu_suspend_handler (cfg : BuildConfig) (P : Platform) (core : Nat)
    (max_off_pwrlvl : Nat) (s : DState) : Outcome Unit :=
  c_assert cfg (s.linux_vectors != 0) s <|
  c_assert cfg (get_linux_pstate (s.linuxd_sp_context core).state == LINUX_PSTATE_ON) s <|
  (linuxd_abort_preempted_smc cfg P core s).bind fun _ s =>
  let s := cm_set_elr_el3 core SECURE ((s.linux_vectors + P.cpu_suspend_entry) % 2 ^ 64) s
  (linuxd_synchronous_sp_entry cfg P core s).bind fun rc s =>
  let rc := to_int32 rc
  if rc != 0 then .halt s
  else
    .ret () (upd_linux_ctx core
      (fun c => { c with state := set_linux_pstate c.state LINUX_PSTATE_SUSPEND }) s)

/-- The descriptor a handler declares as a local variable, before it is filled. -/
def local_entry_point : entry_point_info_t :=
  { h_type := 0, h_version := 0, h_attr := 0, pc := 0, spsr := 0, args := [] }

/-- This cpu has been turned on. -/
def linuxd_cpu_on_finish_handler (cfg : BuildConfig) (P : Platform) (core : Nat) (unused : Nat)
    (s : DState) : Outcome Unit :=
  c_assert cfg (s.linux_vectors != 0) s <|
  c_assert cfg (get_linux_pstate (s.linuxd_sp_context core).state == LINUX_PSTATE_OFF) s <|
  (linuxd_init_linux_ep_state cfg P core local_entry_point LINUX_AARCH64
      ((s.linux_vectors + P.cpu_on_entry) % 2 ^ 64) s).bind fun linux_on_entrypoint s =>
  let s := cm_init_my_context core linux_on_entrypoint s
  let s := if cfg.LINUX_NS_INTR_ASYNC_PREEMPT then disable_intr_rm_local core s else s
  (linuxd_synchronous_sp_entry cfg P core s).bind fun rc s =>
  let rc := to_int32 rc
  if rc != 0 then .halt s
  else
    .ret () (upd_linux_ctx core (fun c => { c with state := set_linux_pstate c.state LINUX_PSTATE_ON }) s)

/-- This cpu has resumed from suspend. -/
def linuxd_cpu_suspend_finish_handler (cfg : BuildConfig) (P : Platform) (core : Nat)
    (max_off_pwrlvl : Nat) (s : DState) : Outcome Unit :=
  c_assert cfg (s.linux_vectors != 0) s <|
  c_assert cfg (get_linux_pstate (s.linuxd_sp_context core).state == LINUX_PSTATE_SUSPEND) s <|
  let s := upd_linux_ctx core
    (fun c => { c with cpu_ctx := { c.cpu_ctx with gpregs := { c.cpu_ctx.gpregs with x0 := max_off_pwrlvl } } }) s
  let s := cm_set_elr_el3 core SECURE ((s.linux_vectors + P.cpu_resume_entry) % 2 ^ 64) s
  (linuxd_synchronous_sp_entry cfg P core s).bind fun rc s =>
  let rc := to_int32 rc
  if rc != 0 then .halt s
  else
    .ret () (upd_linux_ctx core (fun c => { c with state := set_linux_pstate c.state LINUX_PSTATE_ON }) s)

/-- Type of payload the dispatcher deals with. -/
def linuxd_cpu_migrate_info (P : Platform) (s : DState) : Outcome Int :=
  .ret (to_int32 P.LINUX_MIGRATE_INFO) s

/-- System is about to be switched off. -/
def linuxd_system_off (cfg : BuildConfig) (P : Platform) (core : Nat) (s : DState) :
    Outcome Unit :=
  c_assert cfg (s.linux_vectors != 0) s <|
  c_assert cfg (get_linux_pstate (s.linuxd_sp_context core).state == LINUX_PSTATE_ON) s <|
  (linuxd_abort_preempted_smc cfg P core s).bind fun _ s =>
  let s := cm_set_elr_el3 core SECURE ((s.linux_vectors + P.system_off_entry) % 2 ^ 64) s
  (linuxd_synchronous_sp_entry cfg P core s).bind fun _ s =>
  .ret () s

/-- System is about to be reset. -/
def linuxd_system_reset (cfg : BuildConfig) (P : Platform) (core : Nat) (s : DState) :
    Outcome Unit :=
  c_assert cfg (s.linux_vectors != 0) s <|
  c_assert cfg (get_linux_pstate (s.linuxd_sp_context core).state == LINUX_PSTATE_ON) s <|
  (linuxd_abort_preempted_smc cfg P core s).bind fun _ s =>
  let s := cm_set_elr_el3 core SECURE ((s.linux_vectors + P.system_reset_entry) % 2 ^ 64) s
  (linuxd_synchronous_sp_entry cfg P core s).bind fun _ s =>
  .ret () s

/-! ## Concrete instances used to evaluate the embedding -/

/-- A platform with concrete constants, for evaluating the embedding.  The values are
examples: the headers that define the constants are not among the sources. -/
def sample_platform : Platform :=
  { LINUX_PUTCHAR := 0xf2000010, LINUX_PREEMPTED := 0xf2000005,
    LINUX_HANDLED_S_EL1_INTR := 0xf2000006, LINUX_ENTRY_DONE := 0xf2000000,
    LINUX_ABORT_DONE := 0xf2000007, LINUX_ON_DONE := 0xf2000001,
    LINUX_RESUME_DONE := 0xf2000004, LINUX_OFF_DONE := 0xf2000002,
    LINUX_SUSPEND_DONE := 0xf2000003, LINUX_SYSTEM_OFF_DONE := 0xf2000008,
    LINUX_SYSTEM_RESET_DONE := 0xf2000009, LINUX_FID_ABORT := 0xf2003001,
    LINUX_FID_RESUME := 0x72003000, LINUX_GET_ARGS := 0xf2001000,
    TOS_CALL_COUNT := 0xbf00ff01, TOS_UID := 0xbf00ff02, TOS_CALL_VERSION := 0xbf00ff03,
    LINUX_NUM_FID := 5, LINUX_VERSION_MAJOR := 0, LINUX_VERSION_MINOR := 1,
    LINUX_MIGRATE_INFO := 2, LINUX_HANDLE_SEL1_INTR_AND_RETURN := 0x2004,
    SMC_OK := 0, SMC_UNK := 2 ^ 64 - 1, SMC_PREEMPTED := 2 ^ 64 - 2,
    cpu_on_entry := 8, cpu_off_entry := 12, cpu_resume_entry := 16, cpu_suspend_entry := 20,
    sel1_intr_entry := 24, system_off_entry := 28, system_reset_entry := 32,
    abort_yield_smc_entry := 36,
    mpidr := fun c => 0x80000000 + c, sctlr_el3 := 0x30c50830,
    c_rt_sp := fun c => 0xe000000 + 0x1000 * (c + 1) }

/-- Build with assertions, without the optional features. -/
def debug_build : BuildConfig :=
  { ENABLE_ASSERTIONS := true, LINUX_NS_INTR_ASYNC_PREEMPT := false, LINUX_INIT_ASYNC := false,
    EL3_EXCEPTION_HANDLING := false }

/-- Build without assertions, without the optional features. -/
def release_build : BuildConfig :=
  { ENABLE_ASSERTIONS := false, LINUX_NS_INTR_ASYNC_PREEMPT := false, LINUX_INIT_ASYNC := false,
    EL3_EXCEPTION_HANDLING := false }

/-- An all-zero `cpu_context_t`. -/
def zero_cpu_context : cpu_context_t :=
  { gpregs := { x0 := 0, x1 := 0, x2 := 0, x3 := 0, x4_x17 := List.replicate 14 0,
                x18_x30 := List.replicate 13 0 },
    spsr_el3 := 0, elr_el3 := 0, el1_sysregs := 0 }

/-- An all-zero `linux_context_t`, as the array `linuxd_sp_context` is at boot. -/
def zero_linux_context : linux_context_t :=
  { saved_elr_el3 := 0, saved_spsr_el3 := 0, state := 0, mpidr := 0, c_rt_ctx := 0,
    cpu_ctx := zero_cpu_context, saved_linux_args := (0, 0),
    sp_ctx := { x0 := 0, x1 := 0, x2 := 0, x3 := 0, x4_x17 := List.replicate 14 0 } }

/-- State at boot: the globals of the dispatcher are zero, the non-secure context of every
core is known to the context manager, the image descriptors are as given. -/
def boot_state (bl32 bl33 : Option entry_point_info_t) : DState :=
  { linux_vectors := 0,
    linuxd_sp_context := fun _ => zero_linux_context,
    ns_cpu_context := fun _ => zero_cpu_context,
    cm_context := fun c w => match w with
      | SECURE => none
      | NON_SECURE => some (.ns_cpu_ctx c),
    next_eret_context := fun _ => none,
    el1_sysregs := fun _ => 0,
    elr_el3 := fun _ => 0,
    bl32_ep_info := bl32,
    bl33_ep_info := bl33,
    pm_hook_registrations := 0,
    intr_handlers := [],
    ns_intr_rm_local := fun _ => false,
    bl32_init_registrations := 0,
    next_image_type := none,
    ns_preempt_code := fun _ => none,
    console := [] }

/-- Boot state in which `&linuxd_sp_context[core].cpu_ctx` is registered as the secure context
of the core, as `linuxd_init_linux_ep_state` registers it, and the live EL1 registers hold
`regs`. -/
def bound_state (core regs : Nat) : DState :=
  { cm_set_context core (.sp_cpu_ctx core) SECURE (boot_state none none) with
    el1_sysregs := fun _ => regs }

/-- Result value of an outcome that returns. -/
def Outcome.value? {α : Type} : Outcome α → Option α
  | .ret a _ => some a
  | _ => none

/-- State in which an outcome leaves the dispatcher. -/
def Outcome.state {α : Type} : Outcome α → DState
  | .ret _ s => s
  | .halt s => s
  | .enter_sp _ s _ => s
  | .exit_sp _ _ s => s

/-- Does the outcome halt the firmware. -/
def Outcome.halts {α : Type} : Outcome α → Bool
  | .halt _ => true
  | _ => false

/-- Does the outcome leave EL3 for the secure payload through `linuxd_enter_sp`. -/
def Outcome.enters {α : Type} : Outcome α → Bool
  | .enter_sp _ _ _ => true
  | _ => false

/-- Does the outcome resume a parked C runtime through `linuxd_exit_sp`. -/
def Outcome.exits {α : Type} : Outcome α → Bool
  | .exit_sp _ _ _ => true
  | _ => false

/-- The payload ran: the live EL1 registers of every core now hold `regs`. -/
def payload_ran (regs : Nat) (s : DState) : DState :=
  { s with el1_sysregs := fun _ => regs }

/-- State of core 0 parked by `linuxd_synchronous_sp_entry` under the build `cfg`, after the
payload has run and left `regs` in the live EL1 registers. -/
def parked_state (cfg : BuildConfig) (regs : Nat) : DState :=
  payload_ran regs (linuxd_synchronous_sp_entry cfg sample_platform 0 (bound_state 0 7)).state

/-- A bound context of core 0 whose `c_rt_ctx` already holds a handle. -/
def nested_state : DState :=
  upd_linux_ctx 0 (fun c => { c with c_rt_ctx := 0xe001000 }) (bound_state 0 7)

/-- Two contexts that differ at most in the saved `x0` of their register file. -/
def same_but_x0 (a b : linux_context_t) : Prop :=
  a = { b with cpu_ctx := { b.cpu_ctx with
          gpregs := { b.cpu_ctx.gpregs with x0 := a.cpu_ctx.gpregs.x0 } } }

/-- The identifiers whose `case` starts with `if (ns) SMC_RET1(handle, SMC_UNK)`. -/
def Platform.secure_only (P : Platform) : List Nat :=
  [P.LINUX_PREEMPTED, P.LINUX_HANDLED_S_EL1_INTR, P.LINUX_ENTRY_DONE, P.LINUX_ABORT_DONE,
   P.LINUX_ON_DONE, P.LINUX_RESUME_DONE, P.LINUX_OFF_DONE, P.LINUX_SUSPEND_DONE,
   P.LINUX_SYSTEM_OFF_DONE, P.LINUX_SYSTEM_RESET_DONE, P.LINUX_GET_ARGS]

/-- Run of `n` consecutive non-secure Abort-requests of a core; `none` once one does not
return to its caller. -/
def abort_requests (cfg : BuildConfig) (P : Platform) (core x1 x2 x3 x4 cookie : Nat)
    (handle : CtxPtr) (flags : Nat) : Nat → DState → Option DState
  | 0, s => some s
  | n + 1, s =>
    match linuxd_smc_handler cfg P core P.LINUX_FID_ABORT x1 x2 x3 x4 cookie handle flags s with
    | .ret _ s' => abort_requests cfg P core x1 x2 x3 x4 cookie handle flags n s'
    | _ => none

/-- State after a non-secure Abort-request that found nothing to abort. -/
def abort_nothing (P : Platform) (core : Nat) (s : DState) : DState :=
  write_ctx (.ns_cpu_ctx core) (fun c => { c with gpregs := { c.gpregs with x0 := P.SMC_UNK } })
    (cm_set_next_eret_context core NON_SECURE (cm_el1_sysregs_context_save core NON_SECURE s))

/-- Image descriptor of a secure payload at `0xe100000`. -/
def sample_bl32 : entry_point_info_t :=
  { h_type := 1, h_version := 1, h_attr := 0, pc := 0xe100000, spsr := 0x3c5,
    args := List.replicate 8 0 }

/-- Run of the cold boot on core 0 of the sample platform: `linuxd_setup`, `linuxd_init`, and
the initialization-complete signal of the payload carrying the vector table `0xe100100`. -/
def initialised_state (cfg : BuildConfig) : Option DState :=
  match linuxd_setup cfg sample_platform 0 (boot_state (some sample_bl32) none) with
  | .ret _ s1 =>
    match (linuxd_init cfg sample_platform 0 s1).resume
        (linuxd_smc_handler cfg sample_platform 0 sample_platform.LINUX_ENTRY_DONE 0xe100100 0 0 0
          0 (.sp_cpu_ctx 0) 0 (payload_ran 5 (linuxd_init cfg sample_platform 0 s1).state)) with
    | some (.ret _ s2) => some s2
    | _ => none
  | _ => none

/-- A bound context of core 0 that is On with the yield flag set, the vector table at
`0xe100100`. -/
def yielding_state : DState :=
  { upd_linux_ctx 0
      (fun c => { c with state := set_yield_smc_active_flag (set_linux_pstate c.state LINUX_PSTATE_ON) })
      (bound_state 0 7) with linux_vectors := 0xe100100 }

/-! ## Bookkeeping view, invariants of outcomes, and the machine of calls -/

/-- The same outcome with the returned value dropped. -/
def Outcome.void {α : Type} (o : Outcome α) : Outcome Unit := o.bind fun _ s => .ret () s

/-- An outcome keeps `I`: every state in which it leaves the dispatcher satisfies `I`, and so
does, after a resumption in a state that satisfies `I`, the rest of the C call stack. -/
def Outcome.Keeps {α : Type} (I : DState → Prop) : Outcome α → Prop
  | .ret _ s => I s
  | .halt s => I s
  | .enter_sp _ s k => I s ∧ ∀ v t, I t → (k v t).Keeps I
  | .exit_sp _ _ s => I s

/-- When the outcome parks a C runtime, the rest of the call keeps `I` once it is resumed
in a state that satisfies `I`, and so does what it parks in turn, whatever the state it is
resumed in. -/
def Outcome.Conts {α : Type} (I : DState → Prop) : Outcome α → Prop
  | .enter_sp _ _ k => ∀ v t, (k v t).Conts I ∧ (I t → (k v t).Keeps I)
  | _ => True

/-- The bookkeeping of the dispatcher: the vector-table pointer, the state word and the
saved arguments of every context, and the registrations made with the collaborators. -/
structure Book where
  linux_vectors : Nat
  state : Nat → Nat
  saved_linux_args : Nat → Nat × Nat
  pm_hook_registrations : Nat
  intr_handlers : List (Nat × IntrHandler × Nat)
  bl32_init_registrations : Nat

/-- The bookkeeping held in a state. -/
def DState.book (s : DState) : Book :=
  { linux_vectors := s.linux_vectors,
    state := fun c => (s.linuxd_sp_context c).state,
    saved_linux_args := fun c => (s.linuxd_sp_context c).saved_linux_args,
    pm_hook_registrations := s.pm_hook_registrations,
    intr_handlers := s.intr_handlers,
    bl32_init_registrations := s.bl32_init_registrations }

/-- Bookkeeping after the state word of `core` went through `g`. -/
def Book.set_state (b : Book) (core : Nat) (g : Nat → Nat) : Book :=
  { b with state := Function.update b.state core (g (b.state core)) }

/-- Bookkeeping after `linux_vectors = (linux_vectors_t *) x1` of the `LINUX_ENTRY_DONE` case. -/
def Book.entry_done_1 (b : Book) (x1 : Nat) : Book :=
  { b with linux_vectors := x1 }

/-- Bookkeeping after the power state was set to On and the power hooks were registered. -/
def Book.entry_done_2 (b : Book) (core x1 : Nat) : Book :=
  { (b.entry_done_1 x1).set_state core (fun st => set_linux_pstate st LINUX_PSTATE_ON) with
    pm_hook_registrations := b.pm_hook_registrations + 1 }

/-- Bookkeeping after the S-EL1 interrupt handler was registered as well. -/
def Book.entry_done_3 (b : Book) (core x1 : Nat) : Book :=
  { b.entry_done_2 core x1 with
    intr_handlers := (INTR_TYPE_S_EL1, IntrHandler.linuxd_sel1_interrupt_handler,
      set_interrupt_rm_flag 0 NON_SECURE) :: b.intr_handlers }

/-- Bookkeeping after the non-secure interrupt handler was registered as well. -/
def Book.entry_done_4 (b : Book) (core x1 : Nat) : Book :=
  { b.entry_done_3 core x1 with
    intr_handlers := (INTR_TYPE_NS, IntrHandler.linuxd_ns_interrupt_handler,
      set_interrupt_rm_flag 0 SECURE) :: (b.entry_done_3 core x1).intr_handlers }

/-- A property of the bookkeeping that every write of the dispatcher preserves: the writes to
a state word (clearing the yield flag, setting a power state, zeroing), the registration of
the deferred initialisation, and the writes of the initialization-complete signal, which in a
build with assertions happen only while `linux_vectors` is `NULL`. -/
structure Book.Closed (cfg : BuildConfig) (B : Book → Prop) : Prop where
  clr_yield : ∀ b core, B b → B (b.set_state core clr_yield_smc_active_flag)
  set_pstate : ∀ b core x, x ≤ 2 → B b → B (b.set_state core (fun st => set_linux_pstate st x))
  zero : ∀ b core, B b → B (b.set_state core (fun _ => 0))
  bl32_init : ∀ b, B b → B { b with bl32_init_registrations := b.bl32_init_registrations + 1 }
  entry_done : ∀ b core x1, (cfg.ENABLE_ASSERTIONS = true → b.linux_vectors = 0) → B b →
    B (b.entry_done_1 x1) ∧ B (b.entry_done_2 core x1) ∧ B (b.entry_done_3 core x1) ∧
    B (b.entry_done_4 core x1)

/-- Lifecycle hooks of `linuxd_pm` that enter the payload. -/
inductive Lifecycle where
  | cpu_off
  | cpu_suspend
  | cpu_on_finish
  | cpu_suspend_finish
  | system_off
  | system_reset
deriving DecidableEq, Repr

/-- Power state that the hook asserts on entry. -/
def Lifecycle.pre : Lifecycle → Nat
  | .cpu_off => LINUX_PSTATE_ON
  | .cpu_suspend => LINUX_PSTATE_ON
  | .cpu_on_finish => LINUX_PSTATE_OFF
  | .cpu_suspend_finish => LINUX_PSTATE_SUSPEND
  | .system_off => LINUX_PSTATE_ON
  | .system_reset => LINUX_PSTATE_ON

/-- The hook of `linuxd_pm` for a lifecycle event, called with argument `arg`. -/
def Lifecycle.run (cfg : BuildConfig) (P : Platform) (core arg : Nat) :
    Lifecycle → DState → Outcome Unit
  | .cpu_off, s => (linuxd_cpu_off_handler cfg P core arg s).void
  | .cpu_suspend, s => linuxd_cpu_suspend_handler cfg P core arg s
  | .cpu_on_finish, s => linuxd_cpu_on_finish_handler cfg P core arg s
  | .cpu_suspend_finish, s => linuxd_cpu_suspend_finish_handler cfg P core arg s
  | .system_off, s => linuxd_system_off cfg P core s
  | .system_reset, s => linuxd_system_reset cfg P core s

/-- What makes dispatcher code run on a core, and what the worlds do in between. -/
inductive Event where
  /-- An SMC in the Trusted OS range. -/
  | smc (smc_fid x1 x2 x3 x4 cookie : Nat) (handle : CtxPtr) (flags : Nat)
  /-- A secure interrupt taken while the non-secure world runs. -/
  | sel1_interrupt (id flags : Nat) (handle : CtxPtr) (cookie : Nat)
  /-- A non-secure interrupt taken while the secure world runs. -/
  | ns_interrupt (id flags : Nat) (handle : CtxPtr) (cookie : Nat)
  /-- The initialisation of the runtime service (`linuxd_setup`). -/
  | setup
  /-- The deferred initialisation (`linuxd_init`). -/
  | init
  /-- The `svc_on` hook. -/
  | cpu_on (target_cpu : Nat)
  /-- The `svc_migrate_info` hook. -/
  | migrate_info
  /-- One of the hooks that enter the payload. -/
  | lifecycle (l : Lifecycle) (arg : Nat)
  /-- A world ran: it left `c` in the register file behind `p` and changed the live
  registers of the core. -/
  | world_ran (p : CtxPtr) (c : cpu_context_t) (sysregs elr : Nat)

/-- Is the machine running, halted by the dispatcher, or past a `linuxd_exit_sp` that matches
no parked C runtime. -/
inductive Status where
  | running
  | halted
  | undefined
deriving DecidableEq, Repr

/-- State of the dispatcher together with the C runtimes parked in `linuxd_enter_sp` on each
core (handle and rest of the call stack, innermost first) and what the runtime service
framework recorded at boot. -/
structure Machine where
  d : DState
  parked : Nat → List (Nat × (Nat → DState → Outcome Unit))
  status : Status
  setup_ran : Bool
  service_enabled : Bool

/-- The machine at boot. -/
def Machine.boot (bl32 bl33 : Option entry_point_info_t) : Machine :=
  { d := boot_state bl32 bl33, parked := fun _ => [], status := .running, setup_ran := false,
    service_enabled := false }

/-- The function of the dispatcher that an event stands for, run on the state of the
machine; a world that ran leaves its register file and the live registers of the core. -/
def Machine.call (cfg : BuildConfig) (P : Platform) (m : Machine) (core : Nat) :
    Event → Outcome Unit
  | .smc smc_fid x1 x2 x3 x4 cookie handle flags =>
    (linuxd_smc_handler cfg P core smc_fid x1 x2 x3 x4 cookie handle flags m.d).void
  | .sel1_interrupt id flags handle cookie =>
    (linuxd_sel1_interrupt_handler cfg P core id flags handle cookie m.d).void
  | .ns_interrupt id flags handle cookie =>
    (linuxd_ns_interrupt_handler cfg P core id flags handle cookie m.d).void
  | .setup => (linuxd_setup cfg P core m.d).void
  | .init => (linuxd_init cfg P core m.d).void
  | .cpu_on target_cpu => linuxd_cpu_on_handler target_cpu m.d
  | .migrate_info => (linuxd_cpu_migrate_info P m.d).void
  | .lifecycle l arg => l.run cfg P core arg m.d
  | .world_ran p c sysregs elr =>
    .ret () { write_ctx p (fun _ => c) m.d with
      el1_sysregs := Function.update m.d.el1_sysregs core sysregs,
      elr_el3 := Function.update m.d.elr_el3 core elr }

/-- Modelled from the spec: what the platform does with an event it keeps from the
dispatcher: a call is answered `SMC_UNK`, anything else is dropped. -/
def Machine.refuse (P : Platform) (m : Machine) : Event → Outcome Unit
  | .smc _ _ _ _ _ _ handle _ => (SMC_RET1 (some handle) P.SMC_UNK m.d).void
  | _ => .ret () m.d

/-- A routing of events: which events the platform lets through to the dispatcher, in a
given state of the machine, on a given core. -/
def Routing : Type := Machine → Nat → Event → Bool

/-- What happens on an event under a routing. -/
def Machine.react (cfg : BuildConfig) (P : Platform) (g : Routing) (m : Machine) (core : Nat)
    (e : Event) : Outcome Unit :=
  if g m core e then m.call cfg P core e else m.refuse P e

/-- Modelled from the spec: the routing of the platform.  The runtime service framework, the
power orchestrator and the interrupt router are not among the sources: the service is
disabled when its setup returned a non-zero code, and its calls are then kept from the
dispatcher; a hook or handler runs only once it has been registered; setup runs once. -/
def platform_routing : Routing := fun m _ e =>
  match e with
  | .smc _ _ _ _ _ _ _ _ => m.service_enabled
  | .sel1_interrupt _ _ _ _ => m.d.intr_handlers.any (fun e => e.1 == INTR_TYPE_S_EL1)
  | .ns_interrupt _ _ _ _ => m.d.intr_handlers.any (fun e => e.1 == INTR_TYPE_NS)
  | .setup => !m.setup_ran
  | .init => decide (0 < m.d.bl32_init_registrations)
  | .cpu_on _ => decide (0 < m.d.pm_hook_registrations)
  | .migrate_info => decide (0 < m.d.pm_hook_registrations)
  | .lifecycle _ _ => decide (0 < m.d.pm_hook_registrations)
  | .world_ran _ _ _ _ => true

/-- The machine after an outcome that is not a `linuxd_exit_sp`. -/
def Machine.settle (m : Machine) (core : Nat) : Outcome Unit → Machine
  | .ret _ s => { m with d := s }
  | .halt s => { m with d := s, status := .halted }
  | .enter_sp h s k =>
    { m with d := s, parked := Function.update m.parked core ((h, k) :: m.parked core) }
  | .exit_sp _ _ s => { m with d := s, status := .undefined }

/-- The machine after an outcome: a `linuxd_exit_sp` on the handle of the innermost parked C
runtime of the core resumes that runtime with the value. -/
def Machine.deliver (m : Machine) (core : Nat) : Outcome Unit → Machine
  | .exit_sp c v s =>
    match m.parked core with
    | (h, k) :: rest =>
      if c = h then
        Machine.settle { m with parked := Function.update m.parked core rest } core (k v s)
      else { m with d := s, status := .undefined }
    | [] => { m with d := s, status := .undefined }
  | o => m.settle core o

/-- One event on a core, under a routing. -/
def Machine.step (cfg : BuildConfig) (P : Platform) (g : Routing) (m : Machine) (core : Nat)
    (e : Event) : Machine :=
  match m.status with
  | .running =>
    let m' := m.deliver core (m.react cfg P g core e)
    match e with
    | .setup =>
      if g m core .setup then
        { m' with setup_ran := true,
                  service_enabled := (linuxd_setup cfg P core m.d).value? == some 0 }
      else m'
    | _ => m'
  | _ => m

/-- A sequence of events, each on its core, under a routing. -/
def Machine.run (cfg : BuildConfig) (P : Platform) (g : Routing) (m : Machine) :
    List (Nat × Event) → Machine
  | [] => m
  | (core, e) :: es => (m.step cfg P g core e).run cfg P g es

/-- Every parked C runtime keeps, once resumed, every closed property of the bookkeeping
that holds where it is resumed, and parks only C runtimes that do so too. -/
def Machine.Sound (cfg : BuildConfig) (m : Machine) : Prop :=
  ∀ core fr, fr ∈ m.parked core → ∀ B : Book → Prop, Book.Closed cfg B →
    ∀ v t, (fr.2 v t).Conts (fun d => B d.book) ∧
      (B t.book → (fr.2 v t).Keeps (fun d => B d.book))

/-! ## Views of the power state and of the answers of the payload -/

/-- The `power_state` of the context of a core. -/
def DState.pstate (s : DState) (core : Nat) : Nat :=
  get_linux_pstate (s.linuxd_sp_context core).state

/-- The `yield_active` flag of the context of a core. -/
def DState.yield_active (s : DState) (core : Nat) : Nat :=
  get_yield_smc_active_flag (s.linuxd_sp_context core).state

/-- The four edges that the specification lists for `power_state`: Off to On, On to Off,
On to Suspended, Suspended to On. -/
def pstate_edge (p q : Nat) : Prop :=
  (p = LINUX_PSTATE_OFF ∧ q = LINUX_PSTATE_ON) ∨ (p = LINUX_PSTATE_ON ∧ q = LINUX_PSTATE_OFF) ∨
  (p = LINUX_PSTATE_ON ∧ q = LINUX_PSTATE_SUSPEND) ∨
  (p = LINUX_PSTATE_SUSPEND ∧ q = LINUX_PSTATE_ON)

/-- The power state `q` is `p` or one edge away from `p`. -/
def pstate_moves (p q : Nat) : Prop := q = p ∨ pstate_edge p q

/-- Every state in which the call leaves the dispatcher has the `power_state` of `core` at
`p` or one edge away from `p`, whenever the payload hands each entry back with the
`power_state` it was entered with. -/
def Outcome.Along {α : Type} (core : Nat) (p : Nat) : Outcome α → Prop
  | .ret _ u => pstate_moves p (u.pstate core)
  | .halt u => pstate_moves p (u.pstate core)
  | .enter_sp _ u k =>
    pstate_moves p (u.pstate core) ∧ ∀ v t, t.pstate core = u.pstate core → (k v t).Along core p
  | .exit_sp _ _ u => pstate_moves p (u.pstate core)

/-- The call ends with `Q` when the payload answers every entry with `v`, handing it back in
a state that satisfies `R`: `Q` receives the returned value, or `none` when the call halts,
and the last state. -/
def Outcome.Ends {α : Type} (R : DState → Prop) (v : Nat) (Q : Option α → DState → Prop) :
    Outcome α → Prop
  | .ret a u => Q (some a) u
  | .halt u => Q none u
  | .enter_sp _ _ k => ∀ t, R t → (k v t).Ends R v Q
  | .exit_sp _ _ _ => False

/-- The payload answers an entry with `v` at once, in the state it was entered in. -/
def Outcome.answer {α : Type} (v : Nat) : Outcome α → Outcome α
  | .enter_sp _ s k => k v s
  | o => o

/-- Build with assertions in which the first entry is not deferred (`LINUX_INIT_ASYNC`). -/
def async_build : BuildConfig :=
  { ENABLE_ASSERTIONS := true, LINUX_NS_INTR_ASYNC_PREEMPT := false, LINUX_INIT_ASYNC := true,
    EL3_EXCEPTION_HANDLING := false }

/-- Image descriptor of a non-secure image at `0x60000000`. -/
def sample_bl33 : entry_point_info_t :=
  { h_type := 1, h_version := 1, h_attr := 1, pc := 0x60000000, spsr := 0x3c9,
    args := List.replicate 8 0 }

/-- A bound context of core 0 with the given `power_state`, the vector table at
`0xe100100`. -/
def lifecycle_state (pst : Nat) : DState :=
  { upd_linux_ctx 0 (fun c => { c with state := set_linux_pstate c.state pst })
      (bound_state 0 7) with linux_vectors := 0xe100100 }

/-- The context of core 0 parked in `linuxd_init` under the build `cfg`, the payload running:
what the initialization-complete signal of the payload meets. -/
def first_entry_state (cfg : BuildConfig) : DState :=
  match linuxd_setup cfg sample_platform 0 (boot_state (some sample_bl32) (some sample_bl33)) with
  | .ret _ s1 => payload_ran 5 (linuxd_init cfg sample_platform 0 s1).state
  | o => o.state

/-- The `power_state` a hook of `linuxd_pm` writes once the payload has answered its entry
with 0; the system-off and system-reset hooks write none. -/
def Lifecycle.post : Lifecycle → Option Nat
  | .cpu_off => some LINUX_PSTATE_OFF
  | .cpu_suspend => some LINUX_PSTATE_SUSPEND
  | .cpu_on_finish => some LINUX_PSTATE_ON
  | .cpu_suspend_finish => some LINUX_PSTATE_ON
  | .system_off => none
  | .system_reset => none

/-- The state in which `linuxd_synchronous_sp_entry` parks the C runtime of the core. -/
def sp_entry_prologue (P : Platform) (core : Nat) (s : DState) : DState :=
  upd_linux_ctx core (fun c => { c with c_rt_ctx := P.c_rt_sp core })
    (cm_set_next_eret_context core SECURE (cm_el1_sysregs_context_restore core SECURE s))

/-- The statements of `linuxd_synchronous_sp_entry` that follow the return of
`linuxd_enter_sp`. -/
def sp_entry_epilogue (cfg : BuildConfig) (core : Nat) (t : DState) : DState :=
  if cfg.ENABLE_ASSERTIONS then upd_linux_ctx core (fun c => { c with c_rt_ctx := 0 }) t else t

/-- The secure context registered for the core is the one of `linuxd_sp_context[core]`. -/
def DState.secure_bound (s : DState) (core : Nat) : Prop :=
  s.cm_context core SECURE = some (.sp_cpu_ctx core)

/-- State of core 0 after `linuxd_setup` under `async_build`, the payload running as the
next image: what its initialization-complete signal meets in that build. -/
def async_entry_state : DState :=
  payload_ran 5
    (linuxd_setup async_build sample_platform 0
      (boot_state (some sample_bl32) (some sample_bl33))).state

/-- The service is disabled: its setup ran and failed, nothing is registered, no C runtime
is parked, and the globals of the dispatcher are as at boot. -/
def Machine.Disabled (m : Machine) : Prop :=
  m.status = .running ∧ m.setup_ran = true ∧ m.service_enabled = false ∧
  (∀ c, m.parked c = []) ∧ m.d.linux_vectors = 0 ∧
  (∀ c, (m.d.linuxd_sp_context c).state = 0) ∧
  m.d.pm_hook_registrations = 0 ∧ m.d.intr_handlers = [] ∧ m.d.bl32_init_registrations = 0 ∧
  (∀ c, m.d.cm_context c NON_SECURE = some (.ns_cpu_ctx c))

/-! ## The record the state word stands for -/

/-- The record of the specification that stands for the state word: `power_state` and
`yield_active` as named fields. -/
structure StateRecord where
  power_state : Nat
  yield_active : Bool
deriving DecidableEq, Repr

/-- Record operation of the specification: assign `power_state`. -/
def StateRecord.set_power_state (r : StateRecord) (p : Nat) : StateRecord :=
  { r with power_state := p }

/-- Record operation of the specification: set `yield_active`. -/
def StateRecord.set_yield_active (r : StateRecord) : StateRecord :=
  { r with yield_active := true }

/-- Record operation of the specification: clear `yield_active`. -/
def StateRecord.clr_yield_active (r : StateRecord) : StateRecord :=
  { r with yield_active := false }

/-- The record a state word stands for, read with the macros of `linuxd_private.h`. -/
def state_record (st : Nat) : StateRecord :=
  { power_state := get_linux_pstate st, yield_active := get_yield_smc_active_flag st != 0 }

/-! ## Result registers of a call -/

/-- A register file with the result registers `x0`..`x3` replaced. -/
def with_results (c : cpu_context_t) (r0 r1 r2 r3 : Nat) : cpu_context_t :=
  { c with gpregs := { c.gpregs with x0 := r0, x1 := r1, x2 := r2, x3 := r3 } }

/-- Two contexts that differ at most in the saved result registers `x0`..`x3` of their
register file. -/
def same_but_results (a b : linux_context_t) : Prop :=
  a = { b with cpu_ctx := (with_results b.cpu_ctx a.cpu_ctx.gpregs.x0 a.cpu_ctx.gpregs.x1
          a.cpu_ctx.gpregs.x2 a.cpu_ctx.gpregs.x3) }

instance (a b : linux_context_t) : Decidable (same_but_results a b) := by
  unfold same_but_results; infer_instance

/-- The saved result registers `x0`..`x3` of a register file. -/
def DState.results (s : DState) (p : CtxPtr) : List Nat :=
  [(s.ctx_at p).gpregs.x0, (s.ctx_at p).gpregs.x1, (s.ctx_at p).gpregs.x2, (s.ctx_at p).gpregs.x3]

/-- The call returns to the caller behind `handle` with the words `r` in the first result
registers, and leaves the state `s` as it was but for the result registers `x0`..`x3` of that
caller: the vector-table pointer, every field of every `linuxd_sp_context[c]` outside these
registers, and the registrations are unchanged. -/
def Outcome.Answers (o : Outcome (Option CtxPtr)) (handle : CtxPtr) (s : DState)
    (r : List Nat) : Prop :=
  ∃ s', o = .ret (some handle) s' ∧ (s'.results handle).take r.length = r ∧
    s'.linux_vectors = s.linux_vectors ∧
    (∀ c, same_but_results (s'.linuxd_sp_context c) (s.linuxd_sp_context c)) ∧
    (∀ c, handle = .ns_cpu_ctx c → s'.linuxd_sp_context = s.linuxd_sp_context) ∧
    s'.book = s.book ∧ s'.cm_context = s.cm_context ∧
    s'.next_eret_context = s.next_eret_context ∧ s'.el1_sysregs = s.el1_sysregs

/-! ## Preemption, and the stash around a secure interrupt -/

/-- What a preemption of the secure world leaves on `core`, started in `s` and ended in
`s1`: the live EL1 registers of the secure world are saved in the secure context, the saved
non-secure ones are live again, the non-secure world is the next to resume, the non-secure
caller finds `status` in `x0`, and the state word of every context is as it was. -/
def preempted_to (core status : Nat) (s s1 : DState) : Prop :=
  (s1.linuxd_sp_context core).cpu_ctx.el1_sysregs = s.el1_sysregs core ∧
  s1.el1_sysregs core = (s.ns_cpu_context core).el1_sysregs ∧
  s1.next_eret_context core = some NON_SECURE ∧
  (s1.ns_cpu_context core).gpregs.x0 = status ∧
  (∀ c, (s1.linuxd_sp_context c).state = (s.linuxd_sp_context c).state) ∧
  s1.linux_vectors = s.linux_vectors

/-- Invariant (c) of the specification read on a state word: a set yield flag implies
`power_state` On. -/
def yield_implies_on (st : Nat) : Prop :=
  get_yield_smc_active_flag st ≠ 0 → get_linux_pstate st = LINUX_PSTATE_ON

instance (st : Nat) : Decidable (yield_implies_on st) := by
  unfold yield_implies_on; infer_instance

/-- Every state in which the call leaves the dispatcher satisfies `J` on the state word of the
context of core `c`, whenever the payload hands each entry back with the state word it was
entered with. -/
def Outcome.Holds {α : Type} (c : Nat) (J : Nat → Prop) : Outcome α → Prop
  | .ret _ u => J (u.linuxd_sp_context c).state
  | .halt u => J (u.linuxd_sp_context c).state
  | .enter_sp _ u k =>
    J (u.linuxd_sp_context c).state ∧
      ∀ v t, (t.linuxd_sp_context c).state = (u.linuxd_sp_context c).state → (k v t).Holds c J
  | .exit_sp _ _ u => J (u.linuxd_sp_context c).state

/-- The context of core `j` holds `X`, and no context registered with the context manager
for `core` is the register file inside it: what a call made on another core `core` has to
leave as it is. -/
def DState.apart (s : DState) (core j : Nat) (X : linux_context_t) : Prop :=
  s.linuxd_sp_context j = X ∧ ∀ w, s.cm_context core w ≠ some (.sp_cpu_ctx j)

/-! ## Theorems -/

/-! ### Auxiliary facts -/

/-- In the `switch`, a label differs from every label that comes before it. -/
theorem later_ne (P : Platform) (hP : P.labels_distinct) :
    P.case_labels.Pairwise (fun a b => b ≠ a) :=
  List.Pairwise.imp (fun h => Ne.symm h) hP

/-- An identifier that is no `case` label takes the `default` branch. -/
theorem linuxd_smc_handler_default (cfg : BuildConfig) (P : Platform)
    (core smc_fid x1 x2 x3 x4 cookie : Nat) (handle : CtxPtr) (flags : Nat) (s : DState)
    (hfid : smc_fid ∉ P.case_labels) :
    linuxd_smc_handler cfg P core smc_fid x1 x2 x3 x4 cookie handle flags s
      = SMC_RET1 (some handle) P.SMC_UNK s := by
  simp [Platform.case_labels] at hfid
  simp [linuxd_smc_handler, hfid]

/-- Clearing the yield flag makes its reading 0. -/
theorem get_yield_clr (st : Nat) :
    get_yield_smc_active_flag (clr_yield_smc_active_flag st) = 0 := by
  unfold get_yield_smc_active_flag clr_yield_smc_active_flag not32
    YIELD_SMC_ACTIVE_FLAG_MASK YIELD_SMC_ACTIVE_FLAG_SHIFT
  apply Nat.eq_of_testBit_eq
  intro i
  simp only [Nat.testBit_and, Nat.testBit_shiftRight, Nat.zero_testBit]
  cases i with
  | zero =>
    simp
    intro _
    decide
  | succ n =>
    have : Nat.testBit 1 (n + 1) = false := by
      simp [Nat.testBit, Nat.shiftRight_succ_inside]
    simp [this]

/-- A non-secure Abort-request with the yield flag clear returns in `abort_nothing`. -/
theorem abort_no_yield (cfg : BuildConfig) (P : Platform) (hP : P.labels_distinct)
    (core x1 x2 x3 x4 cookie flags : Nat) (s : DState)
    (hns : is_caller_non_secure flags = true)
    (hcm : s.cm_context core NON_SECURE = some (.ns_cpu_ctx core))
    (hy : get_yield_smc_active_flag (s.linuxd_sp_context core).state = 0) :
    linuxd_smc_handler cfg P core P.LINUX_FID_ABORT x1 x2 x3 x4 cookie (.ns_cpu_ctx core) flags s
      = .ret (some (.ns_cpu_ctx core)) (abort_nothing P core s) := by
  have hd := later_ne P hP
  simp [Platform.case_labels] at hd
  simp [linuxd_smc_handler, hd, hns, c_assert, cm_get_context, hcm, linuxd_abort_preempted_smc,
    cm_el1_sysregs_context_save, write_ctx_opt, write_ctx, hy, Outcome.bind, SMC_RET1,
    abort_nothing]

/-- Doing `abort_nothing` twice is doing it once. -/
theorem abort_nothing_idem (P : Platform) (core : Nat) (s : DState)
    (hcm : s.cm_context core NON_SECURE = some (.ns_cpu_ctx core)) :
    abort_nothing P core (abort_nothing P core s) = abort_nothing P core s := by
  simp [abort_nothing, cm_el1_sysregs_context_save, cm_set_next_eret_context, write_ctx_opt,
    write_ctx, hcm]

/-- Abort-requests keep a state that `abort_nothing` fixes. -/
theorem abort_requests_fixed (cfg : BuildConfig) (P : Platform) (hP : P.labels_distinct)
    (core x1 x2 x3 x4 cookie flags : Nat) (hns : is_caller_non_secure flags = true)
    (u : DState)
    (hcm : u.cm_context core NON_SECURE = some (.ns_cpu_ctx core))
    (hy : get_yield_smc_active_flag (u.linuxd_sp_context core).state = 0)
    (hfix : abort_nothing P core u = u) (n : Nat) :
    abort_requests cfg P core x1 x2 x3 x4 cookie (.ns_cpu_ctx core) flags n u = some u := by
  induction n with
  | zero => rfl
  | succ m ih =>
    simp [abort_requests, abort_no_yield cfg P hP core x1 x2 x3 x4 cookie flags u hns hcm hy,
      hfix, ih]

/-- Frame of a write to the saved `x0` behind a handle: the slot holds the value,
`linux_vectors` is unchanged, every context is unchanged apart from that slot, and the array
of contexts is unchanged when the handle is a non-secure register file. -/
theorem write_x0_frame (handle : CtxPtr) (r0 : Nat) (s : DState) :
    ((write_ctx_opt (some handle)
        (fun c => { c with gpregs := { c.gpregs with x0 := r0 } }) s).ctx_at handle).gpregs.x0
      = r0 ∧
    (write_ctx_opt (some handle)
        (fun c => { c with gpregs := { c.gpregs with x0 := r0 } }) s).linux_vectors
      = s.linux_vectors ∧
    (∀ c, same_but_x0
      ((write_ctx_opt (some handle)
        (fun c => { c with gpregs := { c.gpregs with x0 := r0 } }) s).linuxd_sp_context c)
      (s.linuxd_sp_context c)) ∧
    (∀ c, handle = .ns_cpu_ctx c →
      (write_ctx_opt (some handle)
        (fun c => { c with gpregs := { c.gpregs with x0 := r0 } }) s).linuxd_sp_context
      = s.linuxd_sp_context) := by
  refine ⟨?_, ?_, ?_, ?_⟩
  · cases handle <;> simp [write_ctx_opt, write_ctx, upd_linux_ctx, DState.ctx_at]
  · cases handle <;> simp [write_ctx_opt, write_ctx, upd_linux_ctx]
  · intro c
    cases handle with
    | sp_cpu_ctx d =>
      by_cases h : c = d
      · subst h; simp [write_ctx_opt, write_ctx, upd_linux_ctx, same_but_x0]
      · simp [write_ctx_opt, write_ctx, upd_linux_ctx, same_but_x0, h]
    | ns_cpu_ctx d => simp [write_ctx_opt, write_ctx, same_but_x0]
  · intro c h
    subst h
    simp [write_ctx_opt, write_ctx]

/-- Contexts that differ at most in the saved `x0` agree on the state word, the continuation,
the saved fields and the saved arguments. -/
theorem same_but_x0_fields (a b : linux_context_t) (h : same_but_x0 a b) :
    a.state = b.state ∧ a.c_rt_ctx = b.c_rt_ctx ∧ a.saved_elr_el3 = b.saved_elr_el3 ∧
    a.saved_spsr_el3 = b.saved_spsr_el3 ∧ a.saved_linux_args = b.saved_linux_args ∧
    a.mpidr = b.mpidr ∧ a.sp_ctx = b.sp_ctx := by
  unfold same_but_x0 at h
  rw [h]
  simp

/-! ### Synchronous switch -/

/-- C1: round trip of the synchronous switch.  For a context with an empty `c_rt_ctx` that is
the secure context of its core, `linuxd_synchronous_sp_entry` parks the C runtime; when the
matching completion signal reaches `linuxd_synchronous_sp_exit(ctx, V)` in a state `t`, the
live secure EL1 registers are first saved into the context (`t1`), and the parked entry then
returns exactly `V`, in a state `t2` that holds the saved registers. -/
theorem C1_sync_round_trip (cfg : BuildConfig) (P : Platform) (core : Nat) (s t : DState)
    (V : Nat)
    (hempty : (s.linuxd_sp_context core).c_rt_ctx = 0)
    (hcm : s.cm_context core SECURE = some (.sp_cpu_ctx core))
    (hsp : P.c_rt_sp core ≠ 0)
    (hcm_t : t.cm_context core SECURE = some (.sp_cpu_ctx core))
    (hmatch : (t.linuxd_sp_context core).c_rt_ctx = P.c_rt_sp core) :
    ∃ t1 t2,
      (linuxd_synchronous_sp_exit cfg core V t : Outcome (Option CtxPtr))
        = .exit_sp (P.c_rt_sp core) V t1 ∧
      t1 = cm_el1_sysregs_context_save core SECURE t ∧
      (t1.linuxd_sp_context core).cpu_ctx.el1_sysregs = t.el1_sysregs core ∧
      (linuxd_synchronous_sp_entry cfg P core s).resume
        (linuxd_synchronous_sp_exit cfg core V t : Outcome (Option CtxPtr))
        = some (.ret V t2) ∧
      (t2.linuxd_sp_context core).cpu_ctx.el1_sysregs = t.el1_sysregs core := by
  refine ⟨cm_el1_sysregs_context_save core SECURE t, ?_⟩
  simp [linuxd_synchronous_sp_exit, linuxd_synchronous_sp_entry, linuxd_exit_sp,
    linuxd_enter_sp, c_assert, cm_get_context, cm_el1_sysregs_context_save, write_ctx_opt,
    write_ctx, upd_linux_ctx, Outcome.bind, Outcome.resume, hempty, hcm, hcm_t, hmatch, hsp]
  split <;> simp

/-- Witness of C1 on core 0 of the sample platform: the payload leaves 9 in the live EL1
registers and signals completion with 42. -/
theorem C1_sync_round_trip_witness :
    ∃ t1 t2,
      (linuxd_synchronous_sp_exit debug_build 0 42 (parked_state debug_build 9) :
          Outcome (Option CtxPtr)) = .exit_sp (sample_platform.c_rt_sp 0) 42 t1 ∧
      t1 = cm_el1_sysregs_context_save 0 SECURE (parked_state debug_build 9) ∧
      (t1.linuxd_sp_context 0).cpu_ctx.el1_sysregs = (parked_state debug_build 9).el1_sysregs 0 ∧
      (linuxd_synchronous_sp_entry debug_build sample_platform 0 (bound_state 0 7)).resume
        (linuxd_synchronous_sp_exit debug_build 0 42 (parked_state debug_build 9) :
          Outcome (Option CtxPtr)) = some (.ret 42 t2) ∧
      (t2.linuxd_sp_context 0).cpu_ctx.el1_sysregs = (parked_state debug_build 9).el1_sysregs 0 :=
  C1_sync_round_trip debug_build sample_platform 0 (bound_state 0 7) (parked_state debug_build 9)
    42 (by decide) (by decide) (by decide) (by decide) (by decide)

/-- C2, as stated, fails: in a build without assertions the entry of core 0 returns 42 with
`c_rt_ctx` still holding the handle `0xe001000` that `linuxd_enter_sp` stored. -/
theorem C2_counterexample :
    ((linuxd_synchronous_sp_entry release_build sample_platform 0 (bound_state 0 7)).resume
      (linuxd_synchronous_sp_exit release_build 0 42 (parked_state release_build 9) :
        Outcome (Option CtxPtr))).map
      (fun o => (o.value?, (o.state.linuxd_sp_context 0).c_rt_ctx))
      = some (some 42, 0xe001000) := by
  decide

/-- C2, amended: when `linuxd_synchronous_sp_entry` returns, `c_rt_ctx` of the context is 0 in
a build with `ENABLE_ASSERTIONS`, and is what it was at the completion signal, the handle
stored by `linuxd_enter_sp`, in a build without. -/
theorem C2_continuation_after_return (cfg : BuildConfig) (P : Platform) (core : Nat)
    (s t : DState) (V : Nat)
    (hempty : (s.linuxd_sp_context core).c_rt_ctx = 0)
    (hcm : s.cm_context core SECURE = some (.sp_cpu_ctx core))
    (hsp : P.c_rt_sp core ≠ 0)
    (hcm_t : t.cm_context core SECURE = some (.sp_cpu_ctx core))
    (hmatch : (t.linuxd_sp_context core).c_rt_ctx = P.c_rt_sp core) :
    ∃ t2,
      (linuxd_synchronous_sp_entry cfg P core s).resume
        (linuxd_synchronous_sp_exit cfg core V t : Outcome (Option CtxPtr))
        = some (.ret V t2) ∧
      (t2.linuxd_sp_context core).c_rt_ctx
        = if cfg.ENABLE_ASSERTIONS then 0 else P.c_rt_sp core := by
  simp [linuxd_synchronous_sp_exit, linuxd_synchronous_sp_entry, linuxd_exit_sp,
    linuxd_enter_sp, c_assert, cm_get_context, cm_el1_sysregs_context_save, write_ctx_opt,
    write_ctx, upd_linux_ctx, Outcome.bind, Outcome.resume, hempty, hcm, hcm_t, hmatch, hsp]
  split <;> simp

/-- Witness of the amended C2 in the build with assertions on core 0. -/
theorem C2_continuation_after_return_witness :
    ∃ t2,
      (linuxd_synchronous_sp_entry debug_build sample_platform 0 (bound_state 0 7)).resume
        (linuxd_synchronous_sp_exit debug_build 0 42 (parked_state debug_build 9) :
          Outcome (Option CtxPtr)) = some (.ret 42 t2) ∧
      (t2.linuxd_sp_context 0).c_rt_ctx
        = if debug_build.ENABLE_ASSERTIONS then 0 else sample_platform.c_rt_sp 0 :=
  C2_continuation_after_return debug_build sample_platform 0 (bound_state 0 7)
    (parked_state debug_build 9) 42 (by decide) (by decide) (by decide) (by decide) (by decide)

/-- C3, as stated, fails: in a build without assertions `linuxd_synchronous_sp_entry` on a
context whose `c_rt_ctx` holds `0xe001000` does not halt; it designates the secure world and
leaves for the payload. -/
theorem C3_counterexample :
    (nested_state.linuxd_sp_context 0).c_rt_ctx = 0xe001000 ∧
    (linuxd_synchronous_sp_entry release_build sample_platform 0 nested_state).halts = false ∧
    (linuxd_synchronous_sp_entry release_build sample_platform 0 nested_state).enters = true ∧
    (linuxd_synchronous_sp_entry release_build sample_platform 0 nested_state).state.next_eret_context 0
      = some SECURE := by
  decide

/-- C3, amended: in a build with `ENABLE_ASSERTIONS`, `linuxd_synchronous_sp_entry` on a
context `s` whose `c_rt_ctx` is not 0 halts in the state it was called in (no world switch),
and `linuxd_synchronous_sp_exit` on a context `u` whose `c_rt_ctx` is 0 halts and resumes
nothing. -/
theorem C3_nesting_caught (cfg : BuildConfig) (P : Platform) (core : Nat) (s u : DState)
    (V : Nat) (hassert : cfg.ENABLE_ASSERTIONS = true)
    (hs : (s.linuxd_sp_context core).c_rt_ctx ≠ 0)
    (hu : (u.linuxd_sp_context core).c_rt_ctx = 0) :
    linuxd_synchronous_sp_entry cfg P core s = .halt s ∧
    (linuxd_synchronous_sp_exit cfg core V u : Outcome (Option CtxPtr)).halts = true ∧
    (linuxd_synchronous_sp_exit cfg core V u : Outcome (Option CtxPtr)).exits = false := by
  constructor
  · simp [linuxd_synchronous_sp_entry, c_assert, hassert, hs]
  · simp only [linuxd_synchronous_sp_exit, c_assert, hassert, cm_get_context,
      cm_el1_sysregs_context_save, write_ctx_opt]
    cases hc : u.cm_context core SECURE with
    | none => simp [Outcome.halts, Outcome.exits]
    | some p =>
      cases p with
      | sp_cpu_ctx c =>
        by_cases hcc : c = core
        · subst hcc
          simp [write_ctx, upd_linux_ctx, hu, Outcome.halts, Outcome.exits]
        · simp [hcc, Outcome.halts, Outcome.exits]
      | ns_cpu_ctx c => simp [Outcome.halts, Outcome.exits]

/-- Witness of the amended C3 in the build with assertions: the entry on the nested context
and the exit on the empty context of core 0. -/
theorem C3_nesting_caught_witness :
    linuxd_synchronous_sp_entry debug_build sample_platform 0 nested_state
      = .halt nested_state ∧
    (linuxd_synchronous_sp_exit debug_build 0 42 (bound_state 0 7) :
      Outcome (Option CtxPtr)).halts = true ∧
    (linuxd_synchronous_sp_exit debug_build 0 42 (bound_state 0 7) :
      Outcome (Option CtxPtr)).exits = false :=
  C3_nesting_caught debug_build sample_platform 0 nested_state (bound_state 0 7) 42
    (by decide) (by decide) (by decide)

/-! ### Call dispatcher -/

/-- C4: an identifier that is none of the `case` labels, from either world and in every state,
makes `linuxd_smc_handler` return (it does not halt) with `SMC_UNK` in `x0` of the caller's
saved registers, which is all it writes: `linux_vectors` is unchanged; in every context the
state word, the continuation, the saved fields and the saved arguments are unchanged, and the
context as a whole is unchanged apart from that `x0` slot (which lies in the context's own
register file when the caller is the secure world); for a non-secure handle the whole array
`linuxd_sp_context` is unchanged. -/
theorem C4_unknown_fid (cfg : BuildConfig) (P : Platform)
    (core smc_fid x1 x2 x3 x4 cookie : Nat) (handle : CtxPtr) (flags : Nat) (s : DState)
    (hfid : smc_fid ∉ P.case_labels) :
    ∃ s', linuxd_smc_handler cfg P core smc_fid x1 x2 x3 x4 cookie handle flags s
        = .ret (some handle) s' ∧
      (s'.ctx_at handle).gpregs.x0 = P.SMC_UNK ∧
      s'.linux_vectors = s.linux_vectors ∧
      (∀ c, (s'.linuxd_sp_context c).state = (s.linuxd_sp_context c).state ∧
        (s'.linuxd_sp_context c).c_rt_ctx = (s.linuxd_sp_context c).c_rt_ctx ∧
        (s'.linuxd_sp_context c).saved_elr_el3 = (s.linuxd_sp_context c).saved_elr_el3 ∧
        (s'.linuxd_sp_context c).saved_spsr_el3 = (s.linuxd_sp_context c).saved_spsr_el3 ∧
        (s'.linuxd_sp_context c).saved_linux_args = (s.linuxd_sp_context c).saved_linux_args) ∧
      (∀ c, same_but_x0 (s'.linuxd_sp_context c) (s.linuxd_sp_context c)) ∧
      (∀ c, handle = .ns_cpu_ctx c → s'.linuxd_sp_context = s.linuxd_sp_context) := by
  rw [linuxd_smc_handler_default cfg P core smc_fid x1 x2 x3 x4 cookie handle flags s hfid]
  obtain ⟨h0, hv, hsame, hns⟩ := write_x0_frame handle P.SMC_UNK s
  refine ⟨_, rfl, h0, hv, ?_, hsame, hns⟩
  intro c
  obtain ⟨h1, h2, h3, h4, h5, _⟩ := same_but_x0_fields _ _ (hsame c)
  exact ⟨h1, h2, h3, h4, h5⟩

/-- Witness of C4: the identifier `0x72002000` from the secure world on core 0. -/
theorem C4_unknown_fid_witness :
    ∃ s', linuxd_smc_handler debug_build sample_platform 0 0x72002000 1 2 3 4 0
          (.sp_cpu_ctx 0) 0 (bound_state 0 7) = .ret (some (.sp_cpu_ctx 0)) s' ∧
      (s'.ctx_at (.sp_cpu_ctx 0)).gpregs.x0 = sample_platform.SMC_UNK ∧
      s'.linux_vectors = (bound_state 0 7).linux_vectors ∧
      (∀ c, (s'.linuxd_sp_context c).state = ((bound_state 0 7).linuxd_sp_context c).state ∧
        (s'.linuxd_sp_context c).c_rt_ctx = ((bound_state 0 7).linuxd_sp_context c).c_rt_ctx ∧
        (s'.linuxd_sp_context c).saved_elr_el3
          = ((bound_state 0 7).linuxd_sp_context c).saved_elr_el3 ∧
        (s'.linuxd_sp_context c).saved_spsr_el3
          = ((bound_state 0 7).linuxd_sp_context c).saved_spsr_el3 ∧
        (s'.linuxd_sp_context c).saved_linux_args
          = ((bound_state 0 7).linuxd_sp_context c).saved_linux_args) ∧
      (∀ c, same_but_x0 (s'.linuxd_sp_context c) ((bound_state 0 7).linuxd_sp_context c)) ∧
      (∀ c, CtxPtr.sp_cpu_ctx 0 = .ns_cpu_ctx c →
        s'.linuxd_sp_context = (bound_state 0 7).linuxd_sp_context) :=
  C4_unknown_fid debug_build sample_platform 0 0x72002000 1 2 3 4 0 (.sp_cpu_ctx 0) 0
    (bound_state 0 7) (by decide)

/-- C5: a secure-only identifier called with the non-secure caller flag, the handle being the
caller's non-secure register file: the handler returns `SMC_UNK` in `x0` of the caller, so it
neither reaches `linuxd_synchronous_sp_exit` nor switches worlds, and `linuxd_sp_context`,
`linux_vectors`, the registrations, the next world, the live EL1 registers and the registered
contexts are unchanged. -/
theorem C5_secure_only_from_ns (cfg : BuildConfig) (P : Platform) (hP : P.labels_distinct)
    (core smc_fid x1 x2 x3 x4 cookie c : Nat) (flags : Nat) (s : DState)
    (hfid : smc_fid ∈ P.secure_only) (hns : is_caller_non_secure flags = true) :
    ∃ s', linuxd_smc_handler cfg P core smc_fid x1 x2 x3 x4 cookie (.ns_cpu_ctx c) flags s
        = .ret (some (.ns_cpu_ctx c)) s' ∧
      (s'.ns_cpu_context c).gpregs.x0 = P.SMC_UNK ∧
      s'.linuxd_sp_context = s.linuxd_sp_context ∧
      s'.linux_vectors = s.linux_vectors ∧
      s'.pm_hook_registrations = s.pm_hook_registrations ∧
      s'.intr_handlers = s.intr_handlers ∧
      s'.next_eret_context = s.next_eret_context ∧
      s'.el1_sysregs = s.el1_sysregs ∧
      s'.cm_context = s.cm_context := by
  have hd := later_ne P hP
  simp [Platform.case_labels] at hd
  have key : linuxd_smc_handler cfg P core smc_fid x1 x2 x3 x4 cookie (.ns_cpu_ctx c) flags s
      = SMC_RET1 (some (.ns_cpu_ctx c)) P.SMC_UNK s := by
    simp [Platform.secure_only] at hfid
    rcases hfid with h | h | h | h | h | h | h | h | h | h | h <;> subst h <;>
      simp [linuxd_smc_handler, hd, hns]
  rw [key]
  refine ⟨_, rfl, ?_⟩
  simp [write_ctx_opt, write_ctx]

/-- Witness of C5: `LINUX_ENTRY_DONE` issued by the non-secure world on core 0. -/
theorem C5_secure_only_from_ns_witness :
    ∃ s', linuxd_smc_handler debug_build sample_platform 0 sample_platform.LINUX_ENTRY_DONE
          0xe100100 0 0 0 0 (.ns_cpu_ctx 0) 1 (bound_state 0 7)
        = .ret (some (.ns_cpu_ctx 0)) s' ∧
      (s'.ns_cpu_context 0).gpregs.x0 = sample_platform.SMC_UNK ∧
      s'.linuxd_sp_context = (bound_state 0 7).linuxd_sp_context ∧
      s'.linux_vectors = (bound_state 0 7).linux_vectors ∧
      s'.pm_hook_registrations = (bound_state 0 7).pm_hook_registrations ∧
      s'.intr_handlers = (bound_state 0 7).intr_handlers ∧
      s'.next_eret_context = (bound_state 0 7).next_eret_context ∧
      s'.el1_sysregs = (bound_state 0 7).el1_sysregs ∧
      s'.cm_context = (bound_state 0 7).cm_context :=
  C5_secure_only_from_ns debug_build sample_platform (by decide) 0
    sample_platform.LINUX_ENTRY_DONE 0xe100100 0 0 0 0 0 1 (bound_state 0 7)
    (by decide) (by decide)

/-- C6, as stated, fails: in a build with assertions an Abort-request and a Resume-request
with the secure caller flag halt the firmware on core 0. -/
theorem C6_counterexample :
    (linuxd_smc_handler debug_build sample_platform 0 sample_platform.LINUX_FID_ABORT 0 0 0 0 0
      (.sp_cpu_ctx 0) 0 (bound_state 0 7)).halts = true ∧
    (linuxd_smc_handler debug_build sample_platform 0 sample_platform.LINUX_FID_RESUME 0 0 0 0 0
      (.sp_cpu_ctx 0) 0 (bound_state 0 7)).halts = true := by
  decide

/-- C6, amended: an Abort-request or Resume-request with the secure caller flag halts at
`assert(0)` in the state it was called in when the build has `ENABLE_ASSERTIONS`; in a build
without, it returns `SMC_UNK` in `x0` of the caller's saved registers and changes nothing
else of `linux_vectors` and of the contexts. -/
theorem C6_secure_abort_resume (cfg : BuildConfig) (P : Platform) (hP : P.labels_distinct)
    (core smc_fid x1 x2 x3 x4 cookie : Nat) (handle : CtxPtr) (flags : Nat) (s : DState)
    (hfid : smc_fid = P.LINUX_FID_ABORT ∨ smc_fid = P.LINUX_FID_RESUME)
    (hsec : is_caller_non_secure flags = false) :
    ∃ s', linuxd_smc_handler cfg P core smc_fid x1 x2 x3 x4 cookie handle flags s
        = (if cfg.ENABLE_ASSERTIONS then .halt s else .ret (some handle) s') ∧
      (s'.ctx_at handle).gpregs.x0 = P.SMC_UNK ∧
      s'.linux_vectors = s.linux_vectors ∧
      (∀ c, same_but_x0 (s'.linuxd_sp_context c) (s.linuxd_sp_context c)) := by
  have hd := later_ne P hP
  simp [Platform.case_labels] at hd
  have key : linuxd_smc_handler cfg P core smc_fid x1 x2 x3 x4 cookie handle flags s
      = if cfg.ENABLE_ASSERTIONS then .halt s else SMC_RET1 (some handle) P.SMC_UNK s := by
    rcases hfid with h | h <;> subst h <;> simp [linuxd_smc_handler, hd, hsec, c_assert]
  rw [key]
  obtain ⟨h0, hv, hsame, _⟩ := write_x0_frame handle P.SMC_UNK s
  exact ⟨_, rfl, h0, hv, hsame⟩

/-- Witness of the amended C6: a secure Abort-request on core 0 in the build without
assertions. -/
theorem C6_secure_abort_resume_witness :
    ∃ s', linuxd_smc_handler release_build sample_platform 0 sample_platform.LINUX_FID_ABORT
          0 0 0 0 0 (.sp_cpu_ctx 0) 0 (bound_state 0 7)
        = (if release_build.ENABLE_ASSERTIONS then .halt (bound_state 0 7)
           else .ret (some (.sp_cpu_ctx 0)) s') ∧
      (s'.ctx_at (.sp_cpu_ctx 0)).gpregs.x0 = sample_platform.SMC_UNK ∧
      s'.linux_vectors = (bound_state 0 7).linux_vectors ∧
      (∀ c, same_but_x0 (s'.linuxd_sp_context c) ((bound_state 0 7).linuxd_sp_context c)) :=
  C6_secure_abort_resume release_build sample_platform (by decide) 0
    sample_platform.LINUX_FID_ABORT 0 0 0 0 0 (.sp_cpu_ctx 0) 0 (bound_state 0 7)
    (Or.inl rfl) (by decide)

/-- C7: abort idempotence.  With the yield flag clear, a non-secure Abort-request returns
`SMC_UNK` in `x0` of the caller without entering the payload (the live EL1 registers are
untouched), leaves `linuxd_sp_context` equal to what it was, and any number `n + 1` of
consecutive such requests ends in the same state as one. -/
theorem C7_abort_idempotent (cfg : BuildConfig) (P : Platform) (hP : P.labels_distinct)
    (core x1 x2 x3 x4 cookie flags : Nat) (s : DState)
    (hns : is_caller_non_secure flags = true)
    (hcm : s.cm_context core NON_SECURE = some (.ns_cpu_ctx core))
    (hy : get_yield_smc_active_flag (s.linuxd_sp_context core).state = 0) :
    ∃ s', linuxd_smc_handler cfg P core P.LINUX_FID_ABORT x1 x2 x3 x4 cookie
          (.ns_cpu_ctx core) flags s = .ret (some (.ns_cpu_ctx core)) s' ∧
      (s'.ns_cpu_context core).gpregs.x0 = P.SMC_UNK ∧
      s'.linuxd_sp_context = s.linuxd_sp_context ∧
      s'.el1_sysregs = s.el1_sysregs ∧
      ∀ n, abort_requests cfg P core x1 x2 x3 x4 cookie (.ns_cpu_ctx core) flags (n + 1) s
        = some s' := by
  have hcm' : (abort_nothing P core s).cm_context core NON_SECURE
      = some (.ns_cpu_ctx core) := by
    simp [abort_nothing, write_ctx, cm_set_next_eret_context, cm_el1_sysregs_context_save,
      write_ctx_opt, hcm]
  have hy' : get_yield_smc_active_flag
      ((abort_nothing P core s).linuxd_sp_context core).state = 0 := by
    simpa [abort_nothing, write_ctx, cm_set_next_eret_context, cm_el1_sysregs_context_save,
      write_ctx_opt, hcm] using hy
  refine ⟨abort_nothing P core s,
    abort_no_yield cfg P hP core x1 x2 x3 x4 cookie flags s hns hcm hy, ?_, ?_, ?_, ?_⟩
  · simp [abort_nothing, write_ctx]
  · simp [abort_nothing, write_ctx, cm_set_next_eret_context, cm_el1_sysregs_context_save,
      write_ctx_opt, hcm]
  · simp [abort_nothing, write_ctx, cm_set_next_eret_context, cm_el1_sysregs_context_save,
      write_ctx_opt, hcm]
  · intro n
    simp only [abort_requests,
      abort_no_yield cfg P hP core x1 x2 x3 x4 cookie flags s hns hcm hy]
    exact abort_requests_fixed cfg P hP core x1 x2 x3 x4 cookie flags hns _ hcm' hy'
      (abort_nothing_idem P core s hcm) n

/-- Witness of C7 on core 0 of the sample platform, in the build with assertions. -/
theorem C7_abort_idempotent_witness :
    ∃ s', linuxd_smc_handler debug_build sample_platform 0 sample_platform.LINUX_FID_ABORT
          0 0 0 0 0 (.ns_cpu_ctx 0) 1 (bound_state 0 7) = .ret (some (.ns_cpu_ctx 0)) s' ∧
      (s'.ns_cpu_context 0).gpregs.x0 = sample_platform.SMC_UNK ∧
      s'.linuxd_sp_context = (bound_state 0 7).linuxd_sp_context ∧
      s'.el1_sysregs = (bound_state 0 7).el1_sysregs ∧
      ∀ n, abort_requests debug_build sample_platform 0 0 0 0 0 0 (.ns_cpu_ctx 0) 1 (n + 1)
        (bound_state 0 7) = some s' :=
  C7_abort_idempotent debug_build sample_platform (by decide) 0 0 0 0 0 0 1 (bound_state 0 7)
    (by decide) (by decide) (by decide)

/-- C8: with the yield flag set, a non-secure Abort-request clears the flag, programs
`&linux_vectors->abort_yield_smc_entry` as the secure return address, designates the secure
world and enters the payload once.  When the payload returns 0 the handler returns `SMC_OK`
in `x0` of the caller with the non-secure world designated and the state word as the payload
left it; when it returns any other value the handler halts. -/
theorem C8_abort_active (cfg : BuildConfig) (P : Platform) (hP : P.labels_distinct)
    (core x1 x2 x3 x4 cookie flags : Nat) (s : DState)
    (hns : is_caller_non_secure flags = true)
    (hcm_ns : s.cm_context core NON_SECURE = some (.ns_cpu_ctx core))
    (hcm : s.cm_context core SECURE = some (.sp_cpu_ctx core))
    (hempty : (s.linuxd_sp_context core).c_rt_ctx = 0)
    (hy : get_yield_smc_active_flag (s.linuxd_sp_context core).state ≠ 0) :
    ∃ s1 k, linuxd_smc_handler cfg P core P.LINUX_FID_ABORT x1 x2 x3 x4 cookie
          (.ns_cpu_ctx core) flags s = .enter_sp (P.c_rt_sp core) s1 k ∧
      get_yield_smc_active_flag (s1.linuxd_sp_context core).state = 0 ∧
      (s1.linuxd_sp_context core).cpu_ctx.elr_el3
        = (s.linux_vectors + P.abort_yield_smc_entry) % 2 ^ 64 ∧
      s1.next_eret_context core = some SECURE ∧
      (∀ t, ∃ t', k 0 t = .ret (some (.ns_cpu_ctx core)) t' ∧
        (t'.ns_cpu_context core).gpregs.x0 = P.SMC_OK ∧
        t'.next_eret_context core = some NON_SECURE ∧
        (t'.linuxd_sp_context core).state = (t.linuxd_sp_context core).state) ∧
      (∀ V t, V ≠ 0 → ∃ t', k V t = .halt t') := by
  have hd := later_ne P hP
  simp [Platform.case_labels] at hd
  simp [linuxd_smc_handler, hd, hns, c_assert, cm_get_context, hcm_ns, hcm,
    linuxd_abort_preempted_smc, cm_el1_sysregs_context_save, write_ctx_opt, write_ctx, hy,
    Outcome.bind, SMC_RET1, linuxd_synchronous_sp_entry, upd_linux_ctx, hempty,
    cm_set_elr_el3, linuxd_enter_sp, cm_el1_sysregs_context_restore, cm_set_next_eret_context,
    get_yield_clr]
  clear hd
  refine ⟨_, _, ⟨rfl, rfl⟩, ?_, ?_, ?_, ?_, ?_⟩
  · simp [get_yield_clr]
  · simp
  · simp
  · intro t
    cases hA : cfg.ENABLE_ASSERTIONS <;> cases ht : t.cm_context core NON_SECURE <;>
      simp [Outcome.bind, hA, ht]
  · intro V t hV
    simp [hV, Outcome.bind]

/-- Witness of C8: a non-secure Abort-request on core 0 while the yield flag is set. -/
theorem C8_abort_active_witness :
    ∃ s1 k, linuxd_smc_handler debug_build sample_platform 0 sample_platform.LINUX_FID_ABORT
          0 0 0 0 0 (.ns_cpu_ctx 0) 1 yielding_state
        = .enter_sp (sample_platform.c_rt_sp 0) s1 k ∧
      get_yield_smc_active_flag (s1.linuxd_sp_context 0).state = 0 ∧
      (s1.linuxd_sp_context 0).cpu_ctx.elr_el3
        = (yielding_state.linux_vectors + sample_platform.abort_yield_smc_entry) % 2 ^ 64 ∧
      s1.next_eret_context 0 = some SECURE ∧
      (∀ t, ∃ t', k 0 t = .ret (some (.ns_cpu_ctx 0)) t' ∧
        (t'.ns_cpu_context 0).gpregs.x0 = sample_platform.SMC_OK ∧
        t'.next_eret_context 0 = some NON_SECURE ∧
        (t'.linuxd_sp_context 0).state = (t.linuxd_sp_context 0).state) ∧
      (∀ V t, V ≠ 0 → ∃ t', k V t = .halt t') :=
  C8_abort_active debug_build sample_platform (by decide) 0 0 0 0 0 0 1 yielding_state
    (by decide) (by decide) (by decide) (by decide) (by decide)

/-- C9: with the yield flag clear, a non-secure Resume-request returns `SMC_UNK` in `x0` of
the caller; the live EL1 registers are not replaced by the secure ones, the next world is not
changed, and `linuxd_sp_context` and `linux_vectors` are unchanged. -/
theorem C9_resume_idle (cfg : BuildConfig) (P : Platform) (hP : P.labels_distinct)
    (core x1 x2 x3 x4 cookie flags : Nat) (s : DState)
    (hns : is_caller_non_secure flags = true)
    (hcm : s.cm_context core NON_SECURE = some (.ns_cpu_ctx core))
    (hy : get_yield_smc_active_flag (s.linuxd_sp_context core).state = 0) :
    ∃ s', linuxd_smc_handler cfg P core P.LINUX_FID_RESUME x1 x2 x3 x4 cookie
          (.ns_cpu_ctx core) flags s = .ret (some (.ns_cpu_ctx core)) s' ∧
      (s'.ns_cpu_context core).gpregs.x0 = P.SMC_UNK ∧
      s'.el1_sysregs = s.el1_sysregs ∧
      s'.next_eret_context = s.next_eret_context ∧
      s'.linuxd_sp_context = s.linuxd_sp_context ∧
      s'.linux_vectors = s.linux_vectors := by
  have hd := later_ne P hP
  simp [Platform.case_labels] at hd
  simp [linuxd_smc_handler, hd, hns, c_assert, cm_get_context, hcm, hy, SMC_RET1,
    write_ctx_opt, write_ctx]

/-- Witness of C9 on core 0 of the sample platform, in the build with assertions. -/
theorem C9_resume_idle_witness :
    ∃ s', linuxd_smc_handler debug_build sample_platform 0 sample_platform.LINUX_FID_RESUME
          0 0 0 0 0 (.ns_cpu_ctx 0) 1 (bound_state 0 7) = .ret (some (.ns_cpu_ctx 0)) s' ∧
      (s'.ns_cpu_context 0).gpregs.x0 = sample_platform.SMC_UNK ∧
      s'.el1_sysregs = (bound_state 0 7).el1_sysregs ∧
      s'.next_eret_context = (bound_state 0 7).next_eret_context ∧
      s'.linuxd_sp_context = (bound_state 0 7).linuxd_sp_context ∧
      s'.linux_vectors = (bound_state 0 7).linux_vectors :=
  C9_resume_idle debug_build sample_platform (by decide) 0 0 0 0 0 0 1 (bound_state 0 7)
    (by decide) (by decide) (by decide)

/-! ### Yielding calls -/

/-- C10, as stated, fails.  On the initialised core 0 (power state On) the non-secure world
issues the yielding call `0x72002000`: it is answered `SMC_UNK` without entering the payload.
The payload's Preempted signal then delivers `SMC_PREEMPTED` to the non-secure caller, but
the yield flag is 0, and the following Resume-request is answered `SMC_UNK` with the
non-secure world still designated. -/
theorem C10_counterexample :
    (initialised_state debug_build).map (fun s0 =>
      let o1 := linuxd_smc_handler debug_build sample_platform 0 0x72002000 1 2 0 0 0
        (.ns_cpu_ctx 0) 1 s0
      let o2 := linuxd_smc_handler debug_build sample_platform 0 sample_platform.LINUX_PREEMPTED
        0 0 0 0 0 (.sp_cpu_ctx 0) 0 o1.state
      let o3 := linuxd_smc_handler debug_build sample_platform 0 sample_platform.LINUX_FID_RESUME
        0 0 0 0 0 (.ns_cpu_ctx 0) 1 o2.state
      (get_linux_pstate (s0.linuxd_sp_context 0).state, o1.enters,
        (o1.state.ns_cpu_context 0).gpregs.x0, (o2.state.ns_cpu_context 0).gpregs.x0,
        get_yield_smc_active_flag (o2.state.linuxd_sp_context 0).state,
        (o3.state.ns_cpu_context 0).gpregs.x0, o3.state.next_eret_context 0))
    = some (1, false, 2 ^ 64 - 1, 2 ^ 64 - 2, 0, 2 ^ 64 - 1, some NON_SECURE) := by
  rfl

/-- C10, amended: on a core whose yield flag is clear (as the Entry-State Builder leaves it; no
case of the handler sets it), a non-secure call with an identifier that is no `case` label,
such as a yielding call, is answered `SMC_UNK` without entering the payload or touching
`linuxd_sp_context`; a Preempted signal of the payload then delivers `SMC_PREEMPTED` to the
non-secure caller, designates the non-secure world and leaves the state word unchanged, so
the yield flag stays clear; the following non-secure Resume-request is answered `SMC_UNK`,
does not restore the secure registers and leaves the non-secure world designated. -/
theorem C10_no_yielding_call (cfg : BuildConfig) (P : Platform) (hP : P.labels_distinct)
    (core smc_fid x1 x2 x3 x4 cookie flags sflags : Nat) (s : DState)
    (hfid : smc_fid ∉ P.case_labels)
    (hns : is_caller_non_secure flags = true)
    (hsec : is_caller_non_secure sflags = false)
    (hcm_ns : s.cm_context core NON_SECURE = some (.ns_cpu_ctx core))
    (hcm : s.cm_context core SECURE = some (.sp_cpu_ctx core))
    (hy : get_yield_smc_active_flag (s.linuxd_sp_context core).state = 0) :
    ∃ s1 s2 s3,
      linuxd_smc_handler cfg P core smc_fid x1 x2 x3 x4 cookie (.ns_cpu_ctx core) flags s
        = .ret (some (.ns_cpu_ctx core)) s1 ∧
      (s1.ns_cpu_context core).gpregs.x0 = P.SMC_UNK ∧
      s1.linuxd_sp_context = s.linuxd_sp_context ∧
      s1.next_eret_context = s.next_eret_context ∧
      linuxd_smc_handler cfg P core P.LINUX_PREEMPTED 0 0 0 0 cookie (.sp_cpu_ctx core) sflags s1
        = .ret (some (.ns_cpu_ctx core)) s2 ∧
      (s2.ns_cpu_context core).gpregs.x0 = P.SMC_PREEMPTED ∧
      s2.next_eret_context core = some NON_SECURE ∧
      (s2.linuxd_sp_context core).state = (s.linuxd_sp_context core).state ∧
      get_yield_smc_active_flag (s2.linuxd_sp_context core).state = 0 ∧
      linuxd_smc_handler cfg P core P.LINUX_FID_RESUME 0 0 0 0 cookie (.ns_cpu_ctx core) flags s2
        = .ret (some (.ns_cpu_ctx core)) s3 ∧
      (s3.ns_cpu_context core).gpregs.x0 = P.SMC_UNK ∧
      s3.next_eret_context core = some NON_SECURE ∧
      s3.el1_sysregs = s2.el1_sysregs ∧
      s3.linuxd_sp_context = s2.linuxd_sp_context := by
  have hd := later_ne P hP
  simp [Platform.case_labels] at hd
  rw [linuxd_smc_handler_default cfg P core smc_fid x1 x2 x3 x4 cookie _ flags s hfid]
  simp [linuxd_smc_handler, hd, hns, hsec, c_assert, cm_get_context, hcm, hcm_ns, hy, SMC_RET1,
    write_ctx_opt, write_ctx, linuxd_handle_sp_preemption, cm_el1_sysregs_context_save,
    cm_el1_sysregs_context_restore, cm_set_next_eret_context, upd_linux_ctx]


/-- Witness of the amended C10 on core 0 of the sample platform with the yielding call
`0x72002000`. -/
theorem C10_no_yielding_call_witness :
    ∃ s1 s2 s3,
      linuxd_smc_handler debug_build sample_platform 0 0x72002000 1 2 0 0 0 (.ns_cpu_ctx 0) 1
          (bound_state 0 7) = .ret (some (.ns_cpu_ctx 0)) s1 ∧
      (s1.ns_cpu_context 0).gpregs.x0 = sample_platform.SMC_UNK ∧
      s1.linuxd_sp_context = (bound_state 0 7).linuxd_sp_context ∧
      s1.next_eret_context = (bound_state 0 7).next_eret_context ∧
      linuxd_smc_handler debug_build sample_platform 0 sample_platform.LINUX_PREEMPTED 0 0 0 0 0
          (.sp_cpu_ctx 0) 0 s1 = .ret (some (.ns_cpu_ctx 0)) s2 ∧
      (s2.ns_cpu_context 0).gpregs.x0 = sample_platform.SMC_PREEMPTED ∧
      s2.next_eret_context 0 = some NON_SECURE ∧
      (s2.linuxd_sp_context 0).state = ((bound_state 0 7).linuxd_sp_context 0).state ∧
      get_yield_smc_active_flag (s2.linuxd_sp_context 0).state = 0 ∧
      linuxd_smc_handler debug_build sample_platform 0 sample_platform.LINUX_FID_RESUME 0 0 0 0 0
          (.ns_cpu_ctx 0) 1 s2 = .ret (some (.ns_cpu_ctx 0)) s3 ∧
      (s3.ns_cpu_context 0).gpregs.x0 = sample_platform.SMC_UNK ∧
      s3.next_eret_context 0 = some NON_SECURE ∧
      s3.el1_sysregs = s2.el1_sysregs ∧
      s3.linuxd_sp_context = s2.linuxd_sp_context :=
  C10_no_yielding_call debug_build sample_platform (by decide) 0 0x72002000 1 2 0 0 0 1 0
    (bound_state 0 7) (by decide) (by decide) (by decide) (by decide) (by decide) (by decide)

/-! ### Invariants of the bookkeeping: shared facts -/

/-- A write to a context that touches neither its state word nor its saved arguments leaves
the bookkeeping. -/
theorem book_upd_frame (core : Nat) (f : linux_context_t → linux_context_t) (s : DState)
    (h1 : ∀ c, (f c).state = c.state) (h2 : ∀ c, (f c).saved_linux_args = c.saved_linux_args) :
    (upd_linux_ctx core f s).book = s.book := by
  unfold upd_linux_ctx DState.book
  simp only [Book.mk.injEq, and_true, true_and]
  constructor <;> funext c <;> by_cases h : c = core
  · subst h; simp [h1]
  · simp [h]
  · subst h; simp [h2]
  · simp [h]

/-- A write of `c_rt_ctx` leaves the bookkeeping. -/
@[simp] theorem book_upd_c_rt_ctx (core : Nat) (v : linux_context_t → Nat) (s : DState) :
    (upd_linux_ctx core (fun c => { c with c_rt_ctx := v c }) s).book = s.book :=
  book_upd_frame core _ s (fun _ => rfl) (fun _ => rfl)

/-- A write of `mpidr` leaves the bookkeeping. -/
@[simp] theorem book_upd_mpidr (core : Nat) (v : linux_context_t → Nat) (s : DState) :
    (upd_linux_ctx core (fun c => { c with mpidr := v c }) s).book = s.book :=
  book_upd_frame core _ s (fun _ => rfl) (fun _ => rfl)

/-- A write of the register file of a context leaves the bookkeeping. -/
@[simp] theorem book_upd_cpu_ctx (core : Nat) (v : linux_context_t → cpu_context_t)
    (s : DState) : (upd_linux_ctx core (fun c => { c with cpu_ctx := v c }) s).book = s.book :=
  book_upd_frame core _ s (fun _ => rfl) (fun _ => rfl)

/-- A write of `saved_spsr_el3` leaves the bookkeeping. -/
@[simp] theorem book_upd_saved_spsr (core : Nat) (v : linux_context_t → Nat) (s : DState) :
    (upd_linux_ctx core (fun c => { c with saved_spsr_el3 := v c }) s).book = s.book :=
  book_upd_frame core _ s (fun _ => rfl) (fun _ => rfl)

/-- A write of `saved_elr_el3` leaves the bookkeeping. -/
@[simp] theorem book_upd_saved_elr (core : Nat) (v : linux_context_t → Nat) (s : DState) :
    (upd_linux_ctx core (fun c => { c with saved_elr_el3 := v c }) s).book = s.book :=
  book_upd_frame core _ s (fun _ => rfl) (fun _ => rfl)

/-- A write of `sp_ctx` leaves the bookkeeping. -/
@[simp] theorem book_upd_sp_ctx (core : Nat) (v : linux_context_t → sp_ctx_regs_t)
    (s : DState) : (upd_linux_ctx core (fun c => { c with sp_ctx := v c }) s).book = s.book :=
  book_upd_frame core _ s (fun _ => rfl) (fun _ => rfl)

/-- A write of the state word of a context, seen in the bookkeeping. -/
@[simp] theorem book_upd_state (core : Nat) (g : Nat → Nat) (s : DState) :
    (upd_linux_ctx core (fun c => { c with state := g c.state }) s).book
      = s.book.set_state core g := by
  unfold upd_linux_ctx DState.book Book.set_state
  simp only [Book.mk.injEq, and_true, true_and]
  constructor <;> funext c <;> by_cases h : c = core
  · subst h; simp
  · simp [h]
  · subst h; simp
  · simp [h]

/-- A store through a register-file pointer leaves the bookkeeping. -/
@[simp] theorem book_write_ctx (p : CtxPtr) (f : cpu_context_t → cpu_context_t) (s : DState) :
    (write_ctx p f s).book = s.book := by
  cases p with
  | sp_cpu_ctx c => exact book_upd_cpu_ctx c _ s
  | ns_cpu_ctx c => rfl

/-- A store through a register-file pointer that may be `NULL` leaves the bookkeeping. -/
@[simp] theorem book_write_ctx_opt (p : Option CtxPtr) (f : cpu_context_t → cpu_context_t)
    (s : DState) : (write_ctx_opt p f s).book = s.book := by
  cases p with
  | none => rfl
  | some q => exact book_write_ctx q f s

/-- Bookkeeping after `cm_set_context`. -/
@[simp] theorem book_cm_set_context (core : Nat) (p : CtxPtr) (w : SecurityState) (s : DState) :
    (cm_set_context core p w s).book = s.book := rfl

/-- Bookkeeping after `cm_el1_sysregs_context_save`. -/
@[simp] theorem book_cm_save (core : Nat) (w : SecurityState) (s : DState) :
    (cm_el1_sysregs_context_save core w s).book = s.book := by
  simp [cm_el1_sysregs_context_save]

/-- Bookkeeping after `cm_el1_sysregs_context_restore`. -/
@[simp] theorem book_cm_restore (core : Nat) (w : SecurityState) (s : DState) :
    (cm_el1_sysregs_context_restore core w s).book = s.book := by
  unfold cm_el1_sysregs_context_restore
  split <;> rfl

/-- Bookkeeping after `cm_set_next_eret_context`. -/
@[simp] theorem book_cm_next (core : Nat) (w : SecurityState) (s : DState) :
    (cm_set_next_eret_context core w s).book = s.book := rfl

/-- Bookkeeping after `cm_set_elr_el3`. -/
@[simp] theorem book_cm_set_elr (core : Nat) (w : SecurityState) (pc : Nat) (s : DState) :
    (cm_set_elr_el3 core w pc s).book = s.book := by
  simp [cm_set_elr_el3]

/-- Bookkeeping after `cm_set_elr_spsr_el3`. -/
@[simp] theorem book_cm_set_elr_spsr (core : Nat) (w : SecurityState) (pc spsr : Nat)
    (s : DState) : (cm_set_elr_spsr_el3 core w pc spsr s).book = s.book := by
  simp [cm_set_elr_spsr_el3]

/-- Bookkeeping after `cm_init_my_context`. -/
@[simp] theorem book_cm_init (core : Nat) (ep : entry_point_info_t) (s : DState) :
    (cm_init_my_context core ep s).book = s.book := by
  simp [cm_init_my_context]

/-- Bookkeeping after `cm_prepare_el3_exit`. -/
@[simp] theorem book_cm_prepare (core : Nat) (w : SecurityState) (s : DState) :
    (cm_prepare_el3_exit core w s).book = s.book := by
  simp [cm_prepare_el3_exit]

/-- Bookkeeping after `disable_intr_rm_local`. -/
@[simp] theorem book_disable_intr (core : Nat) (s : DState) :
    (disable_intr_rm_local core s).book = s.book := rfl

/-- Bookkeeping after `enable_intr_rm_local`. -/
@[simp] theorem book_enable_intr (core : Nat) (s : DState) :
    (enable_intr_rm_local core s).book = s.book := rfl

/-- Bookkeeping after `ehf_allow_ns_preemption`. -/
@[simp] theorem book_ehf (core code : Nat) (s : DState) :
    (ehf_allow_ns_preemption core code s).book = s.book := rfl

/-- Bookkeeping after `putchar`. -/
@[simp] theorem book_putchar (c : Nat) (s : DState) : (putchar c s).book = s.book := rfl

/-- Bookkeeping after `bl31_set_next_image_type`. -/
@[simp] theorem book_next_image (w : SecurityState) (s : DState) :
    (bl31_set_next_image_type w s).book = s.book := rfl

/-! ### Outcomes that keep a property -/

/-- An invariant kept by a call and by what follows it is kept by the sequence. -/
theorem Keeps_bind {α β : Type} (I : DState → Prop) (o : Outcome α)
    (f : α → DState → Outcome β) (ho : o.Keeps I) (hf : ∀ a s, I s → (f a s).Keeps I) :
    (o.bind f).Keeps I := by
  induction o with
  | ret a s => exact hf a s ho
  | halt s => exact ho
  | enter_sp h s k ih => exact ⟨ho.1, fun v t ht => ih v t (ho.2 v t ht)⟩
  | exit_sp c r s => exact ho

/-- An invariant kept by a call is kept when its result is dropped. -/
theorem Keeps_void {α : Type} (I : DState → Prop) (o : Outcome α) (ho : o.Keeps I) :
    o.void.Keeps I :=
  Keeps_bind I o _ ho (fun _ _ hs => hs)

/-- An invariant and an `assert`. -/
theorem Keeps_assert {α : Type} (I : DState → Prop) (cfg : BuildConfig) (c : Bool) (s : DState)
    (k : Outcome α) (hs : I s) (hk : k.Keeps I) : (c_assert cfg c s k).Keeps I := by
  unfold c_assert
  split
  · exact hs
  · exact hk

/-- An invariant and an `assert`, the rest of the call knowing that the check passed where it is
compiled in. -/
theorem Keeps_assert_of {α : Type} (I : DState → Prop) (cfg : BuildConfig) (c : Bool)
    (s : DState) (k : Outcome α) (hs : I s)
    (hk : (cfg.ENABLE_ASSERTIONS = true → c = true) → k.Keeps I) :
    (c_assert cfg c s k).Keeps I := by
  unfold c_assert
  split
  · exact hs
  · rename_i h
    apply hk
    intro ha
    cases c <;> simp_all

/-- The entry keeps every property of the bookkeeping. -/
theorem entry_keeps (B : Book → Prop) (cfg : BuildConfig) (P : Platform) (core : Nat)
    (s : DState) (hs : B s.book) :
    (linuxd_synchronous_sp_entry cfg P core s).Keeps (fun d => B d.book) := by
  unfold linuxd_synchronous_sp_entry
  apply Keeps_assert _ _ _ _ _ hs
  apply Keeps_assert _ _ _ _ _ hs
  simp only [linuxd_enter_sp, Outcome.bind, Outcome.Keeps]
  refine ⟨?_, fun v t ht => ?_⟩
  · simpa using hs
  · split
    · simpa using ht
    · exact ht

/-- The exit keeps every property of the bookkeeping. -/
theorem exit_keeps {α : Type} (B : Book → Prop) (cfg : BuildConfig) (core ret : Nat)
    (s : DState) (hs : B s.book) :
    (linuxd_synchronous_sp_exit cfg core ret s : Outcome α).Keeps (fun d => B d.book) := by
  unfold linuxd_synchronous_sp_exit
  apply Keeps_assert _ _ _ _ _ hs
  apply Keeps_assert
  · simpa using hs
  · simpa [linuxd_exit_sp, Outcome.Keeps] using hs

/-- The abort helper keeps a property of the bookkeeping that survives the clearing of the yield
flag. -/
theorem abort_keeps (B : Book → Prop) (cfg : BuildConfig) (P : Platform) (core : Nat)
    (s : DState) (hs : B s.book)
    (hclr : ∀ b, B b → B (b.set_state core clr_yield_smc_active_flag)) :
    (linuxd_abort_preempted_smc cfg P core s).Keeps (fun d => B d.book) := by
  unfold linuxd_abort_preempted_smc
  split
  · exact hs
  · apply Keeps_bind
    · apply entry_keeps
      simpa using hclr _ hs
    · intro rc t ht
      split
      · exact ht
      · exact ht

/-- The preemption of the payload keeps every property of the bookkeeping. -/
theorem preemption_keeps (B : Book → Prop) (cfg : BuildConfig) (P : Platform) (core : Nat)
    (handle : CtxPtr) (s : DState) (hs : B s.book) :
    (linuxd_handle_sp_preemption cfg P core handle s).Keeps (fun d => B d.book) := by
  unfold linuxd_handle_sp_preemption
  apply Keeps_assert _ _ _ _ _ hs
  apply Keeps_assert
  · simpa using hs
  · simpa [SMC_RET1, Outcome.Keeps] using hs


/-- Bookkeeping after `psci_register_spd_pm_hook`. -/
@[simp] theorem book_psci_hook (s : DState) :
    (psci_register_spd_pm_hook s).book
      = { s.book with pm_hook_registrations := s.book.pm_hook_registrations + 1 } := rfl

/-- Bookkeeping after `bl31_register_bl32_init`. -/
@[simp] theorem book_bl32_init (s : DState) :
    (bl31_register_bl32_init s).book
      = { s.book with bl32_init_registrations := s.book.bl32_init_registrations + 1 } := rfl

/-- The two results of `register_interrupt_type_handler`. -/
theorem register_cases (type : Nat) (handler : IntrHandler) (flags : Nat) (s : DState) :
    ((register_interrupt_type_handler type handler flags s).1 ≠ 0 ∧
      (register_interrupt_type_handler type handler flags s).2 = s) ∨
    ((register_interrupt_type_handler type handler flags s).1 = 0 ∧
      (register_interrupt_type_handler type handler flags s).2
        = { s with intr_handlers := (type, handler, flags) :: s.intr_handlers }) := by
  unfold register_interrupt_type_handler
  split
  · left; exact ⟨by show (2 ^ 64 - 114 : Nat) ≠ 0; decide, rfl⟩
  · right; exact ⟨rfl, rfl⟩

/-- The registrations of the initialization-complete case keep a property of the bookkeeping
that holds of the bookkeeping they can leave. -/
theorem entry_done_register_keeps (B : Book → Prop) (cfg : BuildConfig) (core x1 : Nat)
    (s : DState) (b : Book) (hb : s.book = b.entry_done_1 x1)
    (h2 : B (b.entry_done_2 core x1)) (h3 : B (b.entry_done_3 core x1))
    (h4 : B (b.entry_done_4 core x1)) :
    (linuxd_entry_done_register cfg core s).Keeps (fun d => B d.book) := by
  have e2 : (psci_register_spd_pm_hook (upd_linux_ctx core
      (fun c => { c with state := set_linux_pstate c.state LINUX_PSTATE_ON }) s)).book
      = b.entry_done_2 core x1 := by
    rw [book_psci_hook, book_upd_state core (fun st => set_linux_pstate st LINUX_PSTATE_ON) s, hb]
    rfl
  unfold linuxd_entry_done_register
  simp only []
  generalize psci_register_spd_pm_hook (upd_linux_ctx core
      (fun c => { c with state := set_linux_pstate c.state LINUX_PSTATE_ON }) s) = s2 at e2 ⊢
  rcases register_cases INTR_TYPE_S_EL1 IntrHandler.linuxd_sel1_interrupt_handler
    (set_interrupt_rm_flag 0 NON_SECURE) s2 with ⟨hr1, hr2⟩ | ⟨hr1, hr2⟩
  · simp only [bne_iff_ne, ne_eq, hr1, not_false_eq_true, if_true, Outcome.Keeps, hr2, e2]
    exact h2
  · have e3 : ({ s2 with intr_handlers := (INTR_TYPE_S_EL1,
        IntrHandler.linuxd_sel1_interrupt_handler, set_interrupt_rm_flag 0 NON_SECURE)
          :: s2.intr_handlers } : DState).book = b.entry_done_3 core x1 := by
      have hi : s2.intr_handlers = b.intr_handlers := by
        have := congrArg Book.intr_handlers e2
        simpa [DState.book, Book.entry_done_2, Book.entry_done_1, Book.set_state] using this
      simp only [Book.entry_done_3, ← e2, hi]
      simp [DState.book, hi]
    simp only [bne_iff_ne, ne_eq, hr1, not_true_eq_false, if_false, hr2]
    generalize ({ s2 with intr_handlers := (INTR_TYPE_S_EL1,
        IntrHandler.linuxd_sel1_interrupt_handler, set_interrupt_rm_flag 0 NON_SECURE)
          :: s2.intr_handlers } : DState) = s3 at e3 ⊢
    split
    · rcases register_cases INTR_TYPE_NS IntrHandler.linuxd_ns_interrupt_handler
        (set_interrupt_rm_flag 0 SECURE) s3 with ⟨hq1, hq2⟩ | ⟨hq1, hq2⟩
      · simp only [hq1, not_false_eq_true, if_true, Outcome.Keeps, hq2, e3]
        exact h3
      · simp only [hq1, not_true_eq_false, if_false, Outcome.Keeps, hq2, book_disable_intr]
        have e4 : ({ s3 with intr_handlers := (INTR_TYPE_NS,
            IntrHandler.linuxd_ns_interrupt_handler, set_interrupt_rm_flag 0 SECURE)
              :: s3.intr_handlers } : DState).book = b.entry_done_4 core x1 := by
          have hi : s3.intr_handlers = (b.entry_done_3 core x1).intr_handlers := by
            have := congrArg Book.intr_handlers e3
            simpa [DState.book] using this
          simp only [Book.entry_done_4, ← e3, hi]
          simp [DState.book, hi]
        rw [e4]; exact h4
    · simp only [Outcome.Keeps, e3]
      exact h3


/-- A return in a state with the same bookkeeping keeps a property of the bookkeeping. -/
theorem ret_keeps (B : Book → Prop) {α : Type} (a : α) (s t : DState) (hs : B s.book)
    (h : t.book = s.book) : (Outcome.ret a t).Keeps (fun d => B d.book) := by
  simpa [Outcome.Keeps, h] using hs

/-- The handler of calls keeps a property of the bookkeeping that survives the clearing of the
yield flag and, where the initialization-complete case is reached, holds of the bookkeeping that
case can leave. -/
theorem smc_keeps (B : Book → Prop) (cfg : BuildConfig) (P : Platform)
    (core smc_fid x1 x2 x3 x4 cookie : Nat) (handle : CtxPtr) (flags : Nat) (s : DState)
    (hs : B s.book)
    (hclr : ∀ b, B b → B (b.set_state core clr_yield_smc_active_flag))
    (hdone : smc_fid = P.LINUX_ENTRY_DONE → is_caller_non_secure flags = false →
      (cfg.ENABLE_ASSERTIONS = true → s.linux_vectors = 0) →
      B (s.book.entry_done_1 x1) ∧ B (s.book.entry_done_2 core x1) ∧
      B (s.book.entry_done_3 core x1) ∧ B (s.book.entry_done_4 core x1)) :
    (linuxd_smc_handler cfg P core smc_fid x1 x2 x3 x4 cookie handle flags s).Keeps
      (fun d => B d.book) := by
  unfold linuxd_smc_handler
  simp only []
  by_cases h1 : smc_fid = P.LINUX_PUTCHAR
  · rw [if_pos h1]; exact ret_keeps B _ s _ hs (by simp)
  rw [if_neg h1]
  by_cases h2 : smc_fid = P.LINUX_PREEMPTED
  · rw [if_pos h2]
    split
    · exact ret_keeps B _ s _ hs (by simp)
    · exact preemption_keeps B cfg P core handle s hs
  rw [if_neg h2]
  by_cases h3 : smc_fid = P.LINUX_HANDLED_S_EL1_INTR
  · rw [if_pos h3]
    split
    · exact ret_keeps B _ s _ hs (by simp)
    · apply Keeps_assert _ _ _ _ _ hs
      have key : ∀ s' : DState, s'.book = s.book →
          (c_assert cfg (cm_get_context core NON_SECURE s').isSome s'
            (SMC_RET0 (cm_get_context core NON_SECURE s')
              (cm_set_next_eret_context core NON_SECURE
                (cm_el1_sysregs_context_restore core NON_SECURE s')))).Keeps
            (fun d => B d.book) := by
        intro s' hb
        apply Keeps_assert
        · rw [hb]; exact hs
        · exact ret_keeps B _ s _ hs (by simp [hb])
      refine key _ ?_
      split
      · split <;> simp
      · rfl
  rw [if_neg h3]
  by_cases h4 : smc_fid = P.LINUX_ENTRY_DONE
  · rw [if_pos h4]
    split
    · exact ret_keeps B _ s _ hs (by simp)
    · rename_i hsec
      apply Keeps_assert_of _ _ _ _ _ hs
      intro hv
      obtain ⟨g1, g2, g3, g4⟩ := hdone h4 (by simpa using hsec)
        (fun ha => by simpa using hv ha)
      apply Keeps_bind
      · split
        · exact entry_done_register_keeps B cfg core x1 _ s.book rfl g2 g3 g4
        · exact g1
      · intro _ t ht
        split
        · apply Keeps_assert _ _ _ _ _ ht
          apply Keeps_assert
          · simpa using ht
          apply Keeps_assert
          · simpa using ht
          · refine ret_keeps B _ t _ ht ?_
            simp only [SMC_RET0, book_cm_prepare]
            split <;> simp
        · exact exit_keeps B cfg core x1 t ht
  rw [if_neg h4]
  by_cases h5 : smc_fid = P.LINUX_ABORT_DONE ∨ smc_fid = P.LINUX_ON_DONE ∨
      smc_fid = P.LINUX_RESUME_DONE ∨ smc_fid = P.LINUX_OFF_DONE ∨
      smc_fid = P.LINUX_SUSPEND_DONE ∨ smc_fid = P.LINUX_SYSTEM_OFF_DONE ∨
      smc_fid = P.LINUX_SYSTEM_RESET_DONE
  · rw [if_pos h5]
    split
    · exact ret_keeps B _ s _ hs (by simp)
    · exact exit_keeps B cfg core x1 s hs
  rw [if_neg h5]
  by_cases h6 : smc_fid = P.LINUX_FID_ABORT
  · rw [if_pos h6]
    split
    · apply Keeps_assert _ _ _ _ _ hs
      exact ret_keeps B _ s _ hs (by simp)
    · apply Keeps_assert _ _ _ _ _ hs
      apply Keeps_bind
      · exact abort_keeps B cfg P core _ (by simpa using hs) hclr
      · intro a t ht
        split
        · exact ret_keeps B _ t _ ht (by simp)
        · exact ret_keeps B _ t _ ht (by simp)
  rw [if_neg h6]
  by_cases h7 : smc_fid = P.LINUX_FID_RESUME
  · rw [if_pos h7]
    split
    · apply Keeps_assert _ _ _ _ _ hs
      exact ret_keeps B _ s _ hs (by simp)
    · apply Keeps_assert _ _ _ _ _ hs
      split
      · exact ret_keeps B _ s _ hs (by simp)
      · refine ret_keeps B _ s _ hs ?_
        cases cfg.LINUX_NS_INTR_ASYNC_PREEMPT <;> cases cfg.EL3_EXCEPTION_HANDLING <;> simp
  rw [if_neg h7]
  by_cases h8 : smc_fid = P.LINUX_GET_ARGS
  · rw [if_pos h8]
    split
    · exact ret_keeps B _ s _ hs (by simp)
    · exact ret_keeps B _ s _ hs (by simp)
  rw [if_neg h8]
  by_cases h9 : smc_fid = P.TOS_CALL_COUNT
  · rw [if_pos h9]; exact ret_keeps B _ s _ hs (by simp)
  rw [if_neg h9]
  by_cases h10 : smc_fid = P.TOS_UID
  · rw [if_pos h10]; exact ret_keeps B _ s _ hs (by simp)
  rw [if_neg h10]
  by_cases h11 : smc_fid = P.TOS_CALL_VERSION
  · rw [if_pos h11]; exact ret_keeps B _ s _ hs (by simp)
  rw [if_neg h11]
  exact ret_keeps B _ s _ hs (by simp)


/-- The handler of secure interrupts keeps every property of the bookkeeping. -/
theorem sel1_keeps (B : Book → Prop) (cfg : BuildConfig) (P : Platform)
    (core id flags : Nat) (handle : CtxPtr) (cookie : Nat) (s : DState) (hs : B s.book) :
    (linuxd_sel1_interrupt_handler cfg P core id flags handle cookie s).Keeps
      (fun d => B d.book) := by
  unfold linuxd_sel1_interrupt_handler
  apply Keeps_assert _ _ _ _ _ hs
  apply Keeps_assert _ _ _ _ _ hs
  apply Keeps_assert
  · simpa using hs
  · refine ret_keeps B _ s _ hs ?_
    simp only [SMC_RET2, book_write_ctx_opt, book_cm_next, book_cm_set_elr_spsr, book_cm_restore]
    split
    · split <;> simp
    · simp

/-- The handler of non-secure interrupts keeps every property of the bookkeeping. -/
theorem ns_keeps (B : Book → Prop) (cfg : BuildConfig) (P : Platform)
    (core id flags : Nat) (handle : CtxPtr) (cookie : Nat) (s : DState) (hs : B s.book) :
    (linuxd_ns_interrupt_handler cfg P core id flags handle cookie s).Keeps
      (fun d => B d.book) := by
  unfold linuxd_ns_interrupt_handler
  apply Keeps_assert _ _ _ _ _ hs
  exact preemption_keeps B cfg P core handle _ (by simpa using hs)

/-- Bookkeeping after the Entry-State Builder ran on `core`. -/
theorem builder_book (core : Nat) (P : Platform) (s : DState) :
    (cm_set_context core (.sp_cpu_ctx core) SECURE
      (upd_linux_ctx core (fun c => { c with state := clr_yield_smc_active_flag c.state })
        (upd_linux_ctx core
          (fun c => { c with state := set_linux_pstate c.state LINUX_PSTATE_OFF })
          (upd_linux_ctx core (fun c => { c with state := 0 })
            (upd_linux_ctx core (fun c => { c with mpidr := P.mpidr core }) s))))).book
      = (((s.book.set_state core (fun _ => 0)).set_state core
          (fun st => set_linux_pstate st LINUX_PSTATE_OFF)).set_state core
            clr_yield_smc_active_flag) := by
  rw [book_cm_set_context, book_upd_state core clr_yield_smc_active_flag,
    book_upd_state core (fun st => set_linux_pstate st LINUX_PSTATE_OFF),
    book_upd_state core (fun _ => 0), book_upd_mpidr]

/-- The Entry-State Builder keeps a property of the bookkeeping that holds of the state word it
writes. -/
theorem builder_keeps (B : Book → Prop) (cfg : BuildConfig) (P : Platform) (core : Nat)
    (ep : entry_point_info_t) (rw pc : Nat) (s : DState) (hs : B s.book)
    (hbuild : B (((s.book.set_state core (fun _ => 0)).set_state core
          (fun st => set_linux_pstate st LINUX_PSTATE_OFF)).set_state core
            clr_yield_smc_active_flag)) :
    (linuxd_init_linux_ep_state cfg P core ep rw pc s).Keeps (fun d => B d.book) := by
  unfold linuxd_init_linux_ep_state
  apply Keeps_assert _ _ _ _ _ hs
  apply Keeps_assert _ _ _ _ _ hs
  simp only [Outcome.Keeps]
  rw [builder_book]
  exact hbuild


/-- A closed property of the bookkeeping holds of the state word the Entry-State Builder writes.
-/
theorem closed_builder {cfg : BuildConfig} {B : Book → Prop} (hB : Book.Closed cfg B)
    (b : Book) (core : Nat) (h : B b) :
    B (((b.set_state core (fun _ => 0)).set_state core
          (fun st => set_linux_pstate st LINUX_PSTATE_OFF)).set_state core
            clr_yield_smc_active_flag) :=
  hB.clr_yield _ _ (hB.set_pstate _ _ LINUX_PSTATE_OFF (by decide) (hB.zero _ _ h))

/-- The setup keeps every closed property of the bookkeeping. -/
theorem setup_keeps (B : Book → Prop) (cfg : BuildConfig) (hB : Book.Closed cfg B)
    (P : Platform) (core : Nat) (s : DState) (hs : B s.book) :
    (linuxd_setup cfg P core s).Keeps (fun d => B d.book) := by
  unfold linuxd_setup
  split
  · exact hs
  · split
    · exact hs
    · apply Keeps_bind
      · exact builder_keeps B cfg P core _ _ _ s hs (closed_builder hB _ _ hs)
      · intro ep t ht
        simp only [Outcome.Keeps]
        split
        · exact ht
        · exact hB.bl32_init _ ht

/-- What a call parks keeps an invariant when what follows the call does. -/
theorem Conts_bind {α β : Type} (I : DState → Prop) (o : Outcome α)
    (f : α → DState → Outcome β) (ho : o.Conts I)
    (hf : ∀ a s, I s → (f a s).Keeps I) (hr : ∀ a s, (f a s).Conts I) :
    (o.bind f).Conts I := by
  induction o with
  | ret a s => exact hr a s
  | halt s => trivial
  | enter_sp h s k ih =>
    exact fun v t => ⟨ih v t (ho v t).1, fun ht => Keeps_bind I _ f ((ho v t).2 ht) hf⟩
  | exit_sp c r s => trivial

/-- What a call parks, its result dropped. -/
theorem Conts_void {α : Type} (I : DState → Prop) (o : Outcome α) (ho : o.Conts I) :
    o.void.Conts I :=
  Conts_bind I o _ ho (fun _ _ hs => hs) (fun _ _ => trivial)

/-- What a call parks, behind an `assert`. -/
theorem Conts_assert {α : Type} (I : DState → Prop) (cfg : BuildConfig) (c : Bool)
    (s : DState) (k : Outcome α) (hk : k.Conts I) : (c_assert cfg c s k).Conts I := by
  unfold c_assert
  split
  · trivial
  · exact hk

/-- What the entry parks keeps every property of the bookkeeping. -/
theorem entry_conts (B : Book → Prop) (cfg : BuildConfig) (P : Platform) (core : Nat)
    (s : DState) :
    (linuxd_synchronous_sp_entry cfg P core s).Conts (fun d => B d.book) := by
  unfold linuxd_synchronous_sp_entry
  apply Conts_assert
  apply Conts_assert
  simp only [linuxd_enter_sp, Outcome.bind, Outcome.Conts]
  intro v t
  refine ⟨trivial, fun ht => ?_⟩
  · split
    · simpa [Outcome.Keeps] using ht
    · exact ht

/-- What the abort helper parks keeps every property of the bookkeeping. -/
theorem abort_conts (B : Book → Prop) (cfg : BuildConfig) (P : Platform) (core : Nat)
    (s : DState) :
    (linuxd_abort_preempted_smc cfg P core s).Conts (fun d => B d.book) := by
  unfold linuxd_abort_preempted_smc
  split
  · trivial
  · apply Conts_bind
    · apply entry_conts
    · intro rc t ht
      split
      · exact ht
      · exact ht
    · intro rc t
      split <;> trivial


/-- What is parked after a call that parks nothing. -/
theorem Conts_bind_ret {α β : Type} (I : DState → Prop) (o : Outcome α)
    (f : α → DState → Outcome β) (ho : o.enters = false) (hr : ∀ a s, (f a s).Conts I) :
    (o.bind f).Conts I := by
  cases o with
  | ret a s => exact hr a s
  | halt s => trivial
  | enter_sp h s k => simp [Outcome.enters] at ho
  | exit_sp c r s => trivial

/-- The registrations of the initialization-complete case enter nothing. -/
theorem register_enters (cfg : BuildConfig) (core : Nat) (s : DState) :
    (linuxd_entry_done_register cfg core s).enters = false := by
  unfold linuxd_entry_done_register
  simp only []
  split
  · rfl
  · split
    · split <;> rfl
    · rfl

/-- The exit parks nothing. -/
theorem exit_conts {α : Type} (I : DState → Prop) (cfg : BuildConfig) (core ret : Nat)
    (s : DState) : (linuxd_synchronous_sp_exit cfg core ret s : Outcome α).Conts I := by
  unfold linuxd_synchronous_sp_exit
  apply Conts_assert
  apply Conts_assert
  trivial

/-- The preemption of the payload parks nothing. -/
theorem preemption_conts (I : DState → Prop) (cfg : BuildConfig) (P : Platform) (core : Nat)
    (handle : CtxPtr) (s : DState) :
    (linuxd_handle_sp_preemption cfg P core handle s).Conts I := by
  unfold linuxd_handle_sp_preemption
  apply Conts_assert
  apply Conts_assert
  trivial

/-- What the handler of calls parks keeps every property of the bookkeeping. -/
theorem smc_conts (B : Book → Prop) (cfg : BuildConfig) (P : Platform)
    (core smc_fid x1 x2 x3 x4 cookie : Nat) (handle : CtxPtr) (flags : Nat) (s : DState) :
    (linuxd_smc_handler cfg P core smc_fid x1 x2 x3 x4 cookie handle flags s).Conts
      (fun d => B d.book) := by
  unfold linuxd_smc_handler
  simp only []
  by_cases h1 : smc_fid = P.LINUX_PUTCHAR
  · rw [if_pos h1]; trivial
  rw [if_neg h1]
  by_cases h2 : smc_fid = P.LINUX_PREEMPTED
  · rw [if_pos h2]
    split
    · trivial
    · exact preemption_conts _ cfg P core handle s
  rw [if_neg h2]
  by_cases h3 : smc_fid = P.LINUX_HANDLED_S_EL1_INTR
  · rw [if_pos h3]
    split
    · trivial
    · apply Conts_assert
      apply Conts_assert
      trivial
  rw [if_neg h3]
  by_cases h4 : smc_fid = P.LINUX_ENTRY_DONE
  · rw [if_pos h4]
    split
    · trivial
    · apply Conts_assert
      apply Conts_bind_ret
      · split
        · exact register_enters cfg core _
        · rfl
      · intro u t
        split
        · apply Conts_assert
          apply Conts_assert
          apply Conts_assert
          trivial
        · exact exit_conts _ cfg core x1 t
  rw [if_neg h4]
  by_cases h5 : smc_fid = P.LINUX_ABORT_DONE ∨ smc_fid = P.LINUX_ON_DONE ∨
      smc_fid = P.LINUX_RESUME_DONE ∨ smc_fid = P.LINUX_OFF_DONE ∨
      smc_fid = P.LINUX_SUSPEND_DONE ∨ smc_fid = P.LINUX_SYSTEM_OFF_DONE ∨
      smc_fid = P.LINUX_SYSTEM_RESET_DONE
  · rw [if_pos h5]
    split
    · trivial
    · exact exit_conts _ cfg core x1 s
  rw [if_neg h5]
  by_cases h6 : smc_fid = P.LINUX_FID_ABORT
  · rw [if_pos h6]
    split
    · apply Conts_assert
      trivial
    · apply Conts_assert
      apply Conts_bind
      · exact abort_conts B cfg P core _
      · intro a t ht
        split
        · exact ret_keeps B _ t _ ht (by simp)
        · exact ret_keeps B _ t _ ht (by simp)
      · intro a t
        split <;> trivial
  rw [if_neg h6]
  by_cases h7 : smc_fid = P.LINUX_FID_RESUME
  · rw [if_pos h7]
    split
    · apply Conts_assert
      trivial
    · apply Conts_assert
      split <;> trivial
  rw [if_neg h7]
  by_cases h8 : smc_fid = P.LINUX_GET_ARGS
  · rw [if_pos h8]
    split <;> trivial
  rw [if_neg h8]
  by_cases h9 : smc_fid = P.TOS_CALL_COUNT
  · rw [if_pos h9]; trivial
  rw [if_neg h9]
  by_cases h10 : smc_fid = P.TOS_UID
  · rw [if_pos h10]; trivial
  rw [if_neg h10]
  by_cases h11 : smc_fid = P.TOS_CALL_VERSION
  · rw [if_pos h11]; trivial
  rw [if_neg h11]
  trivial


/-- Sequencing, for what a call parks and for what it keeps from a state that satisfies the
invariant. -/
theorem Both_bind {α β : Type} (I : DState → Prop) (now : Prop) (o : Outcome α)
    (f : α → DState → Outcome β) (ho : o.Conts I ∧ (now → o.Keeps I))
    (hf : ∀ a s, (f a s).Conts I ∧ (I s → (f a s).Keeps I)) :
    (o.bind f).Conts I ∧ (now → (o.bind f).Keeps I) :=
  ⟨Conts_bind I o f ho.1 (fun a s hs => (hf a s).2 hs) (fun a s => (hf a s).1),
   fun h => Keeps_bind I o f (ho.2 h) (fun a s hs => (hf a s).2 hs)⟩

/-- A dropped result, for what a call parks and for what it keeps. -/
theorem Both_void {α : Type} (I : DState → Prop) (now : Prop) (o : Outcome α)
    (ho : o.Conts I ∧ (now → o.Keeps I)) : o.void.Conts I ∧ (now → o.void.Keeps I) :=
  ⟨Conts_void I o ho.1, fun h => Keeps_void I o (ho.2 h)⟩

/-- An `assert`, for what a call parks and for what it keeps. -/
theorem Both_assert {α : Type} (I : DState → Prop) (now : Prop) (cfg : BuildConfig)
    (c : Bool) (s : DState) (k : Outcome α) (hs : now → I s)
    (hk : k.Conts I ∧ (now → k.Keeps I)) :
    (c_assert cfg c s k).Conts I ∧ (now → (c_assert cfg c s k).Keeps I) :=
  ⟨Conts_assert I cfg c s k hk.1, fun h => Keeps_assert I cfg c s k (hs h) (hk.2 h)⟩

/-- The entry: what it parks and what it keeps. -/
theorem entry_both (B : Book → Prop) (cfg : BuildConfig) (P : Platform) (core : Nat)
    (s : DState) :
    (linuxd_synchronous_sp_entry cfg P core s).Conts (fun d => B d.book) ∧
    (B s.book → (linuxd_synchronous_sp_entry cfg P core s).Keeps (fun d => B d.book)) :=
  ⟨entry_conts B cfg P core s, entry_keeps B cfg P core s⟩

/-- The abort helper: what it parks and what it keeps. -/
theorem abort_both (B : Book → Prop) (cfg : BuildConfig) (hB : Book.Closed cfg B)
    (P : Platform) (core : Nat) (s : DState) :
    (linuxd_abort_preempted_smc cfg P core s).Conts (fun d => B d.book) ∧
    (B s.book → (linuxd_abort_preempted_smc cfg P core s).Keeps (fun d => B d.book)) :=
  ⟨abort_conts B cfg P core s,
   fun hs => abort_keeps B cfg P core s hs (fun b hb => hB.clr_yield b core hb)⟩

/-- The deferred initialisation: what it parks and what it keeps. -/
theorem init_both (B : Book → Prop) (cfg : BuildConfig) (P : Platform) (core : Nat)
    (s : DState) :
    (linuxd_init cfg P core s).Conts (fun d => B d.book) ∧
    (B s.book → (linuxd_init cfg P core s).Keeps (fun d => B d.book)) := by
  unfold linuxd_init
  apply Both_assert _ _ _ _ _ _ (fun h => h)
  apply Both_bind
  · refine ⟨entry_conts B cfg P core _, fun hs => entry_keeps B cfg P core _ ?_⟩
    split <;> simpa using hs
  · intro rc t
    apply Both_assert _ _ _ _ _ _ (fun h => h)
    exact ⟨trivial, fun h => h⟩

/-- A hook of `linuxd_pm`: what it parks and what it keeps, for a property of the bookkeeping
that survives the writes of that hook. -/
theorem lifecycle_both_of (B : Book → Prop) (cfg : BuildConfig)
    (P : Platform) (core arg : Nat) (l : Lifecycle) (s : DState)
    (hclr : ∀ b, B b → B (b.set_state core clr_yield_smc_active_flag))
    (hpost : ∀ x, l.post = some x → ∀ b, B b →
      B (b.set_state core (fun st => set_linux_pstate st x)))
    (hbuild : l = .cpu_on_finish → ∀ b, B b →
      B (((b.set_state core (fun _ => 0)).set_state core
          (fun st => set_linux_pstate st LINUX_PSTATE_OFF)).set_state core
            clr_yield_smc_active_flag)) :
    (l.run cfg P core arg s).Conts (fun d => B d.book) ∧
    (B s.book → (l.run cfg P core arg s).Keeps (fun d => B d.book)) := by
  have hpst : ∀ (x : Nat), l.post = some x → ∀ t : DState, B t.book →
      B (upd_linux_ctx core (fun c => { c with state := set_linux_pstate c.state x }) t).book := by
    intro x hx t ht
    rw [book_upd_state core (fun st => set_linux_pstate st x)]
    exact hpost x hx _ ht
  have habort : ∀ t : DState,
      (linuxd_abort_preempted_smc cfg P core t).Conts (fun d => B d.book) ∧
      (B t.book → (linuxd_abort_preempted_smc cfg P core t).Keeps (fun d => B d.book)) :=
    fun t => ⟨abort_conts B cfg P core t, fun hs => abort_keeps B cfg P core t hs hclr⟩
  have hentry : ∀ (v : Nat) (t : DState),
      (linuxd_synchronous_sp_entry cfg P core (cm_set_elr_el3 core SECURE v t)).Conts
        (fun d => B d.book) ∧
      (B t.book → (linuxd_synchronous_sp_entry cfg P core (cm_set_elr_el3 core SECURE v t)).Keeps
        (fun d => B d.book)) :=
    fun v t => ⟨entry_conts B cfg P core _, fun ht => entry_keeps B cfg P core _ (by simpa using ht)⟩
  cases l with
  | cpu_off =>
    apply Both_void
    unfold linuxd_cpu_off_handler
    apply Both_assert _ _ _ _ _ _ (fun h => h)
    apply Both_assert _ _ _ _ _ _ (fun h => h)
    apply Both_bind
    · exact habort s
    · intro _ t
      apply Both_bind
      · exact hentry _ t
      · intro rc u
        refine ⟨?_, fun hu => ?_⟩
        · simp only []; split <;> trivial
        · simp only []
          split
          · exact hu
          · exact hpst LINUX_PSTATE_OFF rfl u hu
  | cpu_suspend =>
    show (linuxd_cpu_suspend_handler cfg P core arg s).Conts _ ∧ _
    unfold linuxd_cpu_suspend_handler
    apply Both_assert _ _ _ _ _ _ (fun h => h)
    apply Both_assert _ _ _ _ _ _ (fun h => h)
    apply Both_bind
    · exact habort s
    · intro _ t
      apply Both_bind
      · exact hentry _ t
      · intro rc u
        refine ⟨?_, fun hu => ?_⟩
        · simp only []; split <;> trivial
        · simp only []
          split
          · exact hu
          · exact hpst LINUX_PSTATE_SUSPEND rfl u hu
  | cpu_on_finish =>
    show (linuxd_cpu_on_finish_handler cfg P core arg s).Conts _ ∧ _
    unfold linuxd_cpu_on_finish_handler
    apply Both_assert _ _ _ _ _ _ (fun h => h)
    apply Both_assert _ _ _ _ _ _ (fun h => h)
    apply Both_bind
    · refine ⟨?_, fun hs => builder_keeps B cfg P core _ _ _ s hs (hbuild rfl _ hs)⟩
      unfold linuxd_init_linux_ep_state
      apply Conts_assert
      apply Conts_assert
      trivial
    · intro ep t
      apply Both_bind
      · refine ⟨entry_conts B cfg P core _, fun ht => entry_keeps B cfg P core _ ?_⟩
        split <;> simpa using ht
      · intro rc u
        refine ⟨?_, fun hu => ?_⟩
        · simp only []; split <;> trivial
        · simp only []
          split
          · exact hu
          · exact hpst LINUX_PSTATE_ON rfl u hu
  | cpu_suspend_finish =>
    show (linuxd_cpu_suspend_finish_handler cfg P core arg s).Conts _ ∧ _
    unfold linuxd_cpu_suspend_finish_handler
    apply Both_assert _ _ _ _ _ _ (fun h => h)
    apply Both_assert _ _ _ _ _ _ (fun h => h)
    apply Both_bind
    · exact ⟨entry_conts B cfg P core _, fun hs => entry_keeps B cfg P core _ (by simpa using hs)⟩
    · intro rc u
      refine ⟨?_, fun hu => ?_⟩
      · simp only []; split <;> trivial
      · simp only []
        split
        · exact hu
        · exact hpst LINUX_PSTATE_ON rfl u hu
  | system_off =>
    show (linuxd_system_off cfg P core s).Conts _ ∧ _
    unfold linuxd_system_off
    apply Both_assert _ _ _ _ _ _ (fun h => h)
    apply Both_assert _ _ _ _ _ _ (fun h => h)
    apply Both_bind
    · exact habort s
    · intro _ t
      apply Both_bind
      · exact hentry _ t
      · intro rc u
        exact ⟨trivial, fun hu => hu⟩
  | system_reset =>
    show (linuxd_system_reset cfg P core s).Conts _ ∧ _
    unfold linuxd_system_reset
    apply Both_assert _ _ _ _ _ _ (fun h => h)
    apply Both_assert _ _ _ _ _ _ (fun h => h)
    apply Both_bind
    · exact habort s
    · intro _ t
      apply Both_bind
      · exact hentry _ t
      · intro rc u
        exact ⟨trivial, fun hu => hu⟩

/-- A hook of `linuxd_pm`: what it parks and what it keeps, for a closed property of the
bookkeeping. -/
theorem lifecycle_both (B : Book → Prop) (cfg : BuildConfig) (hB : Book.Closed cfg B)
    (P : Platform) (core arg : Nat) (l : Lifecycle) (s : DState) :
    (l.run cfg P core arg s).Conts (fun d => B d.book) ∧
    (B s.book → (l.run cfg P core arg s).Keeps (fun d => B d.book)) :=
  lifecycle_both_of B cfg P core arg l s (fun b hb => hB.clr_yield b core hb)
    (fun x hx b hb => hB.set_pstate b core x (by cases l <;> cases hx <;> decide) hb)
    (fun _ b hb => closed_builder hB b core hb)

/-- The Entry-State Builder enters nothing. -/
theorem builder_enters (cfg : BuildConfig) (P : Platform) (core : Nat)
    (ep : entry_point_info_t) (rw pc : Nat) (s : DState) :
    (linuxd_init_linux_ep_state cfg P core ep rw pc s).enters = false := by
  unfold linuxd_init_linux_ep_state c_assert
  split
  · rfl
  · split <;> rfl

/-- The setup parks nothing. -/
theorem setup_conts (I : DState → Prop) (cfg : BuildConfig) (P : Platform) (core : Nat)
    (s : DState) : (linuxd_setup cfg P core s).Conts I := by
  unfold linuxd_setup
  split
  · trivial
  · split
    · trivial
    · apply Conts_bind_ret
      · exact builder_enters cfg P core _ _ _ s
      · intro ep t
        simp only []
        split <;> trivial

/-- The handler of secure interrupts parks nothing. -/
theorem sel1_conts (I : DState → Prop) (cfg : BuildConfig) (P : Platform)
    (core id flags : Nat) (handle : CtxPtr) (cookie : Nat) (s : DState) :
    (linuxd_sel1_interrupt_handler cfg P core id flags handle cookie s).Conts I := by
  unfold linuxd_sel1_interrupt_handler
  apply Conts_assert
  apply Conts_assert
  apply Conts_assert
  trivial

/-- The handler of non-secure interrupts parks nothing. -/
theorem ns_conts (I : DState → Prop) (cfg : BuildConfig) (P : Platform)
    (core id flags : Nat) (handle : CtxPtr) (cookie : Nat) (s : DState) :
    (linuxd_ns_interrupt_handler cfg P core id flags handle cookie s).Conts I := by
  unfold linuxd_ns_interrupt_handler
  apply Conts_assert
  exact preemption_conts I cfg P core handle _

/-- Every function of the dispatcher keeps every closed property of the bookkeeping. -/
theorem call_keeps (B : Book → Prop) (cfg : BuildConfig) (hB : Book.Closed cfg B)
    (P : Platform) (m : Machine) (core : Nat) (e : Event) (hs : B m.d.book) :
    (m.call cfg P core e).Keeps (fun d => B d.book) := by
  cases e with
  | smc smc_fid x1 x2 x3 x4 cookie handle flags =>
    apply Keeps_void
    exact smc_keeps B cfg P core smc_fid x1 x2 x3 x4 cookie handle flags m.d hs
      (fun b hb => hB.clr_yield b core hb)
      (fun _ _ hv => hB.entry_done _ core x1 hv hs)
  | sel1_interrupt id flags handle cookie =>
    exact Keeps_void _ _ (sel1_keeps B cfg P core id flags handle cookie m.d hs)
  | ns_interrupt id flags handle cookie =>
    exact Keeps_void _ _ (ns_keeps B cfg P core id flags handle cookie m.d hs)
  | setup => exact Keeps_void _ _ (setup_keeps B cfg hB P core m.d hs)
  | init => exact Keeps_void _ _ ((init_both B cfg P core m.d).2 hs)
  | cpu_on target_cpu => exact hs
  | migrate_info => exact hs
  | lifecycle l arg => exact (lifecycle_both B cfg hB P core arg l m.d).2 hs
  | world_ran p c sysregs elr =>
    simp only [Machine.call, Outcome.Keeps]
    have : ({ write_ctx p (fun _ => c) m.d with
        el1_sysregs := Function.update m.d.el1_sysregs core sysregs,
        elr_el3 := Function.update m.d.elr_el3 core elr } : DState).book
        = (write_ctx p (fun _ => c) m.d).book := rfl
    rw [this, book_write_ctx]
    exact hs

/-- What a function of the dispatcher parks keeps every closed property of the bookkeeping. -/
theorem call_conts (B : Book → Prop) (cfg : BuildConfig) (hB : Book.Closed cfg B)
    (P : Platform) (m : Machine) (core : Nat) (e : Event) :
    (m.call cfg P core e).Conts (fun d => B d.book) := by
  cases e with
  | smc smc_fid x1 x2 x3 x4 cookie handle flags =>
    exact Conts_void _ _ (smc_conts B cfg P core smc_fid x1 x2 x3 x4 cookie handle flags m.d)
  | sel1_interrupt id flags handle cookie =>
    exact Conts_void _ _ (sel1_conts _ cfg P core id flags handle cookie m.d)
  | ns_interrupt id flags handle cookie =>
    exact Conts_void _ _ (ns_conts _ cfg P core id flags handle cookie m.d)
  | setup => exact Conts_void _ _ (setup_conts _ cfg P core m.d)
  | init => exact Conts_void _ _ (init_both B cfg P core m.d).1
  | cpu_on target_cpu => trivial
  | migrate_info => trivial
  | lifecycle l arg => exact (lifecycle_both B cfg hB P core arg l m.d).1
  | world_ran p c sysregs elr => trivial

/-- An event kept from the dispatcher leaves the bookkeeping. -/
theorem refuse_keeps (B : Book → Prop) (P : Platform) (m : Machine) (e : Event)
    (hs : B m.d.book) : (m.refuse P e).Keeps (fun d => B d.book) := by
  cases e with
  | smc smc_fid x1 x2 x3 x4 cookie handle flags =>
    apply Keeps_void
    exact ret_keeps B _ m.d _ hs (by simp)
  | _ => exact hs

/-- An event kept from the dispatcher parks nothing. -/
theorem refuse_conts (I : DState → Prop) (P : Platform) (m : Machine) (e : Event) :
    (m.refuse P e).Conts I := by
  cases e <;> trivial

/-- An event keeps every closed property of the bookkeeping, whatever the routing. -/
theorem react_keeps (B : Book → Prop) (cfg : BuildConfig) (hB : Book.Closed cfg B)
    (P : Platform) (g : Routing) (m : Machine) (core : Nat) (e : Event) (hs : B m.d.book) :
    (m.react cfg P g core e).Keeps (fun d => B d.book) := by
  unfold Machine.react
  split
  · exact call_keeps B cfg hB P m core e hs
  · exact refuse_keeps B P m e hs

/-- What an event parks keeps every closed property of the bookkeeping, whatever the routing. -/
theorem react_conts (B : Book → Prop) (cfg : BuildConfig) (hB : Book.Closed cfg B)
    (P : Platform) (g : Routing) (m : Machine) (core : Nat) (e : Event) :
    (m.react cfg P g core e).Conts (fun d => B d.book) := by
  unfold Machine.react
  split
  · exact call_conts B cfg hB P m core e
  · exact refuse_conts _ P m e

/-! ### The machine keeps closed properties of the bookkeeping -/

/-- The state in which a call leaves the dispatcher satisfies an invariant the call keeps. -/
theorem Keeps_head {α : Type} (I : DState → Prop) (o : Outcome α) (h : o.Keeps I) :
    I o.state := by
  cases o with
  | ret a s => exact h
  | halt s => exact h
  | enter_sp c s k => exact h.1
  | exit_sp c r s => exact h

/-- The state of the machine after an outcome. -/
theorem settle_d (m : Machine) (core : Nat) (o : Outcome Unit) :
    (m.settle core o).d = o.state := by
  cases o <;> rfl

/-- Soundness of the parked C runtimes after an outcome. -/
theorem settle_sound (cfg : BuildConfig) (m : Machine) (core : Nat) (o : Outcome Unit)
    (hm : m.Sound cfg)
    (ho : ∀ B : Book → Prop, Book.Closed cfg B → o.Conts (fun d => B d.book)) :
    (m.settle core o).Sound cfg := by
  cases o with
  | ret a s => exact hm
  | halt s => exact hm
  | exit_sp c r s => exact hm
  | enter_sp h s k =>
    intro c fr hfr B hB v t
    simp only [Machine.settle] at hfr
    by_cases hc : c = core
    · subst hc
      simp only [Function.update_same, List.mem_cons] at hfr
      rcases hfr with rfl | hfr
      · exact ho B hB v t
      · exact hm c fr hfr B hB v t
    · rw [Function.update_noteq hc] at hfr
      exact hm c fr hfr B hB v t

/-- Soundness of the parked C runtimes after the innermost one is resumed. -/
theorem pop_sound (cfg : BuildConfig) (m : Machine) (core : Nat)
    (fr : Nat × (Nat → DState → Outcome Unit))
    (rest : List (Nat × (Nat → DState → Outcome Unit)))
    (hp : m.parked core = fr :: rest) (hm : m.Sound cfg) :
    Machine.Sound cfg { m with parked := Function.update m.parked core rest } := by
  intro c fr2 hfr B hB v t
  by_cases hc : c = core
  · subst hc
    simp only [Function.update_same] at hfr
    exact hm c fr2 (by rw [hp]; exact List.mem_cons_of_mem _ hfr) B hB v t
  · simp only [Function.update_noteq hc] at hfr
    exact hm c fr2 hfr B hB v t

/-- Soundness of the parked C runtimes after an outcome is delivered. -/
theorem deliver_sound (cfg : BuildConfig) (m : Machine) (core : Nat) (o : Outcome Unit)
    (hm : m.Sound cfg)
    (ho : ∀ B : Book → Prop, Book.Closed cfg B → o.Conts (fun d => B d.book)) :
    (m.deliver core o).Sound cfg := by
  cases o with
  | ret a s => exact settle_sound cfg m core _ hm ho
  | halt s => exact settle_sound cfg m core _ hm ho
  | enter_sp h s k => exact settle_sound cfg m core _ hm ho
  | exit_sp c r s =>
    simp only [Machine.deliver]
    cases hp : m.parked core with
    | nil => exact hm
    | cons fr rest =>
      obtain ⟨h, k⟩ := fr
      simp only []
      split
      · apply settle_sound
        · exact pop_sound cfg m core (h, k) rest hp hm
        · intro B hB
          exact (hm core (h, k) (by rw [hp]; exact List.mem_cons_self _ _) B hB r s).1
      · exact hm

/-- A closed property of the bookkeeping after an outcome is delivered. -/
theorem deliver_keeps (cfg : BuildConfig) (B : Book → Prop) (hB : Book.Closed cfg B)
    (m : Machine) (core : Nat) (o : Outcome Unit) (hm : m.Sound cfg)
    (ho : o.Keeps (fun d => B d.book)) : B (m.deliver core o).d.book := by
  cases o with
  | ret a s => exact ho
  | halt s => exact ho
  | enter_sp h s k => exact ho.1
  | exit_sp c r s =>
    simp only [Machine.deliver]
    cases hp : m.parked core with
    | nil => exact ho
    | cons fr rest =>
      obtain ⟨h, k⟩ := fr
      simp only []
      split
      · rw [settle_d]
        exact Keeps_head _ _
          ((hm core (h, k) (by rw [hp]; exact List.mem_cons_self _ _) B hB r s).2 ho)
      · exact ho

/-- The parked C runtimes after an event. -/
theorem step_parked (cfg : BuildConfig) (P : Platform) (g : Routing) (m : Machine) (core : Nat)
    (e : Event) :
    (m.step cfg P g core e).parked = m.parked ∨
    (m.step cfg P g core e).parked = (m.deliver core (m.react cfg P g core e)).parked := by
  unfold Machine.step
  cases m.status with
  | running =>
    cases e <;> first | exact Or.inr rfl | (dsimp only; split <;> exact Or.inr rfl)
  | halted => exact Or.inl rfl
  | undefined => exact Or.inl rfl

/-- The state of the dispatcher after an event. -/
theorem step_d (cfg : BuildConfig) (P : Platform) (g : Routing) (m : Machine) (core : Nat)
    (e : Event) :
    (m.step cfg P g core e).d = m.d ∨
    (m.step cfg P g core e).d = (m.deliver core (m.react cfg P g core e)).d := by
  unfold Machine.step
  cases m.status with
  | running =>
    cases e <;> first | exact Or.inr rfl | (dsimp only; split <;> exact Or.inr rfl)
  | halted => exact Or.inl rfl
  | undefined => exact Or.inl rfl

/-- Soundness of the parked C runtimes after an event. -/
theorem step_sound (cfg : BuildConfig) (P : Platform) (g : Routing) (m : Machine) (core : Nat)
    (e : Event) (hm : m.Sound cfg) : (m.step cfg P g core e).Sound cfg := by
  have hd := deliver_sound cfg m core (m.react cfg P g core e) hm
    (fun B hB => react_conts B cfg hB P g m core e)
  intro c fr hfr
  rcases step_parked cfg P g m core e with h | h
  · rw [h] at hfr; exact hm c fr hfr
  · rw [h] at hfr; exact hd c fr hfr

/-- A closed property of the bookkeeping after an event. -/
theorem step_keeps (cfg : BuildConfig) (B : Book → Prop) (hB : Book.Closed cfg B)
    (P : Platform) (g : Routing) (m : Machine) (core : Nat) (e : Event) (hm : m.Sound cfg)
    (hb : B m.d.book) : B (m.step cfg P g core e).d.book := by
  rcases step_d cfg P g m core e with h | h
  · rw [h]; exact hb
  · rw [h]
    exact deliver_keeps cfg B hB m core _ hm (react_keeps B cfg hB P g m core e hb)

/-- Soundness of the parked C runtimes after a sequence of events. -/
theorem run_sound (cfg : BuildConfig) (P : Platform) (g : Routing) (es : List (Nat × Event)) :
    ∀ m : Machine, m.Sound cfg → (m.run cfg P g es).Sound cfg := by
  induction es with
  | nil => exact fun m hm => hm
  | cons x es ih => exact fun m hm => ih _ (step_sound cfg P g m x.1 x.2 hm)

/-- A closed property of the bookkeeping after a sequence of events. -/
theorem run_keeps (cfg : BuildConfig) (B : Book → Prop) (hB : Book.Closed cfg B)
    (P : Platform) (g : Routing) (es : List (Nat × Event)) :
    ∀ m : Machine, m.Sound cfg → B m.d.book → B (m.run cfg P g es).d.book := by
  induction es with
  | nil => exact fun m _ hb => hb
  | cons x es ih =>
    exact fun m hm hb => ih _ (step_sound cfg P g m x.1 x.2 hm)
      (step_keeps cfg B hB P g m x.1 x.2 hm hb)

/-- No C runtime is parked at boot. -/
theorem boot_sound (cfg : BuildConfig) (bl32 bl33 : Option entry_point_info_t) :
    (Machine.boot bl32 bl33).Sound cfg := by
  intro c fr hfr
  simp [Machine.boot] at hfr

/-- A sequence of events run in two parts. -/
theorem run_append (cfg : BuildConfig) (P : Platform) (g : Routing) (es fs : List (Nat × Event)) :
    ∀ m : Machine, m.run cfg P g (es ++ fs) = (m.run cfg P g es).run cfg P g fs := by
  induction es with
  | nil => exact fun m => rfl
  | cons x es ih => exact fun m => ih _

/-! ### The state word -/

/-- The low two bits of a word. -/
theorem and_three (n : Nat) : n &&& 3 = n % 4 := by
  have := Nat.and_pow_two_sub_one_eq_mod n 2
  simpa using this

/-- Reading the `power_state` written by `set_linux_pstate`. -/
theorem get_set_pstate (st x : Nat) (hx : x ≤ 3) :
    get_linux_pstate (set_linux_pstate st x) = x := by
  unfold get_linux_pstate set_linux_pstate clr_linux_pstate not32 LINUX_PSTATE_MASK
    LINUX_PSTATE_SHIFT
  simp only [Nat.shiftLeft_zero, Nat.shiftRight_zero]
  rw [Nat.and_distrib_right, Nat.and_assoc, Nat.and_assoc]
  have h1 : (2 ^ 32 - 1 - 3 % 2 ^ 32) &&& 3 = 0 := by decide
  rw [h1, Nat.and_zero, Nat.zero_or, Nat.and_self, and_three]
  omega

/-- Clearing the yield flag leaves the `power_state`. -/
theorem get_pstate_clr (st : Nat) :
    get_linux_pstate (clr_yield_smc_active_flag st) = get_linux_pstate st := by
  unfold get_linux_pstate clr_yield_smc_active_flag not32 LINUX_PSTATE_MASK
    LINUX_PSTATE_SHIFT YIELD_SMC_ACTIVE_FLAG_MASK YIELD_SMC_ACTIVE_FLAG_SHIFT
  simp only [Nat.shiftRight_zero]
  rw [Nat.and_assoc]
  have h1 : (2 ^ 32 - 1 - 1 <<< 2 % 2 ^ 32) &&& 3 = 3 := by decide
  rw [h1]

/-- A state word of at most 2 stays so when the yield flag is cleared. -/
theorem clr_yield_small (st : Nat) (h : st ≤ 2) : clr_yield_smc_active_flag st = st := by
  interval_cases st <;> decide

/-- Writing a `power_state` of at most 2 into a state word of at most 2. -/
theorem set_pstate_small (st x : Nat) (h : st ≤ 2) (hx : x ≤ 2) : set_linux_pstate st x = x := by
  interval_cases st <;> interval_cases x <;> decide

/-- The yield flag of a state word of at most 2 is clear. -/
theorem get_yield_small (st : Nat) (h : st ≤ 2) : get_yield_smc_active_flag st = 0 := by
  interval_cases st <;> decide

/-- The `power_state` of a state word of at most 2 is the word. -/
theorem get_pstate_small (st : Nat) (h : st ≤ 2) : get_linux_pstate st = st := by
  interval_cases st <;> decide

/-- The state word the Entry-State Builder leaves is zero. -/
theorem builder_word : clr_yield_smc_active_flag (set_linux_pstate 0 LINUX_PSTATE_OFF) = 0 := by
  decide

/-- Two assignments through the same context pointer. -/
theorem upd_upd (core : Nat) (f g : linux_context_t → linux_context_t) (s : DState) :
    upd_linux_ctx core f (upd_linux_ctx core g s) = upd_linux_ctx core (fun c => f (g c)) s := by
  simp [upd_linux_ctx]

/-- What the Entry-State Builder returns when its two checks pass or are compiled out. -/
theorem builder_ret (cfg : BuildConfig) (P : Platform) (core : Nat) (ep : entry_point_info_t)
    (rw pc : Nat) (s : DState)
    (h : cfg.ENABLE_ASSERTIONS = false ∨ (pc ≠ 0 ∧ rw = LINUX_AARCH64)) :
    linuxd_init_linux_ep_state cfg P core ep rw pc s =
      .ret { ep with h_type := PARAM_EP, h_version := VERSION_1,
                     h_attr := if P.sctlr_el3 &&& SCTLR_EE_BIT != 0 then 6 else 4,
                     pc := pc, spsr := 0x3c5, args := List.replicate 8 0 }
        (cm_set_context core (.sp_cpu_ctx core) SECURE
          (upd_linux_ctx core (fun c => { c with mpidr := P.mpidr core, state := 0 }) s)) := by
  have h1 : (cfg.ENABLE_ASSERTIONS && !(pc != 0)) = false := by
    rcases h with h | h
    · simp [h]
    · simp [h.1]
  have h2 : (cfg.ENABLE_ASSERTIONS && !(rw == LINUX_AARCH64)) = false := by
    rcases h with h | h
    · simp [h]
    · simp [h.2]
  have e4 : SECURE.toNat ||| EP_ST_ENABLE = 4 := by decide
  have e5 : SPSR_64 MODE_EL1 MODE_SP_ELX DISABLE_ALL_EXCEPTIONS = 0x3c5 := by decide
  unfold linuxd_init_linux_ep_state c_assert
  rw [h1, h2]
  simp only [Bool.false_eq_true, if_false, upd_upd, builder_word, e4, e5]
  rfl

/-- What the Entry-State Builder does when a check fails in a build with assertions. -/
theorem builder_halt (cfg : BuildConfig) (P : Platform) (core : Nat) (ep : entry_point_info_t)
    (rw pc : Nat) (s : DState)
    (ha : cfg.ENABLE_ASSERTIONS = true) (h : pc = 0 ∨ rw ≠ LINUX_AARCH64) :
    linuxd_init_linux_ep_state cfg P core ep rw pc s = .halt s := by
  unfold linuxd_init_linux_ep_state c_assert
  by_cases hp : pc = 0
  · simp [ha, hp]
  · have hr : rw ≠ LINUX_AARCH64 := by tauto
    simp [ha, hp, hr]


/-! ### Setup and the Entry-State Builder -/

/-- The state word of a context after the Entry-State Builder and what follows it in
`linuxd_setup`. -/
theorem setup_state (cfg : BuildConfig) (P : Platform) (core : Nat) (e : entry_point_info_t)
    (s : DState) (he : s.bl32_ep_info = some e) (hpc : e.pc ≠ 0) :
    ∃ ep s', linuxd_setup cfg P core s = .ret 0 s' ∧
      linuxd_init_linux_ep_state cfg P core e LINUX_AARCH64 e.pc s = .ret ep
        { s' with bl32_ep_info := s.bl32_ep_info, next_image_type := s.next_image_type,
                  bl32_init_registrations := s.bl32_init_registrations } ∧
      s'.bl32_ep_info = some ep ∧
      s'.linuxd_sp_context = Function.update s.linuxd_sp_context core
        { s.linuxd_sp_context core with mpidr := P.mpidr core, state := 0 } ∧
      (cfg.LINUX_INIT_ASYNC = true → s'.next_image_type = some SECURE ∧
        s'.bl32_init_registrations = s.bl32_init_registrations) ∧
      (cfg.LINUX_INIT_ASYNC = false → s'.next_image_type = s.next_image_type ∧
        s'.bl32_init_registrations = s.bl32_init_registrations + 1) := by
  have hb := builder_ret cfg P core e LINUX_AARCH64 e.pc s (Or.inr ⟨hpc, rfl⟩)
  unfold linuxd_setup
  rw [he]
  simp only [hpc, if_false, hb, Outcome.bind]
  cases hA : cfg.LINUX_INIT_ASYNC
  · refine ⟨_, _, rfl, ?_, rfl, ?_, ?_, ?_⟩
    · simp [bl31_register_bl32_init, cm_set_context, upd_linux_ctx, he]
    · simp [bl31_register_bl32_init, cm_set_context, upd_linux_ctx]
    · simp
    · simp [bl31_register_bl32_init, cm_set_context, upd_linux_ctx]
  · refine ⟨_, _, rfl, ?_, rfl, ?_, ?_, ?_⟩
    · simp [bl31_set_next_image_type, cm_set_context, upd_linux_ctx, he]
    · simp [bl31_set_next_image_type, cm_set_context, upd_linux_ctx]
    · simp [bl31_set_next_image_type, cm_set_context, upd_linux_ctx]
    · simp

/-- C14: `linuxd_setup` always returns.  It returns a non-zero code exactly when the image
descriptor of the payload is absent or its entry address is null, and then it returns 1 and
leaves the whole state as it was (no context touched, nothing registered).  Otherwise it
returns 0 after the Entry-State Builder has run on the context of the calling core, which
it leaves with core id bound, state word 0 (`power_state` Off, `yield_active` false), the
other contexts untouched, the descriptor it filled recorded as the payload's, and the first
entry arranged: `bl31_register_bl32_init` once in a build without `LINUX_INIT_ASYNC`,
`bl31_set_next_image_type(SECURE)` and no registration in a build with it. -/
theorem C14_setup (cfg : BuildConfig) (P : Platform) (core : Nat) (s : DState) :
    ∃ r s', linuxd_setup cfg P core s = .ret r s' ∧
      (r ≠ 0 ↔ (s.bl32_ep_info = none ∨ ∃ e, s.bl32_ep_info = some e ∧ e.pc = 0)) ∧
      (r ≠ 0 → r = 1 ∧ s' = s) ∧
      (r = 0 → ∃ e ep, s.bl32_ep_info = some e ∧
        linuxd_init_linux_ep_state cfg P core e LINUX_AARCH64 e.pc s = .ret ep
          { s' with bl32_ep_info := s.bl32_ep_info, next_image_type := s.next_image_type,
                    bl32_init_registrations := s.bl32_init_registrations } ∧
        s'.bl32_ep_info = some ep ∧
        (s'.linuxd_sp_context core).mpidr = P.mpidr core ∧
        s'.pstate core = LINUX_PSTATE_OFF ∧ s'.yield_active core = 0 ∧
        (∀ c, c ≠ core → s'.linuxd_sp_context c = s.linuxd_sp_context c) ∧
        (cfg.LINUX_INIT_ASYNC = true → s'.next_image_type = some SECURE ∧
          s'.bl32_init_registrations = s.bl32_init_registrations) ∧
        (cfg.LINUX_INIT_ASYNC = false → s'.next_image_type = s.next_image_type ∧
          s'.bl32_init_registrations = s.bl32_init_registrations + 1)) := by
  cases he : s.bl32_ep_info with
  | none =>
    refine ⟨1, s, ?_, ?_, ?_, ?_⟩
    · unfold linuxd_setup; rw [he]
    · simp
    · intro _; exact ⟨rfl, rfl⟩
    · intro h; exact absurd h (by decide)
  | some e =>
    by_cases hpc : e.pc = 0
    · refine ⟨1, s, ?_, ?_, ?_, ?_⟩
      · unfold linuxd_setup; rw [he]; simp [hpc]
      · simp [hpc]
      · intro _; exact ⟨rfl, rfl⟩
      · intro h; exact absurd h (by decide)
    · obtain ⟨ep, s', h1, h2, h3, h4, h5, h6⟩ := setup_state cfg P core e s he hpc
      refine ⟨0, s', h1, ?_, ?_, ?_⟩
      · simp [hpc]
      · intro h; exact absurd rfl h
      · intro _
        refine ⟨e, ep, rfl, ?_, h3, ?_, ?_, ?_, ?_, h5, h6⟩
        · rw [he] at h2; exact h2
        · rw [h4]; simp
        · unfold DState.pstate; rw [h4]; simp; decide
        · unfold DState.yield_active; rw [h4]; simp; decide
        · intro c hc; rw [h4]; simp [hc]

/-- Witness of C14: the cold boot of core 0 with the sample image descriptor returns 0. -/
theorem C14_setup_witness :
    ∃ r s', linuxd_setup debug_build sample_platform 0 (boot_state (some sample_bl32) none)
        = .ret r s' ∧ r = 0 ∧ s'.bl32_init_registrations = 1 ∧ s'.pstate 0 = LINUX_PSTATE_OFF := by
  obtain ⟨r, s', h1, h2, h3, h4⟩ :=
    C14_setup debug_build sample_platform 0 (boot_state (some sample_bl32) none)
  have hr : r = 0 := by
    by_contra hne
    rcases h2.1 hne with h | ⟨e, he, hpc⟩
    · simp [boot_state] at h
    · simp only [boot_state, Option.some.injEq] at he
      subst he
      exact absurd hpc (by decide)
  obtain ⟨e, ep, _, _, _, _, hp, _, _, _, hreg⟩ := h4 hr
  exact ⟨r, s', h1, hr, (hreg rfl).2, hp⟩

/-- C16 (amended): in a build with `ENABLE_ASSERTIONS` a zero `pc` or a width other than
64-bit makes `linuxd_init_linux_ep_state` halt with the state untouched.  Otherwise (the two
checks pass, or the build has no assertions) it returns, for every context: the core id of
the context is the MPIDR of the calling core, the state word is 0 (`power_state` Off,
`yield_active` false, no other bit), the rest of the context and the other contexts are as
before, the context is registered as the secure one of the core, and the descriptor holds
`pc`, the secure attribute with `EP_ST_ENABLE`, `EP_EE_BIG` exactly when `SCTLR_EL3.EE` is
set, the status word `SPSR_64(MODE_EL1, MODE_SP_ELX, DISABLE_ALL_EXCEPTIONS)` (AArch64, EL1,
`SP_EL1`, DAIF all masked) and eight zero arguments. -/
theorem C16_entry_state_builder (cfg : BuildConfig) (P : Platform) (core : Nat)
    (ep : entry_point_info_t) (rw pc : Nat) (s : DState) :
    (cfg.ENABLE_ASSERTIONS = true → (pc = 0 ∨ rw ≠ LINUX_AARCH64) →
      linuxd_init_linux_ep_state cfg P core ep rw pc s = .halt s) ∧
    ((cfg.ENABLE_ASSERTIONS = false ∨ (pc ≠ 0 ∧ rw = LINUX_AARCH64)) →
      ∃ ep' s', linuxd_init_linux_ep_state cfg P core ep rw pc s = .ret ep' s' ∧
        (s'.linuxd_sp_context core).mpidr = P.mpidr core ∧
        (s'.linuxd_sp_context core).state = 0 ∧
        s'.pstate core = LINUX_PSTATE_OFF ∧ s'.yield_active core = 0 ∧
        s'.linuxd_sp_context core
          = { s.linuxd_sp_context core with mpidr := P.mpidr core, state := 0 } ∧
        (∀ c, c ≠ core → s'.linuxd_sp_context c = s.linuxd_sp_context c) ∧
        cm_get_context core SECURE s' = some (.sp_cpu_ctx core) ∧
        ep'.pc = pc ∧
        GET_SECURITY_STATE ep'.h_attr = SECURE ∧ ep'.h_attr &&& EP_ST_ENABLE = EP_ST_ENABLE ∧
        (ep'.h_attr &&& EP_EE_BIG = EP_EE_BIG ↔ P.sctlr_el3 &&& SCTLR_EE_BIT ≠ 0) ∧
        ep'.spsr = SPSR_64 MODE_EL1 MODE_SP_ELX DISABLE_ALL_EXCEPTIONS ∧
        (ep'.spsr >>> 4) &&& 1 = MODE_RW_64 ∧ (ep'.spsr >>> 2) &&& 3 = MODE_EL1 ∧
        ep'.spsr &&& 1 = MODE_SP_ELX ∧ (ep'.spsr >>> 6) &&& 0xf = DISABLE_ALL_EXCEPTIONS ∧
        ep'.args = List.replicate 8 0) := by
  refine ⟨fun ha h => builder_halt cfg P core ep rw pc s ha h, fun h => ?_⟩
  refine ⟨_, _, builder_ret cfg P core ep rw pc s h, ?_⟩
  refine ⟨?_, ?_, ?_, ?_, ?_, ?_, ?_, rfl, ?_, ?_, ?_, ?_, ?_, ?_, ?_, ?_, rfl⟩
  · simp [cm_set_context, upd_linux_ctx]
  · simp [cm_set_context, upd_linux_ctx]
  · simp [DState.pstate, cm_set_context, upd_linux_ctx]; decide
  · simp [DState.yield_active, cm_set_context, upd_linux_ctx]; decide
  · simp [cm_set_context, upd_linux_ctx]
  · intro c hc; simp [cm_set_context, upd_linux_ctx, hc]
  · simp [cm_get_context, cm_set_context]
  · by_cases hb : P.sctlr_el3 &&& SCTLR_EE_BIT = 0 <;> simp [hb] <;> decide
  · by_cases hb : P.sctlr_el3 &&& SCTLR_EE_BIT = 0 <;> simp [hb] <;> decide
  · by_cases hb : P.sctlr_el3 &&& SCTLR_EE_BIT = 0 <;> simp [hb] <;> decide
  · show (965 : Nat) = _; decide
  · show ((965 : Nat) >>> 4) &&& 1 = _; decide
  · show ((965 : Nat) >>> 2) &&& 3 = _; decide
  · show (965 : Nat) &&& 1 = _; decide
  · show ((965 : Nat) >>> 6) &&& 0xf = _; decide

/-- Witness of C16: the builder on core 0 for the entry address `0xe100000`, and for a null
entry address. -/
theorem C16_entry_state_builder_witness :
    linuxd_init_linux_ep_state debug_build sample_platform 0 sample_bl32 LINUX_AARCH64 0
        (boot_state none none) = .halt (boot_state none none) ∧
    ∃ ep' s', linuxd_init_linux_ep_state debug_build sample_platform 0 sample_bl32
        LINUX_AARCH64 0xe100000 (boot_state none none) = .ret ep' s' ∧
      s'.pstate 0 = LINUX_PSTATE_OFF ∧ ep'.pc = 0xe100000 ∧ ep'.h_attr = 4 ∧
      ep'.spsr = 0x3c5 := by
  refine ⟨(C16_entry_state_builder debug_build sample_platform 0 sample_bl32 LINUX_AARCH64 0
    (boot_state none none)).1 rfl (Or.inl rfl), ?_⟩
  obtain ⟨ep', s', h, _, _, hp, _, _, _, _, hpc, _, _, _, hs, _⟩ :=
    (C16_entry_state_builder debug_build sample_platform 0 sample_bl32 LINUX_AARCH64 0xe100000
      (boot_state none none)).2 (Or.inr ⟨by decide, rfl⟩)
  refine ⟨ep', s', h, hp, hpc, ?_, ?_⟩
  · rw [builder_ret debug_build sample_platform 0 sample_bl32 LINUX_AARCH64 0xe100000
      (boot_state none none) (Or.inr ⟨by decide, rfl⟩)] at h
    cases h
    decide
  · rw [hs]; decide

/-- Counterexample to C16 as stated: without `ENABLE_ASSERTIONS` a null destination address
is not fatal; the builder returns a descriptor whose entry address is 0. -/
theorem C16_counterexample :
    (linuxd_init_linux_ep_state release_build sample_platform 0 sample_bl32 LINUX_AARCH64 0
        (boot_state none none)).halts = false ∧
    ((linuxd_init_linux_ep_state release_build sample_platform 0 sample_bl32 LINUX_AARCH64 0
        (boot_state none none)).value?.map fun e => e.pc) = some 0 ∧
    (linuxd_init_linux_ep_state release_build sample_platform 0 sample_bl32 LINUX_AARCH32
        0xe100000 (boot_state none none)).halts = false := by
  decide

/-! ### Lifecycle hooks -/

/-- The two checks every hook that enters the payload starts with. -/
theorem two_asserts_halt {α : Type} (cfg : BuildConfig) (s : DState) (v p pre : Nat)
    (k : Outcome α) (ha : cfg.ENABLE_ASSERTIONS = true) (hw : v = 0 ∨ p ≠ pre) :
    c_assert cfg (v != 0) s (c_assert cfg (p == pre) s k) = .halt s := by
  unfold c_assert
  by_cases hv : v = 0
  · simp [ha, hv]
  · have hp : p ≠ pre := by tauto
    simp [ha, hv, hp]

/-- The two checks pass, or are compiled out. -/
theorem two_asserts_pass {α : Type} (cfg : BuildConfig) (s : DState) (v p pre : Nat)
    (k : Outcome α) (h : cfg.ENABLE_ASSERTIONS = false ∨ (v ≠ 0 ∧ p = pre)) :
    c_assert cfg (v != 0) s (c_assert cfg (p == pre) s k) = k := by
  unfold c_assert
  rcases h with h | ⟨h1, h2⟩
  · simp [h]
  · simp [h1, h2]

/-- Without assertions the entry always enters the payload. -/
theorem entry_enters_release (cfg : BuildConfig) (P : Platform) (core : Nat) (s : DState)
    (ha : cfg.ENABLE_ASSERTIONS = false) :
    (linuxd_synchronous_sp_entry cfg P core s).enters = true := by
  simp [linuxd_synchronous_sp_entry, c_assert, ha, linuxd_enter_sp, Outcome.bind,
    Outcome.enters]

/-- A sequence enters the payload when its first part does, or returns into a second part that
does. -/
theorem bind_enters {α β : Type} (o : Outcome α) (f : α → DState → Outcome β)
    (h : o.enters = true ∨ ∃ a s, o = .ret a s ∧ (f a s).enters = true) :
    (o.bind f).enters = true := by
  rcases h with h | ⟨a, s, rfl, h⟩
  · cases o <;> simp_all [Outcome.enters, Outcome.bind]
  · exact h

/-- Without assertions the abort helper enters the payload or finds nothing to abort. -/
theorem abort_enters_release (cfg : BuildConfig) (P : Platform) (core : Nat) (s : DState)
    (ha : cfg.ENABLE_ASSERTIONS = false) :
    (linuxd_abort_preempted_smc cfg P core s).enters = true ∨
    linuxd_abort_preempted_smc cfg P core s = .ret 0 s := by
  unfold linuxd_abort_preempted_smc
  split
  · exact Or.inr rfl
  · left
    apply bind_enters
    left
    exact entry_enters_release cfg P core _ ha

/-- Without assertions every hook that enters the payload does so whatever the state. -/
theorem lifecycle_enters_release (cfg : BuildConfig) (P : Platform) (core arg : Nat)
    (l : Lifecycle) (s : DState) (ha : cfg.ENABLE_ASSERTIONS = false) :
    (l.run cfg P core arg s).enters = true := by
  have hab : ∀ {β : Type} (f : Int → DState → Outcome β),
      (∀ a t, (f a t).enters = true) →
      ((linuxd_abort_preempted_smc cfg P core s).bind f).enters = true := by
    intro β f hf
    apply bind_enters
    rcases abort_enters_release cfg P core s ha with h | h
    · exact Or.inl h
    · exact Or.inr ⟨0, s, h, hf 0 s⟩
  have hen : ∀ {β : Type} (t : DState) (f : Nat → DState → Outcome β),
      ((linuxd_synchronous_sp_entry cfg P core t).bind f).enters = true :=
    fun t f => bind_enters _ f (Or.inl (entry_enters_release cfg P core t ha))
  cases l with
  | cpu_off =>
    show (Outcome.bind _ _).enters = true
    apply bind_enters
    left
    unfold linuxd_cpu_off_handler
    rw [two_asserts_pass cfg s _ _ _ _ (Or.inl ha)]
    exact hab _ (fun a t => hen _ _)
  | cpu_suspend =>
    show (linuxd_cpu_suspend_handler cfg P core arg s).enters = true
    unfold linuxd_cpu_suspend_handler
    rw [two_asserts_pass cfg s _ _ _ _ (Or.inl ha)]
    exact hab _ (fun a t => hen _ _)
  | cpu_on_finish =>
    show (linuxd_cpu_on_finish_handler cfg P core arg s).enters = true
    unfold linuxd_cpu_on_finish_handler
    rw [two_asserts_pass cfg s _ _ _ _ (Or.inl ha)]
    apply bind_enters
    right
    refine ⟨_, _, builder_ret cfg P core _ _ _ s (Or.inl ha), hen _ _⟩
  | cpu_suspend_finish =>
    show (linuxd_cpu_suspend_finish_handler cfg P core arg s).enters = true
    unfold linuxd_cpu_suspend_finish_handler
    rw [two_asserts_pass cfg s _ _ _ _ (Or.inl ha)]
    exact hen _ _
  | system_off =>
    show (linuxd_system_off cfg P core s).enters = true
    unfold linuxd_system_off
    rw [two_asserts_pass cfg s _ _ _ _ (Or.inl ha)]
    exact hab _ (fun a t => hen _ _)
  | system_reset =>
    show (linuxd_system_reset cfg P core s).enters = true
    unfold linuxd_system_reset
    rw [two_asserts_pass cfg s _ _ _ _ (Or.inl ha)]
    exact hab _ (fun a t => hen _ _)

/-- A hook called in the wrong state halts at once in a build with assertions. -/
theorem lifecycle_wrong_state (cfg : BuildConfig) (P : Platform) (core arg : Nat)
    (l : Lifecycle) (s : DState) (ha : cfg.ENABLE_ASSERTIONS = true)
    (hw : s.linux_vectors = 0 ∨ s.pstate core ≠ l.pre) :
    l.run cfg P core arg s = .halt s := by
  cases l with
  | cpu_off =>
    show (linuxd_cpu_off_handler cfg P core arg s).void = .halt s
    unfold linuxd_cpu_off_handler
    rw [two_asserts_halt cfg s s.linux_vectors
      (get_linux_pstate (s.linuxd_sp_context core).state) LINUX_PSTATE_ON _ ha hw]
    rfl
  | cpu_suspend => exact two_asserts_halt cfg s _ _ _ _ ha hw
  | cpu_on_finish => exact two_asserts_halt cfg s _ _ _ _ ha hw
  | cpu_suspend_finish => exact two_asserts_halt cfg s _ _ _ _ ha hw
  | system_off => exact two_asserts_halt cfg s _ _ _ _ ha hw
  | system_reset => exact two_asserts_halt cfg s _ _ _ _ ha hw

/-- C19 (amended): in a build with `ENABLE_ASSERTIONS`, each of the off, suspend, on-finish,
suspend-finish, system-off and system-reset hooks, called while the vector table is not
established or while `power_state` differs from its pre-state, halts at once: no synchronous
entry, the state exactly as it was; so does the off handler called while `power_state` is
Suspended.  In a build without `ENABLE_ASSERTIONS` the two checks are compiled out and every
one of these hooks goes on to enter the payload whatever the state. -/
theorem C19_wrong_state (cfg : BuildConfig) (P : Platform) (core arg : Nat) (l : Lifecycle)
    (s : DState) :
    (cfg.ENABLE_ASSERTIONS = true → (s.linux_vectors = 0 ∨ s.pstate core ≠ l.pre) →
      l.run cfg P core arg s = .halt s) ∧
    (cfg.ENABLE_ASSERTIONS = true → s.pstate core = LINUX_PSTATE_SUSPEND →
      linuxd_cpu_off_handler cfg P core arg s = .halt s) ∧
    (cfg.ENABLE_ASSERTIONS = false → (l.run cfg P core arg s).enters = true) := by
  refine ⟨lifecycle_wrong_state cfg P core arg l s, fun ha hp => ?_,
    lifecycle_enters_release cfg P core arg l s⟩
  unfold linuxd_cpu_off_handler
  exact two_asserts_halt cfg s _ _ _ _ ha (Or.inr (by
    show s.pstate core ≠ LINUX_PSTATE_ON
    rw [hp]; decide))

/-- Witness of C19: the off hook on core 0 while `power_state` is Suspended, with
assertions. -/
theorem C19_wrong_state_witness :
    Lifecycle.run debug_build sample_platform 0 0 .cpu_off (lifecycle_state LINUX_PSTATE_SUSPEND)
      = .halt (lifecycle_state LINUX_PSTATE_SUSPEND) :=
  (C19_wrong_state debug_build sample_platform 0 0 .cpu_off
    (lifecycle_state LINUX_PSTATE_SUSPEND)).1 rfl (Or.inr (by decide))

/-- Counterexample to C19 as stated: without `ENABLE_ASSERTIONS` the off handler called
while `power_state` is Suspended does not halt; it enters the payload and, answered with 0,
sets `power_state` to Off. -/
theorem C19_counterexample :
    (linuxd_cpu_off_handler release_build sample_platform 0 0
      (lifecycle_state LINUX_PSTATE_SUSPEND)).halts = false ∧
    (linuxd_cpu_off_handler release_build sample_platform 0 0
      (lifecycle_state LINUX_PSTATE_SUSPEND)).enters = true ∧
    ((linuxd_cpu_off_handler release_build sample_platform 0 0
      (lifecycle_state LINUX_PSTATE_SUSPEND)).answer 0).value? = some 0 ∧
    ((linuxd_cpu_off_handler release_build sample_platform 0 0
      (lifecycle_state LINUX_PSTATE_SUSPEND)).answer 0).state.pstate 0 = LINUX_PSTATE_OFF := by
  decide

/-! ### Answers of the payload -/

/-- What a store through a register-file pointer leaves alone. -/
theorem write_ctx_opt_fields (p : Option CtxPtr) (f : cpu_context_t → cpu_context_t)
    (s : DState) :
    (write_ctx_opt p f s).cm_context = s.cm_context ∧
    (write_ctx_opt p f s).linux_vectors = s.linux_vectors ∧
    (∀ c, ((write_ctx_opt p f s).linuxd_sp_context c).c_rt_ctx
        = (s.linuxd_sp_context c).c_rt_ctx) ∧
    (∀ c, ((write_ctx_opt p f s).linuxd_sp_context c).state = (s.linuxd_sp_context c).state) := by
  cases p with
  | none => exact ⟨rfl, rfl, fun _ => rfl, fun _ => rfl⟩
  | some q =>
    cases q with
    | ns_cpu_ctx c => exact ⟨rfl, rfl, fun _ => rfl, fun _ => rfl⟩
    | sp_cpu_ctx c =>
      refine ⟨rfl, rfl, fun d => ?_, fun d => ?_⟩
      · by_cases h : d = c
        · subst h; simp [write_ctx_opt, write_ctx, upd_linux_ctx]
        · simp [write_ctx_opt, write_ctx, upd_linux_ctx, h]
      · by_cases h : d = c
        · subst h; simp [write_ctx_opt, write_ctx, upd_linux_ctx]
        · simp [write_ctx_opt, write_ctx, upd_linux_ctx, h]

/-- The entry parks the C runtime when its two checks pass or are compiled out. -/
theorem entry_eq (cfg : BuildConfig) (P : Platform) (core : Nat) (s : DState)
    (hpre : cfg.ENABLE_ASSERTIONS = true →
      (s.linuxd_sp_context core).c_rt_ctx = 0 ∧ s.secure_bound core) :
    linuxd_synchronous_sp_entry cfg P core s
      = .enter_sp (P.c_rt_sp core) (sp_entry_prologue P core s)
          (fun rc t => .ret rc (sp_entry_epilogue cfg core t)) := by
  unfold linuxd_synchronous_sp_entry c_assert
  cases ha : cfg.ENABLE_ASSERTIONS
  · simp [linuxd_enter_sp, Outcome.bind, sp_entry_prologue, sp_entry_epilogue, ha]
  · obtain ⟨h1, h2⟩ := hpre ha
    unfold DState.secure_bound at h2
    simp [linuxd_enter_sp, Outcome.bind, sp_entry_prologue, sp_entry_epilogue, ha, h1,
      cm_get_context, h2]

/-- What the epilogue of the entry leaves alone, and what it clears. -/
theorem epilogue_fields (cfg : BuildConfig) (core : Nat) (t : DState) :
    (sp_entry_epilogue cfg core t).cm_context = t.cm_context ∧
    (sp_entry_epilogue cfg core t).linux_vectors = t.linux_vectors ∧
    (∀ c, ((sp_entry_epilogue cfg core t).linuxd_sp_context c).state
        = (t.linuxd_sp_context c).state) ∧
    (cfg.ENABLE_ASSERTIONS = true →
      ((sp_entry_epilogue cfg core t).linuxd_sp_context core).c_rt_ctx = 0) := by
  unfold sp_entry_epilogue
  cases ha : cfg.ENABLE_ASSERTIONS
  · simp
  · refine ⟨rfl, rfl, fun c => ?_, fun _ => ?_⟩
    · by_cases h : c = core
      · subst h; simp [upd_linux_ctx]
      · simp [upd_linux_ctx, h]
    · simp [upd_linux_ctx]

/-- Sequencing and the answers of the payload. -/
theorem Ends_bind {α β : Type} (R : DState → Prop) (v : Nat) (Q : Option β → DState → Prop)
    (o : Outcome α) (f : α → DState → Outcome β)
    (h : o.Ends R v (fun r u => match r with
      | some a => (f a u).Ends R v Q
      | none => Q none u)) :
    (o.bind f).Ends R v Q := by
  induction o with
  | ret a s => exact h
  | halt s => exact h
  | enter_sp c s k ih => exact fun t ht => ih v t (h t ht)
  | exit_sp c r s => exact h

/-- The answers of the payload and a dropped result. -/
theorem Ends_void {α : Type} (R : DState → Prop) (v : Nat) (Q : Option Unit → DState → Prop)
    (o : Outcome α) (h : o.Ends R v (fun r u => Q (r.map fun _ => ()) u)) :
    o.void.Ends R v Q := by
  apply Ends_bind
  induction o with
  | ret a s => exact h
  | halt s => exact h
  | enter_sp c s k ih => exact fun t ht => ih v t (h t ht)
  | exit_sp c r s => exact h

/-- A weaker conclusion about the end of a call. -/
theorem Ends_mono {α : Type} (R : DState → Prop) (v : Nat) (Q Q2 : Option α → DState → Prop)
    (o : Outcome α) (h : o.Ends R v Q) (hq : ∀ r u, Q r u → Q2 r u) : o.Ends R v Q2 := by
  induction o with
  | ret a s => exact hq _ _ h
  | halt s => exact hq _ _ h
  | enter_sp c s k ih => exact fun t ht => ih v t (h t ht)
  | exit_sp c r s => exact h

/-- The entry, answered with `v`. -/
theorem entry_Ends (cfg : BuildConfig) (P : Platform) (core : Nat) (s : DState)
    (R : DState → Prop) (v : Nat) (Q : Option Nat → DState → Prop)
    (hpre : cfg.ENABLE_ASSERTIONS = true →
      (s.linuxd_sp_context core).c_rt_ctx = 0 ∧ s.secure_bound core)
    (h : ∀ t, R t → Q (some v) (sp_entry_epilogue cfg core t)) :
    (linuxd_synchronous_sp_entry cfg P core s).Ends R v Q := by
  rw [entry_eq cfg P core s hpre]
  exact h

/-- The abort helper, answered with `v`; when there is something to abort the answer is 0. -/
theorem abort_Ends (cfg : BuildConfig) (P : Platform) (core : Nat) (s : DState)
    (R : DState → Prop) (v : Nat) (Q : Option Int → DState → Prop)
    (hpre : cfg.ENABLE_ASSERTIONS = true →
      (s.linuxd_sp_context core).c_rt_ctx = 0 ∧ s.secure_bound core)
    (hy : v ≠ 0 → s.yield_active core = 0)
    (h0 : s.yield_active core = 0 → Q (some 0) s)
    (h1 : ∀ t, R t → Q (some 1) (sp_entry_epilogue cfg core t)) :
    (linuxd_abort_preempted_smc cfg P core s).Ends R v Q := by
  unfold linuxd_abort_preempted_smc
  split
  · rename_i hz
    exact h0 hz
  · rename_i hz
    have hv : v = 0 := by
      by_contra hne
      exact hz (hy hne)
    subst hv
    apply Ends_bind
    apply entry_Ends
    · intro ha
      obtain ⟨h1, h2⟩ := hpre ha
      obtain ⟨g1, _, g3, _⟩ := write_ctx_opt_fields
        ((upd_linux_ctx core (fun c => { c with state := clr_yield_smc_active_flag c.state })
          s).cm_context core SECURE) (fun c => { c with elr_el3 :=
            ((upd_linux_ctx core (fun c => { c with state := clr_yield_smc_active_flag c.state })
              s).linux_vectors + P.abort_yield_smc_entry) % 2 ^ 64 })
        (upd_linux_ctx core (fun c => { c with state := clr_yield_smc_active_flag c.state }) s)
      refine ⟨?_, ?_⟩
      · show ((cm_set_elr_el3 core SECURE _ _).linuxd_sp_context core).c_rt_ctx = 0
        unfold cm_set_elr_el3
        rw [g3]
        simpa [upd_linux_ctx] using h1
      · show (cm_set_elr_el3 core SECURE _ _).cm_context core SECURE = _
        unfold cm_set_elr_el3
        rw [g1]
        exact h2
    · intro t ht
      exact h1 t ht


/-- Programming the return address keeps what the entry checks. -/
theorem set_elr_pre (cfg : BuildConfig) (core pc : Nat) (u : DState)
    (h : cfg.ENABLE_ASSERTIONS = true →
      (u.linuxd_sp_context core).c_rt_ctx = 0 ∧ u.secure_bound core) :
    cfg.ENABLE_ASSERTIONS = true →
      ((cm_set_elr_el3 core SECURE pc u).linuxd_sp_context core).c_rt_ctx = 0 ∧
      (cm_set_elr_el3 core SECURE pc u).secure_bound core := by
  intro ha
  obtain ⟨h1, h2⟩ := h ha
  obtain ⟨g1, _, g3, _⟩ := write_ctx_opt_fields (u.cm_context core SECURE)
    (fun c => { c with elr_el3 := pc }) u
  unfold cm_set_elr_el3 DState.secure_bound
  rw [g1, g3]
  exact ⟨h1, h2⟩

/-- The epilogue of an entry establishes what the next entry checks. -/
theorem epilogue_pre (cfg : BuildConfig) (core : Nat) (t : DState) (ht : t.secure_bound core) :
    cfg.ENABLE_ASSERTIONS = true →
      ((sp_entry_epilogue cfg core t).linuxd_sp_context core).c_rt_ctx = 0 ∧
      (sp_entry_epilogue cfg core t).secure_bound core := by
  intro ha
  obtain ⟨g1, _, _, g4⟩ := epilogue_fields cfg core t
  unfold DState.secure_bound
  rw [g1]
  exact ⟨g4 ha, ht⟩

/-- The `power_state` after a write of `x` to it. -/
theorem pstate_upd (core x : Nat) (hx : x ≤ 3) (u : DState) :
    (upd_linux_ctx core (fun c => { c with state := set_linux_pstate c.state x }) u).pstate core
      = x := by
  simp [DState.pstate, upd_linux_ctx, get_set_pstate _ _ hx]

/-- The entry of a hook and the statements that follow it, answered with `v`. -/
theorem tail_Ends {α : Type} (cfg : BuildConfig) (P : Platform) (core : Nat) (u : DState)
    (R : DState → Prop) (v : Nat) (Q : Option α → DState → Prop) (a : α) (x : Nat)
    (hu : cfg.ENABLE_ASSERTIONS = true →
      (u.linuxd_sp_context core).c_rt_ctx = 0 ∧ u.secure_bound core)
    (hQ : ∀ t, R t →
      if to_int32 v ≠ 0 then Q none (sp_entry_epilogue cfg core t)
      else Q (some a) (upd_linux_ctx core
        (fun c => { c with state := set_linux_pstate c.state x })
        (sp_entry_epilogue cfg core t))) :
    ((linuxd_synchronous_sp_entry cfg P core u).bind fun rc s =>
      if (to_int32 rc != 0) = true then Outcome.halt s
      else Outcome.ret a (upd_linux_ctx core
        (fun c => { c with state := set_linux_pstate c.state x }) s)).Ends R v Q := by
  apply Ends_bind
  apply entry_Ends _ _ _ _ _ _ _ hu
  intro t ht
  have := hQ t ht
  by_cases hz : to_int32 v = 0
  · simpa [hz, Outcome.Ends] using this
  · simpa [hz, Outcome.Ends] using this

/-- The checks of a hook pass or are compiled out. -/
theorem checks_pass (cfg : BuildConfig) (s : DState) (core pre : Nat)
    (hchk : cfg.ENABLE_ASSERTIONS = true → s.linux_vectors ≠ 0 ∧ s.pstate core = pre) :
    cfg.ENABLE_ASSERTIONS = false ∨
      (s.linux_vectors ≠ 0 ∧ get_linux_pstate (s.linuxd_sp_context core).state = pre) := by
  cases ha : cfg.ENABLE_ASSERTIONS
  · exact Or.inl rfl
  · exact Or.inr (hchk ha)

/-- The off handler when the payload answers every entry with `v`. -/
theorem off_Ends (cfg : BuildConfig) (P : Platform) (core arg : Nat) (s : DState)
    (R : DState → Prop) (v : Nat) (Q : Option Int → DState → Prop)
    (hR : ∀ t, R t → t.secure_bound core)
    (hchk : cfg.ENABLE_ASSERTIONS = true → s.linux_vectors ≠ 0 ∧
      s.pstate core = LINUX_PSTATE_ON)
    (hpre : cfg.ENABLE_ASSERTIONS = true →
      (s.linuxd_sp_context core).c_rt_ctx = 0 ∧ s.secure_bound core)
    (hy : v ≠ 0 → s.yield_active core = 0)
    (hQ : ∀ t, R t →
      if to_int32 v ≠ 0 then Q none (sp_entry_epilogue cfg core t)
      else Q (some 0) (upd_linux_ctx core
        (fun c => { c with state := set_linux_pstate c.state LINUX_PSTATE_OFF })
        (sp_entry_epilogue cfg core t))) :
    (linuxd_cpu_off_handler cfg P core arg s).Ends R v Q := by
  unfold linuxd_cpu_off_handler
  rw [two_asserts_pass cfg s _ _ _ _ (checks_pass cfg s core _ hchk)]
  apply Ends_bind
  apply abort_Ends cfg P core s R v _ hpre hy
  · intro _
    exact tail_Ends cfg P core _ R v Q 0 _ (set_elr_pre cfg core _ s hpre) hQ
  · intro t ht
    exact tail_Ends cfg P core _ R v Q 0 _
      (set_elr_pre cfg core _ _ (epilogue_pre cfg core t (hR t ht))) hQ

/-- The suspend handler when the payload answers every entry with `v`. -/
theorem suspend_Ends (cfg : BuildConfig) (P : Platform) (core arg : Nat) (s : DState)
    (R : DState → Prop) (v : Nat) (Q : Option Unit → DState → Prop)
    (hR : ∀ t, R t → t.secure_bound core)
    (hchk : cfg.ENABLE_ASSERTIONS = true → s.linux_vectors ≠ 0 ∧
      s.pstate core = LINUX_PSTATE_ON)
    (hpre : cfg.ENABLE_ASSERTIONS = true →
      (s.linuxd_sp_context core).c_rt_ctx = 0 ∧ s.secure_bound core)
    (hy : v ≠ 0 → s.yield_active core = 0)
    (hQ : ∀ t, R t →
      if to_int32 v ≠ 0 then Q none (sp_entry_epilogue cfg core t)
      else Q (some ()) (upd_linux_ctx core
        (fun c => { c with state := set_linux_pstate c.state LINUX_PSTATE_SUSPEND })
        (sp_entry_epilogue cfg core t))) :
    (linuxd_cpu_suspend_handler cfg P core arg s).Ends R v Q := by
  unfold linuxd_cpu_suspend_handler
  rw [two_asserts_pass cfg s _ _ _ _ (checks_pass cfg s core _ hchk)]
  apply Ends_bind
  apply abort_Ends cfg P core s R v _ hpre hy
  · intro _
    exact tail_Ends cfg P core _ R v Q () _ (set_elr_pre cfg core _ s hpre) hQ
  · intro t ht
    exact tail_Ends cfg P core _ R v Q () _
      (set_elr_pre cfg core _ _ (epilogue_pre cfg core t (hR t ht))) hQ

/-- The suspend-finish handler when the payload answers its entry with `v`. -/
theorem suspend_finish_Ends (cfg : BuildConfig) (P : Platform) (core arg : Nat) (s : DState)
    (R : DState → Prop) (v : Nat) (Q : Option Unit → DState → Prop)
    (hchk : cfg.ENABLE_ASSERTIONS = true → s.linux_vectors ≠ 0 ∧
      s.pstate core = LINUX_PSTATE_SUSPEND)
    (hpre : cfg.ENABLE_ASSERTIONS = true →
      (s.linuxd_sp_context core).c_rt_ctx = 0 ∧ s.secure_bound core)
    (hQ : ∀ t, R t →
      if to_int32 v ≠ 0 then Q none (sp_entry_epilogue cfg core t)
      else Q (some ()) (upd_linux_ctx core
        (fun c => { c with state := set_linux_pstate c.state LINUX_PSTATE_ON })
        (sp_entry_epilogue cfg core t))) :
    (linuxd_cpu_suspend_finish_handler cfg P core arg s).Ends R v Q := by
  unfold linuxd_cpu_suspend_finish_handler
  rw [two_asserts_pass cfg s _ _ _ _ (checks_pass cfg s core _ hchk)]
  refine tail_Ends cfg P core _ R v Q () _ (set_elr_pre cfg core _ _ ?_) hQ
  intro ha
  obtain ⟨h1, h2⟩ := hpre ha
  exact ⟨by simpa [upd_linux_ctx] using h1, h2⟩

/-- The on-finish handler when the payload answers its entry with `v`. -/
theorem on_finish_Ends (cfg : BuildConfig) (P : Platform) (core arg : Nat) (s : DState)
    (R : DState → Prop) (v : Nat) (Q : Option Unit → DState → Prop)
    (hchk : cfg.ENABLE_ASSERTIONS = true → s.linux_vectors ≠ 0 ∧
      s.pstate core = LINUX_PSTATE_OFF)
    (hpc : cfg.ENABLE_ASSERTIONS = true → (s.linux_vectors + P.cpu_on_entry) % 2 ^ 64 ≠ 0)
    (hempty : cfg.ENABLE_ASSERTIONS = true → (s.linuxd_sp_context core).c_rt_ctx = 0)
    (hQ : ∀ t, R t →
      if to_int32 v ≠ 0 then Q none (sp_entry_epilogue cfg core t)
      else Q (some ()) (upd_linux_ctx core
        (fun c => { c with state := set_linux_pstate c.state LINUX_PSTATE_ON })
        (sp_entry_epilogue cfg core t))) :
    (linuxd_cpu_on_finish_handler cfg P core arg s).Ends R v Q := by
  unfold linuxd_cpu_on_finish_handler
  rw [two_asserts_pass cfg s _ _ _ _ (checks_pass cfg s core _ hchk)]
  rw [builder_ret cfg P core _ _ _ s (by
    cases ha : cfg.ENABLE_ASSERTIONS
    · exact Or.inl rfl
    · exact Or.inr ⟨hpc ha, rfl⟩)]
  refine tail_Ends cfg P core _ R v Q () _ ?_ hQ
  intro ha
  have h1 := hempty ha
  have key : ∀ u : DState, (u.linuxd_sp_context core).c_rt_ctx = 0 → u.secure_bound core →
      ∀ ep : entry_point_info_t,
      ((cm_init_my_context core ep u).linuxd_sp_context core).c_rt_ctx = 0 ∧
      (cm_init_my_context core ep u).secure_bound core := by
    intro u hu1 hu2 ep
    obtain ⟨g1, _, g3, _⟩ := write_ctx_opt_fields
      (u.cm_context core (GET_SECURITY_STATE ep.h_attr))
      (fun _ =>
      { gpregs := { x0 := ep.args.getD 0 0, x1 := ep.args.getD 1 0, x2 := ep.args.getD 2 0,
                    x3 := ep.args.getD 3 0,
                    x4_x17 := (ep.args.drop 4).take 4 ++ List.replicate 10 0,
                    x18_x30 := List.replicate 13 0 },
        spsr_el3 := ep.spsr, elr_el3 := ep.pc, el1_sysregs := 0 }) u
    unfold cm_init_my_context DState.secure_bound
    rw [g1, g3]
    exact ⟨hu1, hu2⟩
  have hk := key (cm_set_context core (.sp_cpu_ctx core) SECURE
      (upd_linux_ctx core (fun c => { c with mpidr := P.mpidr core, state := 0 }) s))
    (by simpa [cm_set_context, upd_linux_ctx] using h1)
    (by simp [DState.secure_bound, cm_set_context])
  split
  · exact hk _
  · exact hk _


/-- A hook that writes `power_state`, when the payload answers every entry with `v`. -/
theorem lifecycle_Ends (cfg : BuildConfig) (P : Platform) (core arg : Nat) (l : Lifecycle)
    (x : Nat) (s : DState) (R : DState → Prop) (v : Nat) (Q : Option Unit → DState → Prop)
    (hl : l.post = some x)
    (hR : ∀ t, R t → t.secure_bound core)
    (hchk : cfg.ENABLE_ASSERTIONS = true → s.linux_vectors ≠ 0 ∧ s.pstate core = l.pre)
    (hempty : cfg.ENABLE_ASSERTIONS = true → (s.linuxd_sp_context core).c_rt_ctx = 0)
    (hcm : cfg.ENABLE_ASSERTIONS = true → l ≠ .cpu_on_finish → s.secure_bound core)
    (hpc : cfg.ENABLE_ASSERTIONS = true → l = .cpu_on_finish →
      (s.linux_vectors + P.cpu_on_entry) % 2 ^ 64 ≠ 0)
    (hy : v ≠ 0 → s.yield_active core = 0)
    (hQ : ∀ t, R t →
      if to_int32 v ≠ 0 then Q none (sp_entry_epilogue cfg core t)
      else Q (some ()) (upd_linux_ctx core
        (fun c => { c with state := set_linux_pstate c.state x })
        (sp_entry_epilogue cfg core t))) :
    (l.run cfg P core arg s).Ends R v Q := by
  cases l with
  | cpu_off =>
    cases hl
    apply Ends_void
    exact off_Ends cfg P core arg s R v _ hR hchk
      (fun ha => ⟨hempty ha, hcm ha (by decide)⟩) hy hQ
  | cpu_suspend =>
    cases hl
    exact suspend_Ends cfg P core arg s R v _ hR hchk
      (fun ha => ⟨hempty ha, hcm ha (by decide)⟩) hy hQ
  | cpu_on_finish =>
    cases hl
    exact on_finish_Ends cfg P core arg s R v _ hchk (fun ha => hpc ha rfl) hempty hQ
  | cpu_suspend_finish =>
    cases hl
    exact suspend_finish_Ends cfg P core arg s R v _ hchk
      (fun ha => ⟨hempty ha, hcm ha (by decide)⟩) hQ
  | system_off => cases hl
  | system_reset => cases hl

/-- The `power_state` the epilogue of an entry leaves. -/
theorem pstate_epilogue (cfg : BuildConfig) (core c : Nat) (t : DState) :
    (sp_entry_epilogue cfg core t).pstate c = t.pstate c := by
  unfold DState.pstate
  rw [(epilogue_fields cfg core t).2.2.1 c]

/-- C17: post-states of the lifecycle hooks that write `power_state`.  When the vector table
is established, `power_state` is the pre-state of the hook, no C runtime is parked on the
context, the context is the registered secure one (the on-finish hook registers it itself)
and the entry address of the on-finish hook is not null, then, the payload answering each
entry with 0, the hook returns and ends with `power_state` Off for the off hook, Suspended
for the suspend hook, On for the on-finish and suspend-finish hooks; the off handler returns
0; the suspend-finish handler parks with `max_off_pwrlvl` in `x0` of the payload and
`&linux_vectors->cpu_resume_entry` as its return address. -/
theorem C17_lifecycle_post (cfg : BuildConfig) (P : Platform) (core arg : Nat)
    (l : Lifecycle) (x : Nat) (s : DState) (hl : l.post = some x)
    (hv : s.linux_vectors ≠ 0) (hp : s.pstate core = l.pre)
    (hempty : (s.linuxd_sp_context core).c_rt_ctx = 0)
    (hcm : l ≠ .cpu_on_finish → s.secure_bound core)
    (hpc : l = .cpu_on_finish → (s.linux_vectors + P.cpu_on_entry) % 2 ^ 64 ≠ 0) :
    (l.run cfg P core arg s).Ends (fun t => t.secure_bound core) 0
      (fun r u => r = some () ∧ u.pstate core = x) ∧
    (l = .cpu_off → (linuxd_cpu_off_handler cfg P core arg s).Ends
      (fun t => t.secure_bound core) 0
      (fun r u => r = some 0 ∧ u.pstate core = LINUX_PSTATE_OFF)) ∧
    (l = .cpu_suspend_finish → ∃ s1 k,
      linuxd_cpu_suspend_finish_handler cfg P core arg s = .enter_sp (P.c_rt_sp core) s1 k ∧
      (s1.linuxd_sp_context core).cpu_ctx.gpregs.x0 = arg ∧
      (s1.linuxd_sp_context core).cpu_ctx.elr_el3
        = (s.linux_vectors + P.cpu_resume_entry) % 2 ^ 64 ∧
      ∀ t, ∃ u, k 0 t = .ret () u ∧ u.pstate core = LINUX_PSTATE_ON) := by
  have hx : x ≤ 3 := by cases l <;> cases hl <;> decide
  refine ⟨?_, ?_, ?_⟩
  · apply lifecycle_Ends cfg P core arg l x s _ 0 _ hl (fun t ht => ht) (fun _ => ⟨hv, hp⟩)
      (fun _ => hempty) (fun _ => hcm) (fun _ => hpc) (fun h => absurd rfl h)
    intro t _
    have h0 : to_int32 0 = 0 := by decide
    simp only [h0, ne_eq, not_true_eq_false, if_false]
    exact ⟨trivial, pstate_upd core x hx _⟩
  · intro hoff
    subst hoff
    apply off_Ends cfg P core arg s _ 0 _ (fun t ht => ht) (fun _ => ⟨hv, hp⟩)
      (fun _ => ⟨hempty, hcm (by decide)⟩) (fun h => absurd rfl h)
    intro t _
    have h0 : to_int32 0 = 0 := by decide
    simp only [h0, ne_eq, not_true_eq_false, if_false]
    exact ⟨trivial, pstate_upd core _ (by decide) _⟩
  · intro hsf
    subst hsf
    have hb := hcm (by decide)
    unfold linuxd_cpu_suspend_finish_handler
    rw [two_asserts_pass cfg s s.linux_vectors (get_linux_pstate (s.linuxd_sp_context core).state)
      LINUX_PSTATE_SUSPEND _ (Or.inr ⟨hv, hp⟩)]
    have hpre : ∀ pc, cfg.ENABLE_ASSERTIONS = true →
        ((cm_set_elr_el3 core SECURE pc
          (upd_linux_ctx core (fun c => { c with cpu_ctx := { c.cpu_ctx with
            gpregs := { c.cpu_ctx.gpregs with x0 := arg } } }) s)).linuxd_sp_context
              core).c_rt_ctx = 0 ∧
        (cm_set_elr_el3 core SECURE pc
          (upd_linux_ctx core (fun c => { c with cpu_ctx := { c.cpu_ctx with
            gpregs := { c.cpu_ctx.gpregs with x0 := arg } } }) s)).secure_bound core :=
      fun pc => set_elr_pre cfg core _ _ (fun _ => ⟨by simpa [upd_linux_ctx] using hempty, hb⟩)
    simp only []
    rw [entry_eq cfg P core _ (hpre _)]
    refine ⟨_, _, rfl, ?_, ?_, ?_⟩
    · unfold DState.secure_bound at hb
      simp [sp_entry_prologue, cm_set_elr_el3, upd_linux_ctx, hb, write_ctx_opt, write_ctx,
        cm_set_next_eret_context, cm_el1_sysregs_context_restore]
    · unfold DState.secure_bound at hb
      simp [sp_entry_prologue, cm_set_elr_el3, upd_linux_ctx, hb, write_ctx_opt, write_ctx,
        cm_set_next_eret_context, cm_el1_sysregs_context_restore]
    · intro t
      have h0 : to_int32 0 = 0 := by decide
      simp only [h0, bne_self_eq_false, Bool.false_eq_true, if_false]
      exact ⟨_, rfl, pstate_upd core _ (by decide) _⟩


/-- Witness of C17: the off hook on core 0 while `power_state` is On. -/
theorem C17_lifecycle_post_witness :
    (Lifecycle.run debug_build sample_platform 0 0 .cpu_off
        (lifecycle_state LINUX_PSTATE_ON)).Ends (fun t => t.secure_bound 0) 0
      (fun r u => r = some () ∧ u.pstate 0 = LINUX_PSTATE_OFF) :=
  (C17_lifecycle_post debug_build sample_platform 0 0 .cpu_off LINUX_PSTATE_OFF
    (lifecycle_state LINUX_PSTATE_ON) rfl (by decide) (by decide) (by decide)
    (fun _ => by unfold DState.secure_bound; decide) (fun h => by cases h)).1

/-- C20: what the hooks that write `power_state` make of the value `V` the payload hands to
its completion signal, on a context that meets the checks of the hook and has no yielding
call to abort, the payload handing the context back bound and with `power_state` `p`.  The
value is stored in an `int32_t`: when its low 32 bits are not all zero the hook halts and
`power_state` stays `p`; when they are all zero, as for the non-zero value `2 ^ 32`, the
hook completes and writes its post-state. -/
theorem C20_return_value (cfg : BuildConfig) (P : Platform) (core arg : Nat)
    (l : Lifecycle) (x : Nat) (s : DState) (V p : Nat) (hl : l.post = some x)
    (hv : s.linux_vectors ≠ 0) (hp : s.pstate core = l.pre)
    (hempty : (s.linuxd_sp_context core).c_rt_ctx = 0)
    (hcm : l ≠ .cpu_on_finish → s.secure_bound core)
    (hpc : l = .cpu_on_finish → (s.linux_vectors + P.cpu_on_entry) % 2 ^ 64 ≠ 0)
    (hy : s.yield_active core = 0) :
    (V % 2 ^ 32 ≠ 0 →
      (l.run cfg P core arg s).Ends (fun t => t.secure_bound core ∧ t.pstate core = p) V
        (fun r u => r = none ∧ u.pstate core = p)) ∧
    (V % 2 ^ 32 = 0 →
      (l.run cfg P core arg s).Ends (fun t => t.secure_bound core ∧ t.pstate core = p) V
        (fun r u => r = some () ∧ u.pstate core = x)) := by
  have hx : x ≤ 3 := by cases l <;> cases hl <;> decide
  have h32 : to_int32 V = 0 ↔ V % 2 ^ 32 = 0 := by
    unfold to_int32
    split
    · exact ⟨fun h => by exact_mod_cast h, fun h => by exact_mod_cast h⟩
    · constructor
      · intro h
        have : V % 2 ^ 32 < 2 ^ 32 := Nat.mod_lt _ (by decide)
        omega
      · intro h
        omega
  constructor
  · intro hV
    apply lifecycle_Ends cfg P core arg l x s _ V _ hl (fun t ht => ht.1) (fun _ => ⟨hv, hp⟩)
      (fun _ => hempty) (fun _ => hcm) (fun _ => hpc) (fun _ => hy)
    intro t ht
    have hne : to_int32 V ≠ 0 := fun h => hV (h32.1 h)
    rw [if_pos hne]
    exact ⟨rfl, by rw [pstate_epilogue]; exact ht.2⟩
  · intro hV
    apply lifecycle_Ends cfg P core arg l x s _ V _ hl (fun t ht => ht.1) (fun _ => ⟨hv, hp⟩)
      (fun _ => hempty) (fun _ => hcm) (fun _ => hpc) (fun _ => hy)
    intro t ht
    have he : ¬ to_int32 V ≠ 0 := fun h => h (h32.2 hV)
    rw [if_neg he]
    exact ⟨rfl, pstate_upd core x hx _⟩

/-- Witness of C20: the off hook on core 0 completes when the payload hands `2 ^ 32` to its
completion signal. -/
theorem C20_return_value_witness :
    (Lifecycle.run debug_build sample_platform 0 0 .cpu_off
        (lifecycle_state LINUX_PSTATE_ON)).Ends
      (fun t => t.secure_bound 0 ∧ t.pstate 0 = LINUX_PSTATE_ON) (2 ^ 32)
      (fun r u => r = some () ∧ u.pstate 0 = LINUX_PSTATE_OFF) :=
  (C20_return_value debug_build sample_platform 0 0 .cpu_off LINUX_PSTATE_OFF
    (lifecycle_state LINUX_PSTATE_ON) (2 ^ 32) LINUX_PSTATE_ON rfl (by decide) (by decide)
    (by decide) (fun _ => by unfold DState.secure_bound; decide) (fun h => by cases h)
    (by decide)).2 (by decide)

/-- The failing input of C20 evaluated: answered with `2 ^ 32`, the off handler of core 0
returns 0 and leaves `power_state` Off, where `linuxd_abort_preempted_smc`, which keeps the
value in a `uint64_t`, halts on the same answer. -/
theorem C20_failing_input :
    ((linuxd_cpu_off_handler debug_build sample_platform 0 0
        (lifecycle_state LINUX_PSTATE_ON)).answer (2 ^ 32)).value? = some 0 ∧
    ((linuxd_cpu_off_handler debug_build sample_platform 0 0
        (lifecycle_state LINUX_PSTATE_ON)).answer (2 ^ 32)).state.pstate 0 = LINUX_PSTATE_OFF ∧
    ((linuxd_abort_preempted_smc debug_build sample_platform 0 yielding_state).answer
        (2 ^ 32)).halts = true := by
  decide

/-! ### Initialization-complete signal -/

/-- The initialization-complete case of the handler for a secure caller. -/
theorem entry_done_case (cfg : BuildConfig) (P : Platform) (hP : P.labels_distinct)
    (core x1 x2 x3 x4 cookie : Nat) (handle : CtxPtr) (flags : Nat) (s : DState)
    (hsec : is_caller_non_secure flags = false) :
    linuxd_smc_handler cfg P core P.LINUX_ENTRY_DONE x1 x2 x3 x4 cookie handle flags s =
      c_assert cfg (s.linux_vectors == 0) s
        ((if x1 != 0 then linuxd_entry_done_register cfg core { s with linux_vectors := x1 }
          else .ret () { s with linux_vectors := x1 }).bind fun _ s =>
        if cfg.LINUX_INIT_ASYNC then
          c_assert cfg (cm_get_context core SECURE s == some (.sp_cpu_ctx core)) s <|
          c_assert cfg (cm_el1_sysregs_context_save core SECURE s).bl33_ep_info.isSome
            (cm_el1_sysregs_context_save core SECURE s) <|
          c_assert cfg ((cm_el1_sysregs_context_save core SECURE s).bl33_ep_info.all
            fun e => NON_SECURE == GET_SECURITY_STATE e.h_attr)
            (cm_el1_sysregs_context_save core SECURE s) <|
          SMC_RET0 (cm_get_context core NON_SECURE (cm_prepare_el3_exit core NON_SECURE
              (match (cm_el1_sysregs_context_save core SECURE s).bl33_ep_info with
                | some e => cm_init_my_context core e (cm_el1_sysregs_context_save core SECURE s)
                | none => cm_el1_sysregs_context_save core SECURE s)))
            (cm_prepare_el3_exit core NON_SECURE
              (match (cm_el1_sysregs_context_save core SECURE s).bl33_ep_info with
                | some e => cm_init_my_context core e (cm_el1_sysregs_context_save core SECURE s)
                | none => cm_el1_sysregs_context_save core SECURE s))
        else linuxd_synchronous_sp_exit cfg core x1 s) := by
  have hd := later_ne P hP
  simp [Platform.case_labels] at hd
  have h1 : ¬P.LINUX_ENTRY_DONE = P.LINUX_PUTCHAR := hd.1.2.2.1
  have h2 : ¬P.LINUX_ENTRY_DONE = P.LINUX_PREEMPTED := hd.2.1.2.1
  have h3 : ¬P.LINUX_ENTRY_DONE = P.LINUX_HANDLED_S_EL1_INTR := hd.2.2.1.1
  clear hd
  unfold linuxd_smc_handler
  simp only []
  rw [if_neg h1, if_neg h2, if_neg h3, if_pos trivial, hsec]
  simp only [Bool.false_eq_true, if_false]


/-- The registrations of the initialization-complete case succeed when no handler is
registered yet for the interrupt types concerned. -/
theorem register_ret (cfg : BuildConfig) (core : Nat) (s : DState)
    (h1 : s.intr_handlers.any (fun e => e.1 == INTR_TYPE_S_EL1) = false)
    (h2 : cfg.LINUX_NS_INTR_ASYNC_PREEMPT = true →
      s.intr_handlers.any (fun e => e.1 == INTR_TYPE_NS) = false) :
    ∃ s2, linuxd_entry_done_register cfg core s = .ret () s2 ∧
      s2.book = (if cfg.LINUX_NS_INTR_ASYNC_PREEMPT then
        (s.book.entry_done_1 s.linux_vectors).entry_done_4 core s.linux_vectors
        else (s.book.entry_done_1 s.linux_vectors).entry_done_3 core s.linux_vectors) ∧
      s2.cm_context = s.cm_context ∧ s2.bl33_ep_info = s.bl33_ep_info ∧
      (∀ c, (s2.linuxd_sp_context c).c_rt_ctx = (s.linuxd_sp_context c).c_rt_ctx) ∧
      (∀ c, c ≠ core → s2.linuxd_sp_context c = s.linuxd_sp_context c) := by
  unfold linuxd_entry_done_register register_interrupt_type_handler
  have e1 : (psci_register_spd_pm_hook (upd_linux_ctx core
      (fun c => { c with state := set_linux_pstate c.state LINUX_PSTATE_ON }) s)).intr_handlers
      = s.intr_handlers := rfl
  simp only [e1, h1, Bool.false_eq_true, if_false, bne_self_eq_false]
  cases hA : cfg.LINUX_NS_INTR_ASYNC_PREEMPT
  · refine ⟨_, rfl, ?_, rfl, rfl, ?_, ?_⟩
    · simp [DState.book, Book.entry_done_3, Book.entry_done_2, Book.entry_done_1,
        Book.set_state, upd_linux_ctx, psci_register_spd_pm_hook]
      constructor <;> funext c <;> by_cases h : c = core
      · subst h; simp
      · simp [h]
      · subst h; simp
      · simp [h]
    · intro c
      by_cases h : c = core
      · subst h; simp [upd_linux_ctx, psci_register_spd_pm_hook]
      · simp [upd_linux_ctx, psci_register_spd_pm_hook, h]
    · intro c h
      simp [upd_linux_ctx, psci_register_spd_pm_hook, h]
  · have h2 := h2 hA
    have e2 : (List.any ((INTR_TYPE_S_EL1, IntrHandler.linuxd_sel1_interrupt_handler,
        set_interrupt_rm_flag 0 NON_SECURE) :: s.intr_handlers)
        fun e => e.1 == INTR_TYPE_NS) = false := by
      simp only [List.any_cons, h2, Bool.or_false]
      decide
    simp only [e1, e2, Bool.false_eq_true, if_false, bne_self_eq_false, if_true]
    refine ⟨_, rfl, ?_, rfl, rfl, ?_, ?_⟩
    · simp [DState.book, Book.entry_done_4, Book.entry_done_3, Book.entry_done_2,
        Book.entry_done_1, Book.set_state, upd_linux_ctx, psci_register_spd_pm_hook,
        disable_intr_rm_local]
      constructor <;> funext c <;> by_cases h : c = core
      · subst h; simp
      · simp [h]
      · subst h; simp
      · simp [h]
    · intro c
      by_cases h : c = core
      · subst h; simp [upd_linux_ctx, psci_register_spd_pm_hook, disable_intr_rm_local]
      · simp [upd_linux_ctx, psci_register_spd_pm_hook, disable_intr_rm_local, h]
    · intro c h
      simp [upd_linux_ctx, psci_register_spd_pm_hook, disable_intr_rm_local, h]

/-- The registrations of the initialization-complete case end in `panic()` when a handler is
already registered for an interrupt type concerned. -/
theorem register_halts (cfg : BuildConfig) (core : Nat) (s : DState)
    (h : s.intr_handlers.any (fun e => e.1 == INTR_TYPE_S_EL1) = true ∨
      (cfg.LINUX_NS_INTR_ASYNC_PREEMPT = true ∧
        s.intr_handlers.any (fun e => e.1 == INTR_TYPE_NS) = true)) :
    (linuxd_entry_done_register cfg core s).halts = true := by
  unfold linuxd_entry_done_register register_interrupt_type_handler
  have e1 : (psci_register_spd_pm_hook (upd_linux_ctx core
      (fun c => { c with state := set_linux_pstate c.state LINUX_PSTATE_ON }) s)).intr_handlers
      = s.intr_handlers := rfl
  simp only [e1]
  cases h1 : s.intr_handlers.any (fun e => e.1 == INTR_TYPE_S_EL1)
  · rcases h with h | ⟨hA, h2⟩
    · rw [h1] at h; exact absurd h (by decide)
    · have e2 : (List.any ((INTR_TYPE_S_EL1, IntrHandler.linuxd_sel1_interrupt_handler,
          set_interrupt_rm_flag 0 NON_SECURE) :: s.intr_handlers)
          fun e => e.1 == INTR_TYPE_NS) = true := by
        simp only [List.any_cons, h2, Bool.or_true]
      simp only [Bool.false_eq_true, if_false, bne_self_eq_false, hA, if_true, e1, e2]
      rfl
  · simp only [if_true]
    rfl


/-- The exit resumes the parked C runtime when its two checks pass or are compiled out. -/
theorem exit_eq {α : Type} (cfg : BuildConfig) (core ret : Nat) (s : DState)
    (hpre : cfg.ENABLE_ASSERTIONS = true →
      s.secure_bound core ∧ (s.linuxd_sp_context core).c_rt_ctx ≠ 0) :
    (linuxd_synchronous_sp_exit cfg core ret s : Outcome α)
      = .exit_sp (s.linuxd_sp_context core).c_rt_ctx ret
          (cm_el1_sysregs_context_save core SECURE s) := by
  have hc : ((cm_el1_sysregs_context_save core SECURE s).linuxd_sp_context core).c_rt_ctx
      = (s.linuxd_sp_context core).c_rt_ctx :=
    (write_ctx_opt_fields _ _ s).2.2.1 core
  unfold linuxd_synchronous_sp_exit c_assert linuxd_exit_sp
  simp only []
  rw [hc]
  cases ha : cfg.ENABLE_ASSERTIONS
  · simp
  · obtain ⟨h1, h2⟩ := hpre ha
    unfold DState.secure_bound at h1
    simp [cm_get_context, h1, h2]

/-- C12 (amended): a secure-world `LINUX_ENTRY_DONE` carrying a non-null pointer `x1` while
`linux_vectors` is unset.  When a handler is already registered for secure interrupts (or,
with `LINUX_NS_INTR_ASYNC_PREEMPT`, for non-secure ones) the registration fails and the
handler halts.  Otherwise `linux_vectors` becomes `x1`, the `power_state` of the calling core
becomes On, `psci_register_spd_pm_hook` is called once, and
`linuxd_sel1_interrupt_handler` becomes the one handler of secure interrupts, routed to EL3
from the non-secure state; then, in a build without `LINUX_INIT_ASYNC`, the handler calls
`linuxd_synchronous_sp_exit` and the parked C runtime of the core is resumed with `x1` (a
runtime must be parked and the context bound where `assert` is compiled in), and in a build
with `LINUX_INIT_ASYNC` it returns to the non-secure world instead, with the same
bookkeeping. -/
theorem C12_entry_done (cfg : BuildConfig) (P : Platform) (hP : P.labels_distinct)
    (core x1 x2 x3 x4 cookie : Nat) (handle : CtxPtr) (flags : Nat) (s : DState)
    (hsec : is_caller_non_secure flags = false) (hnull : s.linux_vectors = 0)
    (hx : x1 ≠ 0) :
    ((s.intr_handlers.any (fun e => e.1 == INTR_TYPE_S_EL1) = true ∨
        (cfg.LINUX_NS_INTR_ASYNC_PREEMPT = true ∧
          s.intr_handlers.any (fun e => e.1 == INTR_TYPE_NS) = true)) →
      (linuxd_smc_handler cfg P core P.LINUX_ENTRY_DONE x1 x2 x3 x4 cookie handle flags
        s).halts = true) ∧
    (s.intr_handlers.any (fun e => e.1 == INTR_TYPE_S_EL1) = false →
      (cfg.LINUX_NS_INTR_ASYNC_PREEMPT = true →
        s.intr_handlers.any (fun e => e.1 == INTR_TYPE_NS) = false) →
      ∃ s2, linuxd_entry_done_register cfg core { s with linux_vectors := x1 } = .ret () s2 ∧
        s2.linux_vectors = x1 ∧ s2.pstate core = LINUX_PSTATE_ON ∧
        s2.pm_hook_registrations = s.pm_hook_registrations + 1 ∧
        s2.intr_handlers.filter (fun e => e.1 == INTR_TYPE_S_EL1)
          = [(INTR_TYPE_S_EL1, IntrHandler.linuxd_sel1_interrupt_handler, 2)] ∧
        (cfg.LINUX_INIT_ASYNC = false →
          (cfg.ENABLE_ASSERTIONS = true →
            s.secure_bound core ∧ (s.linuxd_sp_context core).c_rt_ctx ≠ 0) →
          linuxd_smc_handler cfg P core P.LINUX_ENTRY_DONE x1 x2 x3 x4 cookie handle flags s
            = .exit_sp (s.linuxd_sp_context core).c_rt_ctx x1
                (cm_el1_sysregs_context_save core SECURE s2) ∧
          (cm_el1_sysregs_context_save core SECURE s2).book = s2.book) ∧
        (cfg.LINUX_INIT_ASYNC = true →
          (cfg.ENABLE_ASSERTIONS = true → s.secure_bound core ∧
            ∃ e, s.bl33_ep_info = some e ∧ GET_SECURITY_STATE e.h_attr = NON_SECURE) →
          ∃ s3, linuxd_smc_handler cfg P core P.LINUX_ENTRY_DONE x1 x2 x3 x4 cookie handle
              flags s = .ret (cm_get_context core NON_SECURE s3) s3 ∧
            s3.next_eret_context core = some NON_SECURE ∧ s3.book = s2.book)) := by
  have hcase := entry_done_case cfg P hP core x1 x2 x3 x4 cookie handle flags s hsec
  have hv : (cfg.ENABLE_ASSERTIONS && !(s.linux_vectors == 0)) = false := by simp [hnull]
  have hx1 : (x1 != 0) = true := by simpa using hx
  unfold c_assert at hcase
  rw [hv] at hcase
  simp only [Bool.false_eq_true, if_false, hx1, if_true] at hcase
  constructor
  · intro hfail
    have hh := register_halts cfg core { s with linux_vectors := x1 } hfail
    rw [hcase]
    cases hr : linuxd_entry_done_register cfg core { s with linux_vectors := x1 } with
    | halt t => rfl
    | ret a t => rw [hr] at hh; simp [Outcome.halts] at hh
    | enter_sp h t k => rw [hr] at hh; simp [Outcome.halts] at hh
    | exit_sp c r t => rw [hr] at hh; simp [Outcome.halts] at hh
  · intro h1 h2
    obtain ⟨s2, hr, hb, hcm, hbl, hcrt, hother⟩ :=
      register_ret cfg core { s with linux_vectors := x1 } h1 h2
    rw [hr] at hcase
    simp only [Outcome.bind] at hcase
    have hbv : s2.book.linux_vectors = x1 := by
      rw [hb]; split <;> rfl
    have hbp : get_linux_pstate (s2.book.state core) = LINUX_PSTATE_ON := by
      rw [hb]
      split <;> simp [Book.entry_done_4, Book.entry_done_3, Book.entry_done_2,
        Book.entry_done_1, Book.set_state, get_set_pstate _ LINUX_PSTATE_ON (by decide)]
    have hbh : s2.book.pm_hook_registrations = s.pm_hook_registrations + 1 := by
      rw [hb]; split <;> rfl
    have hbi : s2.book.intr_handlers.filter (fun e => e.1 == INTR_TYPE_S_EL1)
        = [(INTR_TYPE_S_EL1, IntrHandler.linuxd_sel1_interrupt_handler, 2)] := by
      have hf : s.intr_handlers.filter (fun e => e.1 == INTR_TYPE_S_EL1) = [] := by
        rw [List.filter_eq_nil_iff]
        intro e he
        have := List.any_eq_false.1 h1 e he
        simpa using this
      rw [hb]
      split
      · show List.filter _ ((INTR_TYPE_NS, _, _) :: (INTR_TYPE_S_EL1, _, _) ::
          s.intr_handlers) = _
        rw [List.filter_cons_of_neg (by decide), List.filter_cons_of_pos (by decide), hf]
        rfl
      · show List.filter _ ((INTR_TYPE_S_EL1, _, _) :: s.intr_handlers) = _
        rw [List.filter_cons_of_pos (by decide), hf]
        rfl
    refine ⟨s2, hr, hbv, hbp, hbh, hbi, ?_, ?_⟩
    · intro hsync hpre
      rw [hcase, hsync]
      simp only [Bool.false_eq_true, if_false]
      refine ⟨?_, book_cm_save core SECURE s2⟩
      rw [exit_eq cfg core x1 s2 (fun ha => ?_), hcrt core]
      obtain ⟨g1, g2⟩ := hpre ha
      unfold DState.secure_bound at g1 ⊢
      rw [hcm, hcrt core]
      exact ⟨g1, g2⟩
    · intro hasync hpre
      rw [hcase, hasync]
      simp only [if_true]
      have hsave : (cm_el1_sysregs_context_save core SECURE s2).bl33_ep_info
          = s.bl33_ep_info := by
        rw [← hbl]
        unfold cm_el1_sysregs_context_save
        cases s2.cm_context core SECURE with
        | none => rfl
        | some p => cases p <;> rfl
      cases ha : cfg.ENABLE_ASSERTIONS
      · simp only [Bool.false_and, Bool.false_eq_true, if_false, SMC_RET0]
        refine ⟨_, rfl, ?_, ?_⟩
        · simp [cm_prepare_el3_exit, cm_set_next_eret_context]
        · rw [book_cm_prepare]
          split
          · rw [book_cm_init, book_cm_save]
          · rw [book_cm_save]
      · obtain ⟨g1, e, g2, g3⟩ := hpre ha
        unfold DState.secure_bound at g1
        have c1 : (cm_get_context core SECURE s2 == some (CtxPtr.sp_cpu_ctx core)) = true := by
          simp [cm_get_context, hcm]
          exact g1
        simp only [c1, hsave, g2, Option.isSome_some, Option.all_some, g3, beq_self_eq_true,
          Bool.not_true, Bool.and_false, Bool.false_eq_true, if_false, SMC_RET0]
        refine ⟨_, rfl, ?_, ?_⟩
        · simp [cm_prepare_el3_exit, cm_set_next_eret_context]
        · rw [book_cm_prepare, book_cm_init, book_cm_save]


/-- Witness of C12: the first initialization-complete signal of the payload on core 0,
carrying the vector table `0xe100100`, resumes the C runtime parked in `linuxd_init`. -/
theorem C12_entry_done_witness :
    (linuxd_smc_handler debug_build sample_platform 0 sample_platform.LINUX_ENTRY_DONE
      0xe100100 0 0 0 0 (.sp_cpu_ctx 0) 0 (first_entry_state debug_build)).exits = true := by
  obtain ⟨s2, _, _, _, _, _, hsync, _⟩ :=
    (C12_entry_done debug_build sample_platform (by decide) 0 0xe100100 0 0 0 0
      (.sp_cpu_ctx 0) 0 (first_entry_state debug_build) (by decide) (by decide)
      (by decide)).2 (by decide) (fun h => by cases h)
  rw [(hsync rfl (fun _ => ⟨by unfold DState.secure_bound; decide, by decide⟩)).1]
  rfl

/-- Counterexample to C12 as stated: in a build with `LINUX_INIT_ASYNC` the handler does not
exit a synchronous switch; it returns to the non-secure world. -/
theorem C12_counterexample :
    (linuxd_smc_handler async_build sample_platform 0 sample_platform.LINUX_ENTRY_DONE
      0xe100100 0 0 0 0 (.sp_cpu_ctx 0) 0 async_entry_state).exits = false ∧
    (linuxd_smc_handler async_build sample_platform 0 sample_platform.LINUX_ENTRY_DONE
      0xe100100 0 0 0 0 (.sp_cpu_ctx 0) 0 async_entry_state).value?
      = some (some (.ns_cpu_ctx 0)) ∧
    (linuxd_smc_handler async_build sample_platform 0 sample_platform.LINUX_ENTRY_DONE
      0xe100100 0 0 0 0 (.sp_cpu_ctx 0) 0 async_entry_state).state.next_eret_context 0
      = some NON_SECURE ∧
    (linuxd_smc_handler async_build sample_platform 0 sample_platform.LINUX_ENTRY_DONE
      0xe100100 0 0 0 0 (.sp_cpu_ctx 0) 0 async_entry_state).state.linux_vectors
      = 0xe100100 := by
  decide

/-! ### Saved arguments -/

/-- The Get-arguments case of the handler for a secure caller. -/
theorem get_args_case (cfg : BuildConfig) (P : Platform) (hP : P.labels_distinct)
    (core x1 x2 x3 x4 cookie : Nat) (handle : CtxPtr) (flags : Nat) (s : DState)
    (hsec : is_caller_non_secure flags = false) :
    linuxd_smc_handler cfg P core P.LINUX_GET_ARGS x1 x2 x3 x4 cookie handle flags s =
      SMC_RET2 (some handle) (get_linux_args (s.linuxd_sp_context core)).1
        (get_linux_args (s.linuxd_sp_context core)).2 s := by
  have hd := later_ne P hP
  simp [Platform.case_labels] at hd
  unfold linuxd_smc_handler
  simp only [hd, if_false, if_true, hsec, Bool.false_eq_true, or_self]


/-- Reading the register file just written through the same pointer. -/
theorem ctx_at_write (p : CtxPtr) (f : cpu_context_t → cpu_context_t) (s : DState) :
    (write_ctx p f s).ctx_at p = f (s.ctx_at p) := by
  cases p <;> simp [write_ctx, upd_linux_ctx, DState.ctx_at]

/-- A store through a register-file pointer changes, in the array of contexts, at most the
register file of one context. -/
theorem write_ctx_frame (p : CtxPtr) (f : cpu_context_t → cpu_context_t) (s : DState) (c : Nat) :
    (write_ctx p f s).linuxd_sp_context c
      = { s.linuxd_sp_context c with cpu_ctx := ((write_ctx p f s).linuxd_sp_context c).cpu_ctx } := by
  cases p with
  | ns_cpu_ctx d => rfl
  | sp_cpu_ctx d =>
    by_cases h : c = d
    · subst h; simp [write_ctx, upd_linux_ctx]
    · simp [write_ctx, upd_linux_ctx, h]

/-- No saved argument is written in the bookkeeping moves of the dispatcher. -/
theorem saved_args_closed (cfg : BuildConfig) (A : Nat → Nat × Nat) :
    Book.Closed cfg (fun b => b.saved_linux_args = A) where
  clr_yield := fun _ _ h => h
  set_pstate := fun _ _ _ _ h => h
  zero := fun _ _ h => h
  bl32_init := fun _ h => h
  entry_done := fun _ _ _ _ h => ⟨h, h, h, h⟩

/-- C11 (amended): a secure Get-arguments call returns, in `x0` and `x1` of the caller, the
pair held in `saved_linux_args` of the context of the core, and writes nothing else: the
bookkeeping is unchanged and every context is as before apart from its register file.  No
call ever stores into that pair (`store_linux_args` is applied nowhere): every call of the
handler, from either world and with whatever arguments, keeps the pair of every core as it
was, also across the entries it makes; so after every sequence of events from boot, however
the platform routes them, the pair is `(0, 0)` and Get-arguments returns `(0, 0)`, whatever
arguments the preceding non-secure calls carried. -/
theorem C11_get_args (cfg : BuildConfig) (P : Platform) (hP : P.labels_distinct)
    (core x1 x2 x3 x4 cookie : Nat) (handle : CtxPtr) (flags : Nat)
    (hsec : is_caller_non_secure flags = false) :
    (∀ s, ∃ s', linuxd_smc_handler cfg P core P.LINUX_GET_ARGS x1 x2 x3 x4 cookie handle
          flags s = .ret (some handle) s' ∧
        (s'.ctx_at handle).gpregs.x0 = (s.linuxd_sp_context core).saved_linux_args.1 ∧
        (s'.ctx_at handle).gpregs.x1 = (s.linuxd_sp_context core).saved_linux_args.2 ∧
        s'.book = s.book ∧
        ∀ c, s'.linuxd_sp_context c
          = { s.linuxd_sp_context c with cpu_ctx := (s'.linuxd_sp_context c).cpu_ctx }) ∧
    (∀ (fid a1 a2 a3 a4 ck : Nat) (h : CtxPtr) (fl : Nat) (s : DState),
      (linuxd_smc_handler cfg P core fid a1 a2 a3 a4 ck h fl s).Keeps
        (fun d => d.book.saved_linux_args = s.book.saved_linux_args)) ∧
    (∀ (g : Routing) bl32 bl33 es, ∃ s', linuxd_smc_handler cfg P core P.LINUX_GET_ARGS x1 x2 x3
          x4 cookie handle flags ((Machine.boot bl32 bl33).run cfg P g es).d
          = .ret (some handle) s' ∧
        (s'.ctx_at handle).gpregs.x0 = 0 ∧ (s'.ctx_at handle).gpregs.x1 = 0) := by
  have hget : ∀ s, ∃ s', linuxd_smc_handler cfg P core P.LINUX_GET_ARGS x1 x2 x3 x4 cookie
        handle flags s = .ret (some handle) s' ∧
      (s'.ctx_at handle).gpregs.x0 = (s.linuxd_sp_context core).saved_linux_args.1 ∧
      (s'.ctx_at handle).gpregs.x1 = (s.linuxd_sp_context core).saved_linux_args.2 ∧
      s'.book = s.book ∧
      ∀ c, s'.linuxd_sp_context c
        = { s.linuxd_sp_context c with cpu_ctx := (s'.linuxd_sp_context c).cpu_ctx } := by
    intro s
    rw [get_args_case cfg P hP core x1 x2 x3 x4 cookie handle flags s hsec]
    refine ⟨_, rfl, ?_, ?_, ?_, ?_⟩
    · show ((write_ctx handle _ s).ctx_at handle).gpregs.x0 = _
      rw [ctx_at_write]; rfl
    · show ((write_ctx handle _ s).ctx_at handle).gpregs.x1 = _
      rw [ctx_at_write]; rfl
    · exact book_write_ctx handle _ s
    · intro c
      exact write_ctx_frame handle _ s c
  refine ⟨hget, ?_, ?_⟩
  · intro fid a1 a2 a3 a4 ck h fl s
    have hB := saved_args_closed cfg s.book.saved_linux_args
    exact smc_keeps (fun b => b.saved_linux_args = s.book.saved_linux_args) cfg P core fid
      a1 a2 a3 a4 ck h fl s rfl
      (fun b hb => hB.clr_yield b core hb) (fun _ _ hv => hB.entry_done _ core a1 hv rfl)
  · intro g bl32 bl33 es
    have hinv := run_keeps cfg _ (saved_args_closed cfg (fun _ => (0, 0))) P g es
      (Machine.boot bl32 bl33) (boot_sound cfg bl32 bl33) rfl
    obtain ⟨s', h1, h2, h3, _⟩ := hget ((Machine.boot bl32 bl33).run cfg P g es).d
    have hc := congrFun hinv core
    refine ⟨s', h1, ?_, ?_⟩
    · rw [h2]; exact congrArg Prod.fst hc
    · rw [h3]; exact congrArg Prod.snd hc

/-- Witness of C11: Get-arguments from the secure world on core 0. -/
theorem C11_get_args_witness :
    ∃ s', linuxd_smc_handler debug_build sample_platform 0 sample_platform.LINUX_GET_ARGS
        0 0 0 0 0 (.sp_cpu_ctx 0) 0
        ((Machine.boot (some sample_bl32) none).run debug_build sample_platform
          platform_routing
          [(0, .setup), (0, .smc 0x72002000 1 2 0 0 0 (.ns_cpu_ctx 0) 1)]).d
        = .ret (some (.sp_cpu_ctx 0)) s' ∧
      (s'.ctx_at (.sp_cpu_ctx 0)).gpregs.x0 = 0 ∧ (s'.ctx_at (.sp_cpu_ctx 0)).gpregs.x1 = 0 :=
  (C11_get_args debug_build sample_platform (by decide) 0 0 0 0 0 0 (.sp_cpu_ctx 0) 0
    (by decide)).2.2 platform_routing (some sample_bl32) none
      [(0, .setup), (0, .smc 0x72002000 1 2 0 0 0 (.ns_cpu_ctx 0) 1)]

/-- Counterexample to C11 as stated: on an initialised core 0 a non-secure call delivers the
arguments `(1, 2)`; the secure Get-arguments call that follows returns `(0, 0)`. -/
theorem C11_counterexample :
    (initialised_state debug_build).map (fun s0 =>
      let o1 := linuxd_smc_handler debug_build sample_platform 0 0x72002000 1 2 0 0 0
        (.ns_cpu_ctx 0) 1 s0
      let o2 := linuxd_smc_handler debug_build sample_platform 0 sample_platform.LINUX_GET_ARGS
        0 0 0 0 0 (.sp_cpu_ctx 0) 0 o1.state
      (o1.halts, o2.halts, (o2.state.ctx_at (.sp_cpu_ctx 0)).gpregs.x0,
        (o2.state.ctx_at (.sp_cpu_ctx 0)).gpregs.x1))
    = some (false, false, 0, 0) := by
  rfl

/-! ### Second initialization-complete signal -/

/-- With assertions, a set vector-table pointer, the number of power-hook registrations and
the registered interrupt handlers survive every bookkeeping move of the dispatcher. -/
theorem handshake_closed (cfg : BuildConfig) (ha : cfg.ENABLE_ASSERTIONS = true) (V n : Nat)
    (hV : V ≠ 0) (l : List (Nat × IntrHandler × Nat)) :
    Book.Closed cfg (fun b => b.linux_vectors = V ∧ b.pm_hook_registrations = n ∧
      b.intr_handlers = l) where
  clr_yield := fun _ _ h => h
  set_pstate := fun _ _ _ _ h => h
  zero := fun _ _ h => h
  bl32_init := fun _ h => h
  entry_done := fun _ _ _ hz h => absurd ((hz ha).symm.trans h.1).symm hV

/-- C13 (amended): in a build with `ENABLE_ASSERTIONS`, in every state reached from boot,
however the platform routes the events, in which the vector-table pointer is set (an
initialization-complete signal carrying a non-null pointer has been processed), every
secure-world `LINUX_ENTRY_DONE` halts at the `assert` with the state exactly as it was, and
whatever events follow, the pointer, the number of `psci_register_spd_pm_hook` calls and the
registered interrupt handlers stay as they are. -/
theorem C13_second_entry_done (cfg : BuildConfig) (P : Platform) (hP : P.labels_distinct)
    (ha : cfg.ENABLE_ASSERTIONS = true) (g : Routing) (bl32 bl33 : Option entry_point_info_t)
    (es : List (Nat × Event))
    (hv : ((Machine.boot bl32 bl33).run cfg P g es).d.linux_vectors ≠ 0) :
    (∀ (core x1 x2 x3 x4 cookie : Nat) (handle : CtxPtr) (flags : Nat),
      is_caller_non_secure flags = false →
      linuxd_smc_handler cfg P core P.LINUX_ENTRY_DONE x1 x2 x3 x4 cookie handle flags
          ((Machine.boot bl32 bl33).run cfg P g es).d
        = .halt ((Machine.boot bl32 bl33).run cfg P g es).d) ∧
    (∀ fs : List (Nat × Event),
      ((Machine.boot bl32 bl33).run cfg P g (es ++ fs)).d.linux_vectors
        = ((Machine.boot bl32 bl33).run cfg P g es).d.linux_vectors ∧
      ((Machine.boot bl32 bl33).run cfg P g (es ++ fs)).d.pm_hook_registrations
        = ((Machine.boot bl32 bl33).run cfg P g es).d.pm_hook_registrations ∧
      ((Machine.boot bl32 bl33).run cfg P g (es ++ fs)).d.intr_handlers
        = ((Machine.boot bl32 bl33).run cfg P g es).d.intr_handlers) := by
  constructor
  · intro core x1 x2 x3 x4 cookie handle flags hsec
    rw [entry_done_case cfg P hP core x1 x2 x3 x4 cookie handle flags _ hsec]
    unfold c_assert
    simp [ha, hv]
  · intro fs
    rw [run_append]
    exact run_keeps cfg _ (handshake_closed cfg ha _ _ hv _) P g fs _
      (run_sound cfg P g es _ (boot_sound cfg bl32 bl33)) ⟨rfl, rfl, rfl⟩

/-- Witness of C13: after the cold boot of core 0 and the first initialization-complete
signal, carrying `0xe100100`, a second signal halts. -/
theorem C13_second_entry_done_witness :
    linuxd_smc_handler debug_build sample_platform 0 sample_platform.LINUX_ENTRY_DONE
        0xe200000 0 0 0 0 (.sp_cpu_ctx 0) 0
        ((Machine.boot (some sample_bl32) none).run debug_build sample_platform
          platform_routing [(0, .setup), (0, .init),
           (0, .smc sample_platform.LINUX_ENTRY_DONE 0xe100100 0 0 0 0 (.sp_cpu_ctx 0) 0)]).d
      = .halt ((Machine.boot (some sample_bl32) none).run debug_build sample_platform
          platform_routing [(0, .setup), (0, .init),
           (0, .smc sample_platform.LINUX_ENTRY_DONE 0xe100100 0 0 0 0 (.sp_cpu_ctx 0) 0)]).d :=
  (C13_second_entry_done debug_build sample_platform (by decide) rfl platform_routing
    (some sample_bl32) none
    [(0, .setup), (0, .init),
     (0, .smc sample_platform.LINUX_ENTRY_DONE 0xe100100 0 0 0 0 (.sp_cpu_ctx 0) 0)]
    (by decide)).1 0 0xe200000 0 0 0 0 (.sp_cpu_ctx 0) 0 (by decide)

/-- Counterexample to C13 as stated: without `ENABLE_ASSERTIONS`, a second
initialization-complete signal on the initialised core 0, carrying a null pointer, does not
halt and overwrites the vector-table pointer `0xe100100` with 0. -/
theorem C13_counterexample :
    (initialised_state release_build).map (fun s0 =>
      let o := linuxd_smc_handler release_build sample_platform 0
        sample_platform.LINUX_ENTRY_DONE 0 0 0 0 0 (.sp_cpu_ctx 0) 0 s0
      (s0.linux_vectors, o.halts, o.exits, o.state.linux_vectors))
    = some (0xe100100, false, true, 0) := by
  rfl

/-! ### Disabled service -/

/-- A store through a register-file pointer keeps the registered contexts. -/
theorem write_ctx_cm (p : CtxPtr) (f : cpu_context_t → cpu_context_t) (s : DState) :
    (write_ctx p f s).cm_context = s.cm_context := by
  cases p <;> rfl

/-- A disabled service stays disabled whatever the event, under the routing of the
platform. -/
theorem disabled_step (cfg : BuildConfig) (P : Platform) (m : Machine) (core : Nat)
    (e : Event) (h : m.Disabled) : (m.step cfg P platform_routing core e).Disabled := by
  obtain ⟨h1, h2, h3, h4, h5, h6, h7, h8, h9, h10⟩ := h
  have hret : ∀ s : DState, s.book = m.d.book → s.cm_context = m.d.cm_context →
      Machine.Disabled { m with d := s } := by
    intro s hb hc
    have e5 : s.linux_vectors = m.d.linux_vectors := congrArg Book.linux_vectors hb
    have e6 : ∀ c, (s.linuxd_sp_context c).state = (m.d.linuxd_sp_context c).state :=
      fun c => congrFun (congrArg Book.state hb) c
    have e7 : s.pm_hook_registrations = m.d.pm_hook_registrations :=
      congrArg Book.pm_hook_registrations hb
    have e8 : s.intr_handlers = m.d.intr_handlers := congrArg Book.intr_handlers hb
    have e9 : s.bl32_init_registrations = m.d.bl32_init_registrations :=
      congrArg Book.bl32_init_registrations hb
    exact ⟨h1, h2, h3, h4, e5.trans h5, fun c => (e6 c).trans (h6 c), e7.trans h7,
      e8.trans h8, e9.trans h9, fun c => by show s.cm_context c NON_SECURE = _; rw [hc]; exact h10 c⟩
  have hsame : Machine.Disabled { m with d := m.d } := hret m.d rfl rfl
  unfold Machine.step
  rw [h1]
  cases e with
  | smc fid x1 x2 x3 x4 cookie handle flags =>
    simp only [Machine.react, platform_routing, h3, Bool.false_eq_true, if_false,
      Machine.refuse]
    exact hret _ (book_write_ctx handle _ m.d) (write_ctx_cm handle _ m.d)
  | sel1_interrupt id flags handle cookie =>
    simp only [Machine.react, platform_routing, h8, List.any_nil, Bool.false_eq_true,
      if_false, Machine.refuse]
    exact hsame
  | ns_interrupt id flags handle cookie =>
    simp only [Machine.react, platform_routing, h8, List.any_nil, Bool.false_eq_true,
      if_false, Machine.refuse]
    exact hsame
  | setup =>
    simp only [Machine.react, platform_routing, h2, Bool.not_true, Bool.false_eq_true,
      if_false, Machine.refuse]
    exact hsame
  | init =>
    simp only [Machine.react, platform_routing, h9, Nat.lt_irrefl, decide_False,
      Bool.false_eq_true, if_false, Machine.refuse]
    exact hsame
  | cpu_on target_cpu =>
    simp only [Machine.react, platform_routing, h7, Nat.lt_irrefl, decide_False,
      Bool.false_eq_true, if_false, Machine.refuse]
    exact hsame
  | migrate_info =>
    simp only [Machine.react, platform_routing, h7, Nat.lt_irrefl, decide_False,
      Bool.false_eq_true, if_false, Machine.refuse]
    exact hsame
  | lifecycle l arg =>
    simp only [Machine.react, platform_routing, h7, Nat.lt_irrefl, decide_False,
      Bool.false_eq_true, if_false, Machine.refuse]
    exact hsame
  | world_ran p c sysregs elr =>
    simp only [Machine.react, platform_routing, if_true, Machine.call]
    exact hret _ (book_write_ctx p _ m.d) (write_ctx_cm p _ m.d)

/-- A disabled service stays disabled along every sequence of events. -/
theorem disabled_run (cfg : BuildConfig) (P : Platform) (es : List (Nat × Event)) :
    ∀ m : Machine, m.Disabled → (m.run cfg P platform_routing es).Disabled := by
  induction es with
  | nil => exact fun m h => h
  | cons x es ih => exact fun m h => ih _ (disabled_step cfg P m x.1 x.2 h)

/-- The machine after a setup that found no image of the payload. -/
theorem disabled_boot (cfg : BuildConfig) (P : Platform) (core : Nat)
    (bl33 : Option entry_point_info_t) :
    ((Machine.boot none bl33).step cfg P platform_routing core .setup).Disabled := by
  refine ⟨rfl, rfl, rfl, fun _ => rfl, rfl, fun _ => rfl, rfl, rfl, rfl, fun _ => rfl⟩

/-- The handler itself, called from the non-secure world on a core with no yielding call
outstanding, answers `SMC_UNK` for every identifier but the four it serves without looking
at the caller's world. -/
theorem ns_call_unknown (cfg : BuildConfig) (P : Platform) (hP : P.labels_distinct)
    (core fid x1 x2 x3 x4 cookie flags : Nat) (s : DState)
    (hns : is_caller_non_secure flags = true)
    (hcm : s.cm_context core NON_SECURE = some (.ns_cpu_ctx core))
    (hy : get_yield_smc_active_flag (s.linuxd_sp_context core).state = 0)
    (hq : fid ∉ [P.LINUX_PUTCHAR, P.TOS_CALL_COUNT, P.TOS_UID, P.TOS_CALL_VERSION]) :
    ∃ s', linuxd_smc_handler cfg P core fid x1 x2 x3 x4 cookie (.ns_cpu_ctx core) flags s
        = .ret (some (.ns_cpu_ctx core)) s' ∧
      (s'.ns_cpu_context core).gpregs.x0 = P.SMC_UNK ∧ s'.book = s.book := by
  by_cases hfid : fid ∈ P.case_labels
  · have hd := later_ne P hP
    simp [Platform.case_labels] at hd
    simp only [List.mem_cons, List.mem_singleton, not_or, List.not_mem_nil, or_false] at hq
    obtain ⟨q1, q2, q3, q4⟩ := hq
    simp only [Platform.case_labels, List.mem_cons, List.mem_singleton, List.not_mem_nil,
      or_false] at hfid
    rcases hfid with h | h | h | h | h | h | h | h | h | h | h | h | h | h | h | h | h
    all_goals first
      | exact absurd h q1
      | exact absurd h q2
      | exact absurd h q3
      | exact absurd h q4
      | (subst h
         simp [linuxd_smc_handler, hd, hns, c_assert, cm_get_context, hcm, hy, SMC_RET1,
           write_ctx_opt, write_ctx, linuxd_abort_preempted_smc, Outcome.bind,
           cm_el1_sysregs_context_save, cm_set_next_eret_context, DState.book])
  · rw [linuxd_smc_handler_default cfg P core fid x1 x2 x3 x4 cookie _ flags s hfid]
    exact ⟨_, rfl, by simp [write_ctx_opt, write_ctx], book_write_ctx _ _ s⟩


/-- C15: cold boot with no image of the payload, under the routing of the platform.
`linuxd_setup` returns 1 and leaves the state as it was; the service is then disabled, and
after every sequence of events that follows (calls from either world, interrupts, hooks,
further initialisation passes, the worlds running) it still is: the `power_state` of every
context is Off, nothing is registered, and every call, for every identifier, arguments and
caller flag, is answered with `SMC_UNK` in `x0` of the caller and changes nothing else in
the bookkeeping.  The handler itself, were it still called from the non-secure world, would
answer `SMC_UNK` too for every identifier but the four it serves without looking at the
caller's world. -/
theorem C15_no_image (cfg : BuildConfig) (P : Platform) (hP : P.labels_distinct)
    (bl33 : Option entry_point_info_t) (core0 : Nat) (es : List (Nat × Event)) :
    linuxd_setup cfg P core0 (boot_state none bl33) = .ret 1 (boot_state none bl33) ∧
    (((Machine.boot none bl33).step cfg P platform_routing core0 .setup).run cfg P
      platform_routing es).Disabled ∧
    (∀ c, (((Machine.boot none bl33).step cfg P platform_routing core0 .setup).run cfg P
      platform_routing es).d.pstate c = LINUX_PSTATE_OFF) ∧
    (∀ (core fid x1 x2 x3 x4 cookie : Nat) (handle : CtxPtr) (flags : Nat),
      ∃ s', (((Machine.boot none bl33).step cfg P platform_routing core0 .setup).run cfg P
          platform_routing es).react cfg P platform_routing core
          (.smc fid x1 x2 x3 x4 cookie handle flags) = .ret () s' ∧
        (s'.ctx_at handle).gpregs.x0 = P.SMC_UNK ∧
        s'.book = (((Machine.boot none bl33).step cfg P platform_routing core0 .setup).run
          cfg P platform_routing es).d.book) ∧
    (∀ (core fid x1 x2 x3 x4 cookie flags : Nat), is_caller_non_secure flags = true →
      fid ∉ [P.LINUX_PUTCHAR, P.TOS_CALL_COUNT, P.TOS_UID, P.TOS_CALL_VERSION] →
      ∃ s', linuxd_smc_handler cfg P core fid x1 x2 x3 x4 cookie (.ns_cpu_ctx core) flags
          (((Machine.boot none bl33).step cfg P platform_routing core0 .setup).run cfg P
            platform_routing es).d
          = .ret (some (.ns_cpu_ctx core)) s' ∧
        (s'.ns_cpu_context core).gpregs.x0 = P.SMC_UNK ∧
        s'.book = (((Machine.boot none bl33).step cfg P platform_routing core0 .setup).run
          cfg P platform_routing es).d.book) := by
  have hD := disabled_run cfg P es _ (disabled_boot cfg P core0 bl33)
  obtain ⟨h1, h2, h3, h4, h5, h6, h7, h8, h9, h10⟩ := hD
  refine ⟨rfl, ⟨h1, h2, h3, h4, h5, h6, h7, h8, h9, h10⟩, ?_, ?_, ?_⟩
  · intro c
    unfold DState.pstate
    rw [h6 c]
    decide
  · intro core fid x1 x2 x3 x4 cookie handle flags
    simp only [Machine.react, platform_routing, h3, Bool.false_eq_true, if_false,
      Machine.refuse]
    refine ⟨_, rfl, ?_, book_write_ctx handle _ _⟩
    show ((write_ctx handle _ _).ctx_at handle).gpregs.x0 = _
    rw [ctx_at_write]
  · intro core fid x1 x2 x3 x4 cookie flags hns hq
    exact ns_call_unknown cfg P hP core fid x1 x2 x3 x4 cookie flags _ hns (h10 core)
      (by rw [h6 core]; decide) hq

/-- Witness of C15: no image, then a call from each world and the off hook on core 0. -/
theorem C15_no_image_witness :
    (((Machine.boot none none).step debug_build sample_platform platform_routing 0
      .setup).run debug_build sample_platform platform_routing
      [(0, .smc sample_platform.LINUX_FID_RESUME 0 0 0 0 0 (.ns_cpu_ctx 0) 1),
       (0, .smc sample_platform.LINUX_ENTRY_DONE 0xe100100 0 0 0 0 (.sp_cpu_ctx 0) 0),
       (0, .lifecycle .cpu_off 0)]).d.pstate 0 = LINUX_PSTATE_OFF :=
  (C15_no_image debug_build sample_platform (by decide) none 0
    [(0, .smc sample_platform.LINUX_FID_RESUME 0 0 0 0 0 (.ns_cpu_ctx 0) 1),
     (0, .smc sample_platform.LINUX_ENTRY_DONE 0xe100100 0 0 0 0 (.sp_cpu_ctx 0) 0),
     (0, .lifecycle .cpu_off 0)]).2.2.1 0

/-! ### Power state -/

/-- A call that keeps the `power_state` of a core within one move of `p`, also when resumed
anywhere within one move of `p`, moves along the edges. -/
theorem Along_of_Keeps {α : Type} (c p : Nat) (o : Outcome α)
    (h : o.Keeps (fun d => pstate_moves p (get_linux_pstate (d.book.state c)))) :
    o.Along c p := by
  induction o with
  | ret a s => exact h
  | halt s => exact h
  | exit_sp x r s => exact h
  | enter_sp x s k ih =>
    refine ⟨h.1, fun v t ht => ih v t (h.2 v t ?_)⟩
    show pstate_moves p (t.pstate c)
    rw [ht]
    exact h.1

/-- Every state word is at most 2 (`power_state` Off, On or Suspended, no other bit): a
property the bookkeeping moves of the dispatcher keep. -/
theorem small_closed (cfg : BuildConfig) : Book.Closed cfg (fun b => ∀ c, b.state c ≤ 2) where
  clr_yield := by
    intro b core h c
    by_cases hc : c = core
    · subst hc
      simp only [Book.set_state, Function.update_same]
      rw [clr_yield_small _ (h c)]
      exact h c
    · simp only [Book.set_state, Function.update_noteq hc]
      exact h c
  set_pstate := by
    intro b core x hx h c
    by_cases hc : c = core
    · subst hc
      simp only [Book.set_state, Function.update_same]
      rw [set_pstate_small _ _ (h c) hx]
      exact hx
    · simp only [Book.set_state, Function.update_noteq hc]
      exact h c
  zero := by
    intro b core h c
    by_cases hc : c = core
    · subst hc
      simp [Book.set_state]
    · simp only [Book.set_state, Function.update_noteq hc]
      exact h c
  bl32_init := fun _ h => h
  entry_done := by
    intro b core x1 _ h
    have key : ∀ c, Function.update b.state core
        (set_linux_pstate (b.state core) LINUX_PSTATE_ON) c ≤ 2 := by
      intro c
      by_cases hc : c = core
      · subst hc
        rw [Function.update_same, set_pstate_small _ _ (h c) (by decide)]
        decide
      · rw [Function.update_noteq hc]
        exact h c
    exact ⟨h, key, key, key⟩

/-- The moves of `power_state` that `p`, at most 2, allows towards On. -/
theorem moves_to_on (p : Nat) (hp : p ≤ 2) : pstate_moves p LINUX_PSTATE_ON := by
  unfold pstate_moves pstate_edge
  interval_cases p <;> decide

/-- The bookkeeping property "the `power_state` of core `c` is within one move of `p`" under
a write of the state word of `core`. -/
theorem moves_set_state (c core p : Nat) (g : Nat → Nat) (b : Book)
    (hg : c = core → pstate_moves p (get_linux_pstate (g (b.state c))))
    (h : pstate_moves p (get_linux_pstate (b.state c))) :
    pstate_moves p (get_linux_pstate ((b.set_state core g).state c)) := by
  by_cases hc : c = core
  · have := hg hc
    subst hc
    simpa [Book.set_state] using this
  · simpa [Book.set_state, Function.update_noteq hc] using h


/-- Clearing the yield flag of a core keeps the `power_state` of `c` within one move of
`p`. -/
theorem moves_clr (c core p : Nat) (b : Book)
    (h : pstate_moves p (get_linux_pstate (b.state c))) :
    pstate_moves p (get_linux_pstate ((b.set_state core clr_yield_smc_active_flag).state c)) :=
  moves_set_state c core p _ b (fun _ => by rw [get_pstate_clr]; exact h) h

/-- Writing `x` to the `power_state` of a core keeps the `power_state` of `c` within one
move of `p` when `x` is. -/
theorem moves_set (c core p x : Nat) (hx : x ≤ 3) (b : Book)
    (hm : c = core → pstate_moves p x)
    (h : pstate_moves p (get_linux_pstate (b.state c))) :
    pstate_moves p (get_linux_pstate
      ((b.set_state core (fun st => set_linux_pstate st x)).state c)) :=
  moves_set_state c core p _ b (fun hc => by rw [get_set_pstate _ _ hx]; exact hm hc) h

/-- The state word the Entry-State Builder writes keeps the `power_state` of `c` within one
move of `p` when Off is. -/
theorem moves_builder (c core p : Nat) (b : Book)
    (hm : c = core → pstate_moves p LINUX_PSTATE_OFF)
    (h : pstate_moves p (get_linux_pstate (b.state c))) :
    pstate_moves p (get_linux_pstate
      ((((b.set_state core (fun _ => 0)).set_state core
          (fun st => set_linux_pstate st LINUX_PSTATE_OFF)).set_state core
            clr_yield_smc_active_flag).state c)) := by
  by_cases hc : c = core
  · have := hm hc
    subst hc
    simp only [Book.set_state, Function.update_same, builder_word]
    exact this
  · simpa [Book.set_state, Function.update_noteq hc] using h

/-- The handler of calls moves `power_state` along the edges, from a state in which it is
Off, On or Suspended. -/
theorem smc_along (cfg : BuildConfig) (P : Platform)
    (core c smc_fid x1 x2 x3 x4 cookie : Nat) (handle : CtxPtr) (flags : Nat) (s : DState)
    (hp : s.pstate c ≤ 2) :
    (linuxd_smc_handler cfg P core smc_fid x1 x2 x3 x4 cookie handle flags s).Along c
      (s.pstate c) := by
  apply Along_of_Keeps
  apply smc_keeps (fun b => pstate_moves (s.pstate c) (get_linux_pstate (b.state c)))
  · exact Or.inl rfl
  · exact fun b hb => moves_clr c core _ b hb
  · intro _ _ _
    have h0 : pstate_moves (s.pstate c) (get_linux_pstate (s.book.state c)) := Or.inl rfl
    have h2 := moves_set c core (s.pstate c) LINUX_PSTATE_ON (by decide) s.book
      (fun _ => moves_to_on _ hp) h0
    exact ⟨h0, h2, h2, h2⟩

/-- A hook of `linuxd_pm` moves `power_state` along the edges in a build with assertions. -/
theorem lifecycle_along (cfg : BuildConfig) (ha : cfg.ENABLE_ASSERTIONS = true)
    (P : Platform) (core c arg : Nat) (l : Lifecycle) (s : DState) :
    (l.run cfg P core arg s).Along c (s.pstate c) := by
  by_cases hw : s.linux_vectors = 0 ∨ s.pstate core ≠ l.pre
  · rw [lifecycle_wrong_state cfg P core arg l s ha hw]
    exact Or.inl rfl
  · have hpre : s.pstate core = l.pre := by
      by_contra hne
      exact hw (Or.inr hne)
    apply Along_of_Keeps
    apply (lifecycle_both_of
      (fun b => pstate_moves (s.pstate c) (get_linux_pstate (b.state c))) cfg P core arg l s
      (fun b hb => moves_clr c core _ b hb) ?_ ?_).2 (Or.inl rfl)
    · intro x hx b hb
      refine moves_set c core _ x (by cases l <;> cases hx <;> decide) b (fun hc => ?_) hb
      subst hc
      rw [hpre]
      unfold pstate_moves pstate_edge
      cases l <;> cases hx <;> decide
    · intro hl b hb
      refine moves_builder c core _ b (fun hc => ?_) hb
      subst hc
      subst hl
      rw [hpre]
      exact Or.inl rfl


/-- C18 (amended).  In every state reached from boot, in every build and however the platform
routes the events, the state word of every context is 0, 1 or 2: `power_state` is Off, On or Suspended, never the fourth value of
its field.  From a state in which the `power_state` of a core is one of the three, the
handler of calls (every identifier and world), the two interrupt handlers and the abort
helper leave it as it is or move it along one of the four edges, in every state in which
they leave the dispatcher, the payload handing each entry back with the `power_state` it was
entered with; so do the hooks of `linuxd_pm` in a build with `ENABLE_ASSERTIONS`.  The
Entry-State Builder always leaves `power_state` Off, which is along an edge or no change
unless `power_state` was Suspended. -/
theorem C18_power_state (cfg : BuildConfig) (P : Platform) (core c : Nat) (s : DState)
    (hp : s.pstate c ≤ 2) :
    (∀ (g : Routing) bl32 bl33 es d,
      ((Machine.boot bl32 bl33).run cfg P g es).d.pstate d ≤ 2 ∧
      (((Machine.boot bl32 bl33).run cfg P g es).d.linuxd_sp_context d).state ≤ 2) ∧
    (∀ (fid x1 x2 x3 x4 cookie : Nat) (handle : CtxPtr) (flags : Nat),
      (linuxd_smc_handler cfg P core fid x1 x2 x3 x4 cookie handle flags s).Along c
        (s.pstate c)) ∧
    (∀ (id flags : Nat) (handle : CtxPtr) (cookie : Nat),
      (linuxd_sel1_interrupt_handler cfg P core id flags handle cookie s).Along c (s.pstate c) ∧
      (linuxd_ns_interrupt_handler cfg P core id flags handle cookie s).Along c (s.pstate c)) ∧
    (linuxd_abort_preempted_smc cfg P core s).Along c (s.pstate c) ∧
    (cfg.ENABLE_ASSERTIONS = true →
      ∀ (l : Lifecycle) (arg : Nat), (l.run cfg P core arg s).Along c (s.pstate c)) ∧
    (∀ (ep : entry_point_info_t) (rw pc : Nat),
      (linuxd_init_linux_ep_state cfg P core ep rw pc s).halts = false →
        (linuxd_init_linux_ep_state cfg P core ep rw pc s).state.pstate core
          = LINUX_PSTATE_OFF) ∧
    (∀ (ep : entry_point_info_t) (rw pc : Nat), s.pstate core ≠ LINUX_PSTATE_SUSPEND →
      (linuxd_init_linux_ep_state cfg P core ep rw pc s).Along c (s.pstate c)) := by
  refine ⟨?_, ?_, ?_, ?_, ?_, ?_, ?_⟩
  · intro g bl32 bl33 es d
    have h := run_keeps cfg _ (small_closed cfg) P g es (Machine.boot bl32 bl33)
      (boot_sound cfg bl32 bl33) (fun _ => Nat.zero_le 2) d
    have h2 : (((Machine.boot bl32 bl33).run cfg P g es).d.linuxd_sp_context d).state ≤ 2 := h
    refine ⟨?_, h2⟩
    unfold DState.pstate
    rw [get_pstate_small _ h2]
    exact h2
  · intro fid x1 x2 x3 x4 cookie handle flags
    exact smc_along cfg P core c fid x1 x2 x3 x4 cookie handle flags s hp
  · intro id flags handle cookie
    exact ⟨Along_of_Keeps c _ _ (sel1_keeps
        (fun b => pstate_moves (s.pstate c) (get_linux_pstate (b.state c)))
        cfg P core id flags handle cookie s (Or.inl rfl)),
      Along_of_Keeps c _ _ (ns_keeps
        (fun b => pstate_moves (s.pstate c) (get_linux_pstate (b.state c)))
        cfg P core id flags handle cookie s (Or.inl rfl))⟩
  · exact Along_of_Keeps c _ _ (abort_keeps
      (fun b => pstate_moves (s.pstate c) (get_linux_pstate (b.state c)))
      cfg P core s (Or.inl rfl) (fun b hb => moves_clr c core _ b hb))
  · intro ha l arg
    exact lifecycle_along cfg ha P core c arg l s
  · intro ep rw pc hh
    by_cases hc : cfg.ENABLE_ASSERTIONS = false ∨ (pc ≠ 0 ∧ rw = LINUX_AARCH64)
    · rw [builder_ret cfg P core ep rw pc s hc]
      simp [Outcome.state, DState.pstate, cm_set_context, upd_linux_ctx]
      decide
    · have ha : cfg.ENABLE_ASSERTIONS = true := by
        cases h : cfg.ENABLE_ASSERTIONS
        · exact absurd (Or.inl h) hc
        · rfl
      have hbad : pc = 0 ∨ rw ≠ LINUX_AARCH64 := by
        by_contra hn
        push_neg at hn
        exact hc (Or.inr hn)
      rw [builder_halt cfg P core ep rw pc s ha hbad] at hh
      simp [Outcome.halts] at hh
  · intro ep rw pc hns
    apply Along_of_Keeps
    apply builder_keeps (fun b => pstate_moves (s.pstate c) (get_linux_pstate (b.state c)))
    · exact Or.inl rfl
    · refine moves_builder c core _ s.book (fun hc => ?_) (Or.inl rfl)
      subst hc
      have h2 : s.pstate c ≠ 2 := hns
      unfold pstate_moves pstate_edge
      generalize s.pstate c = p at hp h2
      interval_cases p
      · decide
      · decide
      · exact absurd rfl h2

/-- Witness of C18: the off hook on core 0 while `power_state` is On, with assertions. -/
theorem C18_power_state_witness :
    (Lifecycle.run debug_build sample_platform 0 0 .cpu_off
      (lifecycle_state LINUX_PSTATE_ON)).Along 0 ((lifecycle_state LINUX_PSTATE_ON).pstate 0) :=
  (C18_power_state debug_build sample_platform 0 0 (lifecycle_state LINUX_PSTATE_ON)
    (by decide)).2.2.2.2.1 rfl .cpu_off 0

/-- Counterexample to C18 as stated: without `ENABLE_ASSERTIONS` the off handler called
while `power_state` is Suspended, the payload answering 0, leaves `power_state` Off, and
Suspended to Off is none of the four edges; with assertions the Entry-State Builder run on
the same context leaves it Off as well. -/
theorem C18_counterexample :
    (lifecycle_state LINUX_PSTATE_SUSPEND).pstate 0 = LINUX_PSTATE_SUSPEND ∧
    ((linuxd_cpu_off_handler release_build sample_platform 0 0
      (lifecycle_state LINUX_PSTATE_SUSPEND)).answer 0).state.pstate 0 = LINUX_PSTATE_OFF ∧
    ((linuxd_cpu_off_handler release_build sample_platform 0 0
      (lifecycle_state LINUX_PSTATE_SUSPEND)).answer 0).halts = false ∧
    (linuxd_init_linux_ep_state debug_build sample_platform 0 sample_bl32 LINUX_AARCH64
      0xe100000 (lifecycle_state LINUX_PSTATE_SUSPEND)).state.pstate 0 = LINUX_PSTATE_OFF ∧
    ¬ pstate_moves LINUX_PSTATE_SUSPEND LINUX_PSTATE_OFF := by
  refine ⟨by decide, by decide, by decide, by decide, ?_⟩
  unfold pstate_moves pstate_edge
  decide

/-! ### The state word as a record -/

/-- Bits of the 32-bit complement of a word. -/
theorem testBit_not32 (x i : Nat) :
    (not32 x).testBit i = (decide (i < 32) && !x.testBit i) := by
  unfold not32
  have h : 2 ^ 32 - 1 - x % 2 ^ 32 = 2 ^ 32 - (x % 2 ^ 32 + 1) := by omega
  rw [h, Nat.testBit_two_pow_sub_succ (Nat.mod_lt _ (by decide)), Nat.testBit_mod_two_pow]
  by_cases hi : i < 32 <;> simp [hi]

/-- Bits of a word after `set_linux_pstate`. -/
theorem testBit_set_pstate (st p i : Nat) :
    (set_linux_pstate st p).testBit i =
      ((st.testBit i && decide (i < 32) && decide (2 ≤ i)) || (p.testBit i && decide (i < 2))) := by
  unfold set_linux_pstate clr_linux_pstate LINUX_PSTATE_MASK LINUX_PSTATE_SHIFT
  simp only [Nat.shiftLeft_zero, Nat.testBit_or, Nat.testBit_and, testBit_not32]
  have h3 : Nat.testBit 3 i = decide (i < 2) := by
    have := Nat.testBit_two_pow_sub_one 2 i
    simpa using this
  rw [h3]
  by_cases h2 : i < 2 <;> simp [h2]
  omega

/-- Bits of a word after `set_yield_smc_active_flag`. -/
theorem testBit_set_yield (st i : Nat) :
    (set_yield_smc_active_flag st).testBit i = (st.testBit i || decide (i = 2)) := by
  unfold set_yield_smc_active_flag YIELD_SMC_ACTIVE_FLAG_SHIFT
  have h : 1 <<< 2 = 2 ^ 2 := by decide
  rw [Nat.testBit_or, h, Nat.testBit_two_pow]
  by_cases h2 : i = 2 <;> simp [h2, eq_comm]

/-- Bits of a word after `clr_yield_smc_active_flag`. -/
theorem testBit_clr_yield (st i : Nat) :
    (clr_yield_smc_active_flag st).testBit i =
      (st.testBit i && decide (i < 32) && decide (i ≠ 2)) := by
  unfold clr_yield_smc_active_flag YIELD_SMC_ACTIVE_FLAG_SHIFT YIELD_SMC_ACTIVE_FLAG_MASK
  have h : 1 <<< 2 = 2 ^ 2 := by decide
  rw [Nat.testBit_and, testBit_not32, h, Nat.testBit_two_pow]
  by_cases h2 : i = 2 <;> simp [h2, eq_comm, Bool.and_assoc]

/-- The yield flag is bit 2 of the word. -/
theorem get_yield_testBit (st : Nat) :
    get_yield_smc_active_flag st = (st.testBit 2).toNat := by
  unfold get_yield_smc_active_flag YIELD_SMC_ACTIVE_FLAG_SHIFT YIELD_SMC_ACTIVE_FLAG_MASK
  simp only [Nat.testBit, Nat.and_comm 1, Nat.and_one_is_mod]
  rcases Nat.mod_two_eq_zero_or_one (st >>> 2) with h | h <;> simp [h]

/-- The yield flag after setting the `power_state`. -/
theorem get_yield_set_pstate (st p : Nat) :
    get_yield_smc_active_flag (set_linux_pstate st p) = get_yield_smc_active_flag st := by
  rw [get_yield_testBit, get_yield_testBit, testBit_set_pstate]
  simp

/-- The `power_state` is the two low bits of the word. -/
theorem get_pstate_mod (st : Nat) : get_linux_pstate st = st % 4 := by
  unfold get_linux_pstate LINUX_PSTATE_MASK LINUX_PSTATE_SHIFT
  rw [Nat.shiftRight_zero, and_three]

/-- The `power_state` after setting the yield flag. -/
theorem get_pstate_set_yield (st : Nat) :
    get_linux_pstate (set_yield_smc_active_flag st) = get_linux_pstate st := by
  rw [get_pstate_mod, get_pstate_mod]
  have h := Nat.and_pow_two_sub_one_eq_mod
  rw [← and_three, ← and_three]
  apply Nat.eq_of_testBit_eq
  intro i
  rw [Nat.testBit_and, Nat.testBit_and, testBit_set_yield]
  have h3 : Nat.testBit 3 i = decide (i < 2) := by
    have := Nat.testBit_two_pow_sub_one 2 i
    simpa using this
  rw [h3]
  by_cases h2 : i < 2 <;> simp [h2]
  omega

/-- The yield flag after `set_yield_smc_active_flag`. -/
theorem get_yield_set (st : Nat) :
    get_yield_smc_active_flag (set_yield_smc_active_flag st) = 1 := by
  rw [get_yield_testBit, testBit_set_yield]
  simp

/-- C27. The state word refines the record (`power_state`, `yield_active`): on every 32-bit
word `st`, writing a power state `p` of Off, On or Suspended with `set_linux_pstate` is the
record assignment of `power_state` (so `get_linux_pstate` reads `p` and the yield flag is as
before) and every bit other than the two low ones is unchanged; `set_yield_smc_active_flag`
and `clr_yield_smc_active_flag` are the record operations on `yield_active` (the flag reads 1
and 0, the power state is as before) and change no bit other than bit 2. -/
theorem C27_state_word (st p : Nat) (hst : st < 2 ^ 32)
    (hp : p = LINUX_PSTATE_OFF ∨ p = LINUX_PSTATE_ON ∨ p = LINUX_PSTATE_SUSPEND) :
    (state_record (set_linux_pstate st p) = (state_record st).set_power_state p
      ∧ get_linux_pstate (set_linux_pstate st p) = p
      ∧ get_yield_smc_active_flag (set_linux_pstate st p) = get_yield_smc_active_flag st
      ∧ (∀ i, 2 ≤ i → (set_linux_pstate st p).testBit i = st.testBit i)
      ∧ set_linux_pstate st p < 2 ^ 32)
    ∧ (state_record (set_yield_smc_active_flag st) = (state_record st).set_yield_active
      ∧ get_yield_smc_active_flag (set_yield_smc_active_flag st) = 1
      ∧ get_linux_pstate (set_yield_smc_active_flag st) = get_linux_pstate st
      ∧ (∀ i, i ≠ 2 → (set_yield_smc_active_flag st).testBit i = st.testBit i)
      ∧ set_yield_smc_active_flag st < 2 ^ 32)
    ∧ (state_record (clr_yield_smc_active_flag st) = (state_record st).clr_yield_active
      ∧ get_yield_smc_active_flag (clr_yield_smc_active_flag st) = 0
      ∧ get_linux_pstate (clr_yield_smc_active_flag st) = get_linux_pstate st
      ∧ (∀ i, i ≠ 2 → (clr_yield_smc_active_flag st).testBit i = st.testBit i)
      ∧ clr_yield_smc_active_flag st < 2 ^ 32) := by
  have hp3 : p ≤ 3 := by
    rcases hp with h | h | h <;> rw [h] <;> decide
  have hbit : ∀ i, 32 ≤ i → st.testBit i = false := by
    intro i hi
    apply Nat.testBit_lt_two_pow
    exact lt_of_lt_of_le hst (Nat.pow_le_pow_right (by decide) hi)
  have hbit2 : ∀ i, st.testBit i = (st.testBit i && decide (i < 32)) := by
    intro i
    by_cases hi : i < 32
    · simp [hi]
    · simp [hi, hbit i (by omega)]
  have hlt : ∀ n : Nat, (∀ i, 32 ≤ i → n.testBit i = false) → n < 2 ^ 32 := by
    exact fun n hn => Nat.lt_pow_two_of_testBit n hn
  refine ⟨⟨?_, get_set_pstate st p hp3, get_yield_set_pstate st p, ?_, ?_⟩,
    ⟨?_, get_yield_set st, get_pstate_set_yield st, ?_, ?_⟩,
    ⟨?_, get_yield_clr st, get_pstate_clr st, ?_, ?_⟩⟩
  · simp [state_record, StateRecord.set_power_state, get_set_pstate st p hp3,
      get_yield_set_pstate st p]
  · intro i hi
    rw [testBit_set_pstate, hbit2 i]
    have : ¬ i < 2 := by omega
    simp [hi, this]
  · apply hlt
    intro i hi
    rw [testBit_set_pstate]
    have h1 : ¬ i < 32 := by omega
    have h2 : ¬ i < 2 := by omega
    simp [h1, h2]
  · simp [state_record, StateRecord.set_yield_active, get_yield_set, get_pstate_set_yield]
  · intro i hi
    rw [testBit_set_yield]
    simp [hi]
  · apply hlt
    intro i hi
    rw [testBit_set_yield, hbit i hi]
    have : i ≠ 2 := by omega
    simp [this]
  · simp [state_record, StateRecord.clr_yield_active, get_yield_clr, get_pstate_clr]
  · intro i hi
    rw [testBit_clr_yield, hbit2 i]
    simp [hi]
  · apply hlt
    intro i hi
    rw [testBit_clr_yield]
    have h1 : ¬ i < 32 := by omega
    simp [h1]

/-- C27 at the word 6 (Suspended with the yield flag set) and the power state On. -/
theorem C27_state_word_witness :
    (6 : Nat) < 2 ^ 32
    ∧ set_linux_pstate 6 LINUX_PSTATE_ON = 5
    ∧ state_record 6 = { power_state := 2, yield_active := true }
    ∧ state_record (set_linux_pstate 6 LINUX_PSTATE_ON) = { power_state := 1, yield_active := true }
    ∧ state_record (clr_yield_smc_active_flag 6) = { power_state := 2, yield_active := false }
    ∧ state_record (set_yield_smc_active_flag 1) = { power_state := 1, yield_active := true }
    ∧ get_linux_pstate (set_linux_pstate 6 LINUX_PSTATE_ON) = LINUX_PSTATE_ON :=
  ⟨by decide, by decide, by decide, by decide, by decide, by decide,
    (C27_state_word 6 LINUX_PSTATE_ON (by decide) (Or.inr (Or.inl rfl))).1.2.1⟩

/-! ### System off and system reset -/

/-- The `power_state` of every context in the state the entry parks in. -/
theorem pstate_prologue (P : Platform) (core c : Nat) (s : DState) :
    (sp_entry_prologue P core s).pstate c = s.pstate c := by
  unfold sp_entry_prologue DState.pstate cm_set_next_eret_context cm_el1_sysregs_context_restore
  by_cases h : c = core
  · subst h
    cases hc : s.cm_context c SECURE <;> simp [upd_linux_ctx]
  · cases hc : s.cm_context core SECURE <;> simp [upd_linux_ctx, h]

/-- The `power_state` of every context after a return address is programmed. -/
theorem pstate_set_elr (core c pc : Nat) (w : SecurityState) (s : DState) :
    (cm_set_elr_el3 core w pc s).pstate c = s.pstate c := by
  unfold DState.pstate cm_set_elr_el3
  rw [(write_ctx_opt_fields _ _ s).2.2.2 c]

/-- The body shared by `linuxd_system_off` and `linuxd_system_reset`, for the entry at offset
`off` of the vector table, when nothing is to be aborted: one entry, whose answer is
dropped. -/
theorem system_hook_plain (cfg : BuildConfig) (P : Platform) (core off : Nat) (s : DState)
    (hchk : cfg.ENABLE_ASSERTIONS = true → s.linux_vectors ≠ 0 ∧ s.pstate core = LINUX_PSTATE_ON)
    (hpre : cfg.ENABLE_ASSERTIONS = true →
      (s.linuxd_sp_context core).c_rt_ctx = 0 ∧ s.secure_bound core)
    (hy : s.yield_active core = 0) :
    (c_assert cfg (s.linux_vectors != 0) s <|
      c_assert cfg (get_linux_pstate (s.linuxd_sp_context core).state == LINUX_PSTATE_ON) s <|
      (linuxd_abort_preempted_smc cfg P core s).bind fun _ s =>
      let s := cm_set_elr_el3 core SECURE ((s.linux_vectors + off) % 2 ^ 64) s
      (linuxd_synchronous_sp_entry cfg P core s).bind fun _ s => (.ret () s : Outcome Unit))
      = .enter_sp (P.c_rt_sp core)
          (sp_entry_prologue P core
            (cm_set_elr_el3 core SECURE ((s.linux_vectors + off) % 2 ^ 64) s))
          (fun _ t => .ret () (sp_entry_epilogue cfg core t)) := by
  rw [two_asserts_pass cfg s s.linux_vectors
    (get_linux_pstate (s.linuxd_sp_context core).state) LINUX_PSTATE_ON _
    (checks_pass cfg s core _ hchk)]
  have hab : linuxd_abort_preempted_smc cfg P core s = .ret 0 s := by
    unfold linuxd_abort_preempted_smc
    rw [if_pos (show get_yield_smc_active_flag (s.linuxd_sp_context core).state = 0 from hy)]
  rw [hab]
  simp only [Outcome.bind]
  rw [entry_eq cfg P core _ (set_elr_pre cfg core _ s hpre)]
  rfl

/-- The same body when a yielding call is pending: the abort entry first, and, once the
payload has answered it with 0, the entry at offset `off`, whose answer is dropped. -/
theorem system_hook_pending (cfg : BuildConfig) (P : Platform) (core off : Nat) (s : DState)
    (hchk : cfg.ENABLE_ASSERTIONS = true → s.linux_vectors ≠ 0 ∧ s.pstate core = LINUX_PSTATE_ON)
    (hpre : cfg.ENABLE_ASSERTIONS = true →
      (s.linuxd_sp_context core).c_rt_ctx = 0 ∧ s.secure_bound core)
    (hy : s.yield_active core ≠ 0) :
    ∃ u0 k0,
      (c_assert cfg (s.linux_vectors != 0) s <|
        c_assert cfg (get_linux_pstate (s.linuxd_sp_context core).state == LINUX_PSTATE_ON) s <|
        (linuxd_abort_preempted_smc cfg P core s).bind fun _ s =>
        let s := cm_set_elr_el3 core SECURE ((s.linux_vectors + off) % 2 ^ 64) s
        (linuxd_synchronous_sp_entry cfg P core s).bind fun _ s => (.ret () s : Outcome Unit))
        = .enter_sp (P.c_rt_sp core) u0 k0
      ∧ u0.pstate core = s.pstate core ∧ u0.yield_active core = 0
      ∧ (∀ V t, V ≠ 0 → (k0 V t).halts = true)
      ∧ ∀ t0, (cfg.ENABLE_ASSERTIONS = true → t0.secure_bound core) →
          k0 0 t0 = .enter_sp (P.c_rt_sp core)
            (sp_entry_prologue P core
              (cm_set_elr_el3 core SECURE
                (((sp_entry_epilogue cfg core t0).linux_vectors + off) % 2 ^ 64)
                (sp_entry_epilogue cfg core t0)))
            (fun _ t => .ret () (sp_entry_epilogue cfg core t)) := by
  rw [two_asserts_pass cfg s s.linux_vectors
    (get_linux_pstate (s.linuxd_sp_context core).state) LINUX_PSTATE_ON _
    (checks_pass cfg s core _ hchk)]
  have hpre1 : cfg.ENABLE_ASSERTIONS = true →
      ((upd_linux_ctx core (fun c => { c with state := clr_yield_smc_active_flag c.state })
          s).linuxd_sp_context core).c_rt_ctx = 0 ∧
      (upd_linux_ctx core (fun c => { c with state := clr_yield_smc_active_flag c.state })
          s).secure_bound core := by
    intro ha
    obtain ⟨h1, h2⟩ := hpre ha
    exact ⟨by simpa [upd_linux_ctx] using h1, h2⟩
  unfold linuxd_abort_preempted_smc
  rw [if_neg (show ¬ get_yield_smc_active_flag (s.linuxd_sp_context core).state = 0 from hy)]
  simp only []
  rw [entry_eq cfg P core _ (set_elr_pre cfg core _ _ hpre1)]
  simp only [Outcome.bind]
  refine ⟨_, _, rfl, ?_, ?_, ?_, ?_⟩
  · rw [pstate_prologue, pstate_set_elr]
    simp [DState.pstate, upd_linux_ctx, get_pstate_clr]
  · unfold DState.yield_active
    have h1 := pstate_prologue P core core
    unfold sp_entry_prologue cm_set_next_eret_context cm_el1_sysregs_context_restore cm_set_elr_el3
    rw [(write_ctx_opt_fields _ _ _).1]
    cases hc : (upd_linux_ctx core
        (fun c => { c with state := clr_yield_smc_active_flag c.state }) s).cm_context core SECURE
    · simp [upd_linux_ctx, write_ctx_opt, get_yield_clr]
    · rename_i q
      have h3 := (write_ctx_opt_fields (some q) (fun c => { c with elr_el3 :=
        ((upd_linux_ctx core (fun c => { c with state := clr_yield_smc_active_flag c.state })
          s).linux_vectors + P.abort_yield_smc_entry) % 2 ^ 64 })
        (upd_linux_ctx core (fun c => { c with state := clr_yield_smc_active_flag c.state })
          s)).2.2.2 core
      simp only [upd_linux_ctx, Function.update_same] at h3 ⊢
      rw [h3]
      exact get_yield_clr _
  · intro V t hV
    simp [hV, Outcome.halts, Outcome.bind]
  · intro t0 ht0
    have hV : ((0 : Nat) != 0) = false := by decide
    simp only [hV, Bool.false_eq_true, if_false, Outcome.bind]
    rw [entry_eq cfg P core _
      (set_elr_pre cfg core _ _ (fun ha => epilogue_pre cfg core t0 (ht0 ha) ha))]
    rfl

/-- C21. `linuxd_system_off` and `linuxd_system_reset`, called with the vector table
established, `power_state` On, no C runtime parked on the context and the context registered
as the secure one, park in the entry of the payload, and whatever value `V` the payload hands
back from that entry the hook returns: the value is dropped, nothing halts on it, and the
dispatcher writes no `power_state`, which is On when the payload is entered and is after the
return what the payload handed back.  When a yielding call is pending the abort entry comes
first; once the payload has answered it with 0 the same holds of the entry that follows. -/
theorem C21_system_off_reset (cfg : BuildConfig) (P : Platform) (core arg : Nat)
    (l : Lifecycle) (hl : l = .system_off ∨ l = .system_reset) (s : DState)
    (hv : s.linux_vectors ≠ 0) (hon : s.pstate core = LINUX_PSTATE_ON)
    (hpre : cfg.ENABLE_ASSERTIONS = true →
      (s.linuxd_sp_context core).c_rt_ctx = 0 ∧ s.secure_bound core) :
    (s.yield_active core = 0 →
      ∃ u k, l.run cfg P core arg s = .enter_sp (P.c_rt_sp core) u k
        ∧ u.pstate core = LINUX_PSTATE_ON
        ∧ ∀ V t, k V t = .ret () (sp_entry_epilogue cfg core t)
            ∧ (sp_entry_epilogue cfg core t).pstate core = t.pstate core)
    ∧ (s.yield_active core ≠ 0 →
      ∃ u0 k0, l.run cfg P core arg s = .enter_sp (P.c_rt_sp core) u0 k0
        ∧ u0.pstate core = LINUX_PSTATE_ON
        ∧ ∀ t0, (cfg.ENABLE_ASSERTIONS = true → t0.secure_bound core) →
            ∃ u k, k0 0 t0 = .enter_sp (P.c_rt_sp core) u k
              ∧ u.pstate core = t0.pstate core
              ∧ ∀ V t, k V t = .ret () (sp_entry_epilogue cfg core t)
                  ∧ (sp_entry_epilogue cfg core t).pstate core = t.pstate core) := by
  have hchk : cfg.ENABLE_ASSERTIONS = true →
      s.linux_vectors ≠ 0 ∧ s.pstate core = LINUX_PSTATE_ON := fun _ => ⟨hv, hon⟩
  have key : ∀ off,
      (s.yield_active core = 0 →
        ∃ u k, (c_assert cfg (s.linux_vectors != 0) s <|
          c_assert cfg (get_linux_pstate (s.linuxd_sp_context core).state == LINUX_PSTATE_ON) s <|
          (linuxd_abort_preempted_smc cfg P core s).bind fun _ s =>
          let s := cm_set_elr_el3 core SECURE ((s.linux_vectors + off) % 2 ^ 64) s
          (linuxd_synchronous_sp_entry cfg P core s).bind fun _ s => (.ret () s : Outcome Unit))
            = .enter_sp (P.c_rt_sp core) u k
          ∧ u.pstate core = LINUX_PSTATE_ON
          ∧ ∀ V t, k V t = .ret () (sp_entry_epilogue cfg core t)
              ∧ (sp_entry_epilogue cfg core t).pstate core = t.pstate core)
      ∧ (s.yield_active core ≠ 0 →
        ∃ u0 k0, (c_assert cfg (s.linux_vectors != 0) s <|
          c_assert cfg (get_linux_pstate (s.linuxd_sp_context core).state == LINUX_PSTATE_ON) s <|
          (linuxd_abort_preempted_smc cfg P core s).bind fun _ s =>
          let s := cm_set_elr_el3 core SECURE ((s.linux_vectors + off) % 2 ^ 64) s
          (linuxd_synchronous_sp_entry cfg P core s).bind fun _ s => (.ret () s : Outcome Unit))
            = .enter_sp (P.c_rt_sp core) u0 k0
          ∧ u0.pstate core = LINUX_PSTATE_ON
          ∧ ∀ t0, (cfg.ENABLE_ASSERTIONS = true → t0.secure_bound core) →
              ∃ u k, k0 0 t0 = .enter_sp (P.c_rt_sp core) u k
                ∧ u.pstate core = t0.pstate core
                ∧ ∀ V t, k V t = .ret () (sp_entry_epilogue cfg core t)
                    ∧ (sp_entry_epilogue cfg core t).pstate core = t.pstate core) := by
    intro off
    constructor
    · intro hy
      refine ⟨_, _, system_hook_plain cfg P core off s hchk hpre hy, ?_, ?_⟩
      · rw [pstate_prologue, pstate_set_elr]
        exact hon
      · exact fun V t => ⟨rfl, pstate_epilogue cfg core core t⟩
    · intro hy
      obtain ⟨u0, k0, h1, h2, _, _, h5⟩ := system_hook_pending cfg P core off s hchk hpre hy
      refine ⟨u0, k0, h1, h2.trans hon, ?_⟩
      intro t0 ht0
      refine ⟨_, _, h5 t0 ht0, ?_, ?_⟩
      · rw [pstate_prologue, pstate_set_elr, pstate_epilogue]
      · exact fun V t => ⟨rfl, pstate_epilogue cfg core core t⟩
  rcases hl with h | h
  · subst h
    exact key P.system_off_entry
  · subst h
    exact key P.system_reset_entry

/-- Witness of C21: the system-off hook on core 0, `power_state` On, nothing to abort; the
payload answers the entry with `2 ^ 64 - 1`. -/
theorem C21_system_off_reset_witness :
    (lifecycle_state LINUX_PSTATE_ON).linux_vectors ≠ 0
    ∧ ((Lifecycle.run debug_build sample_platform 0 0 .system_off
          (lifecycle_state LINUX_PSTATE_ON)).answer (2 ^ 64 - 1)).value? = some ()
    ∧ ((Lifecycle.run debug_build sample_platform 0 0 .system_off
          (lifecycle_state LINUX_PSTATE_ON)).answer (2 ^ 64 - 1)).state.pstate 0 = LINUX_PSTATE_ON
    ∧ ∃ u k, Lifecycle.run debug_build sample_platform 0 0 .system_off
          (lifecycle_state LINUX_PSTATE_ON) = .enter_sp (sample_platform.c_rt_sp 0) u k
        ∧ u.pstate 0 = LINUX_PSTATE_ON
        ∧ ∀ V t, k V t = .ret () (sp_entry_epilogue debug_build 0 t)
            ∧ (sp_entry_epilogue debug_build 0 t).pstate 0 = t.pstate 0 :=
  ⟨by decide, by decide, by decide,
    (C21_system_off_reset debug_build sample_platform 0 0 .system_off (Or.inl rfl)
      (lifecycle_state LINUX_PSTATE_ON) (by decide) (by decide)
      (fun _ => ⟨by decide, by unfold DState.secure_bound; decide⟩)).1 (by decide)⟩

/-! ### Value returned by the first entry -/

/-- A value converted to `int32_t` is zero exactly when its low 32 bits are. -/
theorem to_int32_eq_zero (v : Nat) : to_int32 v = 0 ↔ v % 2 ^ 32 = 0 := by
  unfold to_int32
  have h := Nat.mod_lt v (show 0 < 2 ^ 32 by decide)
  split <;> omega

/-- What `cm_init_my_context` leaves of the checks of the entry. -/
theorem init_context_pre (cfg : BuildConfig) (core : Nat) (ep : entry_point_info_t) (s : DState)
    (h : cfg.ENABLE_ASSERTIONS = true →
      (s.linuxd_sp_context core).c_rt_ctx = 0 ∧ s.secure_bound core) :
    cfg.ENABLE_ASSERTIONS = true →
      ((cm_init_my_context core ep s).linuxd_sp_context core).c_rt_ctx = 0 ∧
      (cm_init_my_context core ep s).secure_bound core := by
  intro ha
  obtain ⟨h1, h2⟩ := h ha
  unfold cm_init_my_context DState.secure_bound
  rw [(write_ctx_opt_fields _ _ s).1, (write_ctx_opt_fields _ _ s).2.2.1]
  exact ⟨h1, h2⟩

/-- C30. `linuxd_init`, called with the descriptor of the payload present, no C runtime
parked on the context and the context registered as the secure one, parks in the entry of the
payload; the value `V` that the initialization-complete signal hands to the parked runtime
(the vector-table pointer) comes back converted to `int32_t`, that is `V mod 2 ^ 32` read as
a signed 32-bit integer.  So the function returns a non-zero value whenever the low 32 bits of
`V` are not all zero, returns 0 for a non-null `V` whose low 32 bits are all zero, and for
`V = 0` returns 0 in a build without assertions and halts at `assert(rc != 0)` in a build
with them. -/
theorem C30_init_return (cfg : BuildConfig) (P : Platform) (core : Nat) (s : DState)
    (ep : entry_point_info_t) (hep : s.bl32_ep_info = some ep)
    (hpre : cfg.ENABLE_ASSERTIONS = true →
      (s.linuxd_sp_context core).c_rt_ctx = 0 ∧ s.secure_bound core) :
    ∃ u k, linuxd_init cfg P core s = .enter_sp (P.c_rt_sp core) u k
      ∧ (∀ V t, (linuxd_init cfg P core s).resume
            (.exit_sp (P.c_rt_sp core) V t : Outcome (Option CtxPtr)) = some (k V t))
      ∧ ∀ V t,
        (V ≠ 0 → k V t = .ret (to_int32 V) (sp_entry_epilogue cfg core t))
        ∧ (V % 2 ^ 32 ≠ 0 → to_int32 V ≠ 0)
        ∧ (V % 2 ^ 32 = 0 → to_int32 V = 0)
        ∧ (V = 0 → cfg.ENABLE_ASSERTIONS = false → k V t = .ret 0 (sp_entry_epilogue cfg core t))
        ∧ (V = 0 → cfg.ENABLE_ASSERTIONS = true → k V t = .halt (sp_entry_epilogue cfg core t)) := by
  have h1 : linuxd_init cfg P core s = .enter_sp (P.c_rt_sp core)
      (sp_entry_prologue P core (cm_init_my_context core ep s))
      (fun V t => c_assert cfg (V != 0) (sp_entry_epilogue cfg core t)
        (.ret (to_int32 V) (sp_entry_epilogue cfg core t))) := by
    unfold linuxd_init
    simp only [hep, Option.isSome_some]
    have ht : ∀ k : Outcome Int, c_assert cfg true s k = k := by
      intro k
      simp [c_assert]
    rw [ht, entry_eq cfg P core _ (init_context_pre cfg core ep s hpre)]
    rfl
  refine ⟨_, _, h1, ?_, ?_⟩
  · intro V t
    rw [h1]
    simp [Outcome.resume]
  · intro V t
    refine ⟨?_, fun h => ?_, (to_int32_eq_zero V).2, ?_, ?_⟩
    · intro hV
      simp [c_assert, hV]
    · exact fun h0 => h ((to_int32_eq_zero V).1 h0)
    · intro hV ha
      subst hV
      simp [c_assert, ha]
      decide
    · intro hV ha
      subst hV
      simp [c_assert, ha]

/-- Witness of C30: the first entry on core 0 after `linuxd_setup`, the payload signalling
completion with the vector-table pointer `2 ^ 32`: `linuxd_init` returns 0. -/
theorem C30_init_return_witness :
    (((linuxd_init debug_build sample_platform 0
          (linuxd_setup debug_build sample_platform 0
            (boot_state (some sample_bl32) (some sample_bl33))).state).resume
        (linuxd_smc_handler debug_build sample_platform 0 sample_platform.LINUX_ENTRY_DONE
          (2 ^ 32) 0 0 0 0 (.sp_cpu_ctx 0) 0
          (payload_ran 5 (linuxd_init debug_build sample_platform 0
            (linuxd_setup debug_build sample_platform 0
              (boot_state (some sample_bl32) (some sample_bl33))).state).state))).map
      Outcome.value?) = some (some 0)
    ∧ ∃ u k, linuxd_init debug_build sample_platform 0
          (linuxd_setup debug_build sample_platform 0
            (boot_state (some sample_bl32) (some sample_bl33))).state
        = .enter_sp (sample_platform.c_rt_sp 0) u k
      ∧ (∀ V t, (linuxd_init debug_build sample_platform 0
            (linuxd_setup debug_build sample_platform 0
              (boot_state (some sample_bl32) (some sample_bl33))).state).resume
            (.exit_sp (sample_platform.c_rt_sp 0) V t : Outcome (Option CtxPtr)) = some (k V t))
      ∧ ∀ V t,
        (V ≠ 0 → k V t = .ret (to_int32 V) (sp_entry_epilogue debug_build 0 t))
        ∧ (V % 2 ^ 32 ≠ 0 → to_int32 V ≠ 0)
        ∧ (V % 2 ^ 32 = 0 → to_int32 V = 0)
        ∧ (V = 0 → debug_build.ENABLE_ASSERTIONS = false →
            k V t = .ret 0 (sp_entry_epilogue debug_build 0 t))
        ∧ (V = 0 → debug_build.ENABLE_ASSERTIONS = true →
            k V t = .halt (sp_entry_epilogue debug_build 0 t)) :=
  ⟨by decide,
    C30_init_return debug_build sample_platform 0
      (linuxd_setup debug_build sample_platform 0
        (boot_state (some sample_bl32) (some sample_bl33))).state
      { h_type := 1, h_version := 1, h_attr := 4, pc := 0xe100000, spsr := 0x3c5, args := List.replicate 8 0 }
      (by decide)
      (fun _ => ⟨by decide, by unfold DState.secure_bound; decide⟩)⟩

/-! ### Queries of the Trusted OS range -/

/-- A store into the result registers of the caller changes nothing else. -/
theorem write_results_frame (handle : CtxPtr) (f : cpu_context_t → cpu_context_t) (s : DState)
    (hf : ∀ c, f c = with_results c (f c).gpregs.x0 (f c).gpregs.x1 (f c).gpregs.x2
      (f c).gpregs.x3) (r : List Nat)
    (hr : ([(f (s.ctx_at handle)).gpregs.x0, (f (s.ctx_at handle)).gpregs.x1,
      (f (s.ctx_at handle)).gpregs.x2, (f (s.ctx_at handle)).gpregs.x3]).take r.length = r) :
    (Outcome.ret (some handle) (write_ctx_opt (some handle) f s)).Answers handle s r := by
  refine ⟨_, rfl, ?_, ?_, ?_, ?_, ?_, ?_, ?_, ?_⟩
  · unfold DState.results write_ctx_opt
    simp only []
    rw [ctx_at_write]
    exact hr
  · exact (write_ctx_opt_fields _ _ s).2.1
  · intro c
    cases handle with
    | ns_cpu_ctx d => simp [write_ctx_opt, write_ctx, same_but_results, with_results]
    | sp_cpu_ctx d =>
      by_cases h : c = d
      · subst h
        simp only [write_ctx_opt, write_ctx, upd_linux_ctx, Function.update_same, same_but_results]
        rw [← hf]
      · simp [write_ctx_opt, write_ctx, upd_linux_ctx, h, same_but_results, with_results]
  · intro c hc
    subst hc
    rfl
  · simp
  · exact (write_ctx_opt_fields _ _ s).1
  · cases handle <;> rfl
  · cases handle <;> rfl

/-- C25. The call-count, UID and version queries of `linuxd_smc_handler`: for every state,
every caller world (`flags`), every core and every register file `handle` of the caller, the
call returns to the caller with `LINUX_NUM_FID` in `x0`; with the four 32-bit words of
`linux_uuid` in `x0`..`x3`; with `LINUX_VERSION_MAJOR` and `LINUX_VERSION_MINOR` in `x0` and
`x1`.  These words do not depend on the state, and the state is left as it was but for the
result registers of the caller: the vector-table pointer, the bookkeeping, and every field of
every context outside `x0`..`x3` of that register file are unchanged (the contexts are
unchanged altogether for a non-secure caller). -/
theorem C25_queries (cfg : BuildConfig) (P : Platform) (hP : P.labels_distinct)
    (core x1 x2 x3 x4 cookie : Nat) (handle : CtxPtr) (flags : Nat) (s : DState) :
    (linuxd_smc_handler cfg P core P.TOS_CALL_COUNT x1 x2 x3 x4 cookie handle flags s).Answers
        handle s [P.LINUX_NUM_FID]
    ∧ (linuxd_smc_handler cfg P core P.TOS_UID x1 x2 x3 x4 cookie handle flags s).Answers
        handle s [0x5b3056a0, 0x427b3291, 0x68711198, 0xfbf350ca]
    ∧ (linuxd_smc_handler cfg P core P.TOS_CALL_VERSION x1 x2 x3 x4 cookie handle flags s).Answers
        handle s [P.LINUX_VERSION_MAJOR, P.LINUX_VERSION_MINOR] := by
  have hd := later_ne P hP
  simp [Platform.case_labels] at hd
  refine ⟨?_, ?_, ?_⟩
  · have h : linuxd_smc_handler cfg P core P.TOS_CALL_COUNT x1 x2 x3 x4 cookie handle flags s
        = SMC_RET1 (some handle) P.LINUX_NUM_FID s := by
      unfold linuxd_smc_handler
      simp only [hd, if_false, if_true, or_self]
    rw [h]
    exact write_results_frame handle _ s (fun _ => rfl) _ rfl
  · have h : linuxd_smc_handler cfg P core P.TOS_UID x1 x2 x3 x4 cookie handle flags s
        = SMC_UUID_RET (some handle) linux_uuid s := by
      unfold linuxd_smc_handler
      simp only [hd, if_false, if_true, or_self]
    rw [h]
    have hw : [uuid_word linux_uuid 0, uuid_word linux_uuid 1, uuid_word linux_uuid 2,
        uuid_word linux_uuid 3] = [0x5b3056a0, 0x427b3291, 0x68711198, 0xfbf350ca] := by decide
    exact write_results_frame handle _ s (fun _ => rfl) _ hw
  · have h : linuxd_smc_handler cfg P core P.TOS_CALL_VERSION x1 x2 x3 x4 cookie handle flags s
        = SMC_RET2 (some handle) P.LINUX_VERSION_MAJOR P.LINUX_VERSION_MINOR s := by
      unfold linuxd_smc_handler
      simp only [hd, if_false, if_true, or_self]
    rw [h]
    exact write_results_frame handle _ s (fun _ => rfl) _ rfl

/-- Witness of C25: the three queries from the secure world on a bound context of core 0, and
the same words for a non-secure caller in another state. -/
theorem C25_queries_witness :
    sample_platform.labels_distinct
    ∧ ((linuxd_smc_handler debug_build sample_platform 0 sample_platform.TOS_UID 1 2 3 4 0
          (.ns_cpu_ctx 0) 1 yielding_state).state.results (.ns_cpu_ctx 0)
        = [0x5b3056a0, 0x427b3291, 0x68711198, 0xfbf350ca])
    ∧ (linuxd_smc_handler debug_build sample_platform 0 sample_platform.TOS_CALL_COUNT 1 2 3 4 0
          (.sp_cpu_ctx 0) 0 (bound_state 0 7)).Answers (.sp_cpu_ctx 0) (bound_state 0 7)
        [sample_platform.LINUX_NUM_FID]
    ∧ (linuxd_smc_handler debug_build sample_platform 0 sample_platform.TOS_UID 1 2 3 4 0
          (.sp_cpu_ctx 0) 0 (bound_state 0 7)).Answers (.sp_cpu_ctx 0) (bound_state 0 7)
        [0x5b3056a0, 0x427b3291, 0x68711198, 0xfbf350ca]
    ∧ (linuxd_smc_handler debug_build sample_platform 0 sample_platform.TOS_CALL_VERSION 1 2 3
          4 0 (.sp_cpu_ctx 0) 0 (bound_state 0 7)).Answers (.sp_cpu_ctx 0) (bound_state 0 7)
        [sample_platform.LINUX_VERSION_MAJOR, sample_platform.LINUX_VERSION_MINOR] :=
  ⟨by decide, by decide,
    C25_queries debug_build sample_platform (by decide) 0 1 2 3 4 0 (.sp_cpu_ctx 0) 0
      (bound_state 0 7)⟩

/-! ### Preemption of the secure world -/

/-- The state the preemption helper returns in when the two contexts of the core are the
registered ones. -/
theorem preemption_explicit (cfg : BuildConfig) (P : Platform) (core : Nat) (handle : CtxPtr)
    (s : DState) (hb : s.secure_bound core)
    (hns : s.cm_context core NON_SECURE = some (.ns_cpu_ctx core))
    (hh : cfg.ENABLE_ASSERTIONS = true → handle = .sp_cpu_ctx core) :
    linuxd_handle_sp_preemption cfg P core handle s
      = .ret (some (.ns_cpu_ctx core))
          (write_ctx (.ns_cpu_ctx core)
            (fun c => { c with gpregs := { c.gpregs with x0 := P.SMC_PREEMPTED } })
            (cm_set_next_eret_context core NON_SECURE
              (cm_el1_sysregs_context_restore core NON_SECURE
                (cm_el1_sysregs_context_save core SECURE s)))) := by
  unfold DState.secure_bound at hb
  have hcm : (cm_el1_sysregs_context_save core SECURE s).cm_context = s.cm_context :=
    (write_ctx_opt_fields _ _ s).1
  unfold linuxd_handle_sp_preemption c_assert
  simp only [cm_get_context, hcm, hns, hb, Option.isSome_some, Bool.not_true, Bool.and_false,
    Bool.false_eq_true, if_false, SMC_RET1, write_ctx_opt]
  cases ha : cfg.ENABLE_ASSERTIONS
  · simp
  · simp [hh ha]

/-- The preemption helper when the two contexts of the core are the registered ones. -/
theorem preemption_eq (cfg : BuildConfig) (P : Platform) (core : Nat) (handle : CtxPtr)
    (s : DState) (hb : s.secure_bound core)
    (hns : s.cm_context core NON_SECURE = some (.ns_cpu_ctx core))
    (hh : cfg.ENABLE_ASSERTIONS = true → handle = .sp_cpu_ctx core) :
    ∃ s1, linuxd_handle_sp_preemption cfg P core handle s = .ret (some (.ns_cpu_ctx core)) s1 ∧
      preempted_to core P.SMC_PREEMPTED s s1 := by
  unfold DState.secure_bound at hb
  refine ⟨_, preemption_explicit cfg P core handle s hb hns hh, ?_⟩
  unfold preempted_to
  refine ⟨?_, ?_, ?_, ?_, ?_, ?_⟩
  · simp [cm_el1_sysregs_context_save, hb, hns, write_ctx_opt, write_ctx, upd_linux_ctx,
      cm_el1_sysregs_context_restore, cm_set_next_eret_context, DState.ctx_at]
  · simp [cm_el1_sysregs_context_save, hb, hns, write_ctx_opt, write_ctx, upd_linux_ctx,
      cm_el1_sysregs_context_restore, cm_set_next_eret_context, DState.ctx_at]
  · simp [cm_el1_sysregs_context_save, hb, hns, write_ctx_opt, write_ctx, upd_linux_ctx,
      cm_el1_sysregs_context_restore, cm_set_next_eret_context, DState.ctx_at]
  · simp [cm_el1_sysregs_context_save, hb, hns, write_ctx_opt, write_ctx, upd_linux_ctx,
      cm_el1_sysregs_context_restore, cm_set_next_eret_context, DState.ctx_at]
  · intro c
    by_cases h : c = core
    · subst h
      simp [cm_el1_sysregs_context_save, hb, hns, write_ctx_opt, write_ctx, upd_linux_ctx,
        cm_el1_sysregs_context_restore, cm_set_next_eret_context, DState.ctx_at]
    · simp [cm_el1_sysregs_context_save, hb, hns, write_ctx_opt, write_ctx, upd_linux_ctx,
        cm_el1_sysregs_context_restore, cm_set_next_eret_context, DState.ctx_at, h]
  · simp [cm_el1_sysregs_context_save, hb, hns, write_ctx_opt, write_ctx, upd_linux_ctx,
      cm_el1_sysregs_context_restore, cm_set_next_eret_context, DState.ctx_at]

/-- C23. A Preempted call from the secure world, and the handler of non-secure interrupts
(which the build with `LINUX_NS_INTR_ASYNC_PREEMPT` registers), on a core whose secure and
non-secure contexts are the registered ones: whatever the state word and the other fields of
the context, the call saves the live secure EL1 registers in the secure context, makes the
saved non-secure ones live, designates the non-secure world as the next to resume, returns the
non-secure context with `SMC_PREEMPTED` in its `x0`, and leaves the state word of every
context as it was, so `yield_active` keeps its value; the interrupt handler also disables the
routing of non-secure interrupts on the core first. -/
theorem C23_preempted (cfg : BuildConfig) (P : Platform) (hP : P.labels_distinct)
    (core x1 x2 x3 x4 cookie id : Nat) (handle : CtxPtr) (flags iflags : Nat) (s : DState)
    (hb : s.secure_bound core)
    (hns : s.cm_context core NON_SECURE = some (.ns_cpu_ctx core))
    (hh : cfg.ENABLE_ASSERTIONS = true → handle = .sp_cpu_ctx core) :
    (is_caller_non_secure flags = false →
      ∃ s1, linuxd_smc_handler cfg P core P.LINUX_PREEMPTED x1 x2 x3 x4 cookie handle flags s
          = .ret (some (.ns_cpu_ctx core)) s1
        ∧ preempted_to core P.SMC_PREEMPTED s s1
        ∧ s1.yield_active core = s.yield_active core)
    ∧ ((cfg.ENABLE_ASSERTIONS = true → get_interrupt_src_ss iflags = SECURE) →
      ∃ s1, linuxd_ns_interrupt_handler cfg P core id iflags handle cookie s
          = .ret (some (.ns_cpu_ctx core)) s1
        ∧ preempted_to core P.SMC_PREEMPTED s s1
        ∧ s1.yield_active core = s.yield_active core
        ∧ s1.ns_intr_rm_local core = false) := by
  have hd := later_ne P hP
  simp [Platform.case_labels] at hd
  constructor
  · intro hsec
    obtain ⟨s1, h1, h2⟩ := preemption_eq cfg P core handle s hb hns hh
    refine ⟨s1, ?_, h2, ?_⟩
    · rw [← h1]
      unfold linuxd_smc_handler
      simp only [hd, if_false, if_true, hsec, Bool.false_eq_true]
    · unfold DState.yield_active
      rw [h2.2.2.2.2.1 core]
  · intro hsrc
    obtain ⟨s1, h1, h2⟩ := preemption_eq cfg P core handle (disable_intr_rm_local core s) hb hns hh
    refine ⟨s1, ?_, h2, ?_, ?_⟩
    · rw [← h1]
      unfold linuxd_ns_interrupt_handler c_assert
      cases ha : cfg.ENABLE_ASSERTIONS
      · simp
      · simp [hsrc ha]
    · unfold DState.yield_active
      rw [h2.2.2.2.2.1 core]
      rfl
    · have h3 : linuxd_handle_sp_preemption cfg P core handle (disable_intr_rm_local core s)
          = .ret (some (.ns_cpu_ctx core))
            (write_ctx (.ns_cpu_ctx core)
              (fun c => { c with gpregs := { c.gpregs with x0 := P.SMC_PREEMPTED } })
              (cm_set_next_eret_context core NON_SECURE
                (cm_el1_sysregs_context_restore core NON_SECURE
                  (cm_el1_sysregs_context_save core SECURE (disable_intr_rm_local core s))))) :=
        preemption_explicit cfg P core handle _ hb hns hh
      rw [h3] at h1
      injection h1 with _ h1
      rw [← h1]
      unfold DState.secure_bound at hb
      have hb1 : (disable_intr_rm_local core s).cm_context core SECURE
          = some (.sp_cpu_ctx core) := hb
      have hns1 : (disable_intr_rm_local core s).cm_context core NON_SECURE
          = some (.ns_cpu_ctx core) := hns
      simp [cm_el1_sysregs_context_save, hb1, hns1, write_ctx_opt, write_ctx, upd_linux_ctx,
        cm_el1_sysregs_context_restore, cm_set_next_eret_context, DState.ctx_at]
      simp [disable_intr_rm_local]

/-- Witness of C23: the payload of core 0, in the middle of a yielding call, signals that it
was preempted. -/
theorem C23_preempted_witness :
    sample_platform.labels_distinct ∧ yielding_state.secure_bound 0
    ∧ yielding_state.yield_active 0 = 1
    ∧ (linuxd_smc_handler debug_build sample_platform 0 sample_platform.LINUX_PREEMPTED 0 0 0 0
          0 (.sp_cpu_ctx 0) 0 yielding_state).state.yield_active 0 = 1
    ∧ ∃ s1, linuxd_smc_handler debug_build sample_platform 0 sample_platform.LINUX_PREEMPTED
          0 0 0 0 0 (.sp_cpu_ctx 0) 0 yielding_state = .ret (some (.ns_cpu_ctx 0)) s1
        ∧ preempted_to 0 sample_platform.SMC_PREEMPTED yielding_state s1
        ∧ s1.yield_active 0 = yielding_state.yield_active 0 :=
  ⟨by decide, by unfold DState.secure_bound; decide, by decide, by decide,
    (C23_preempted debug_build sample_platform (by decide) 0 0 0 0 0 0 0 (.sp_cpu_ctx 0) 0 0
      yielding_state (by unfold DState.secure_bound; decide) (by decide) (fun _ => rfl)).1
      (by decide)⟩

/-! ### Stash and restore around a secure interrupt -/

/-- The yield flag of every context is clear: a property the bookkeeping moves of the
dispatcher keep, as none of them applies `set_yield_smc_active_flag`. -/
theorem yield_clear_closed (cfg : BuildConfig) :
    Book.Closed cfg (fun b => ∀ c, get_yield_smc_active_flag (b.state c) = 0) := by
  have key : ∀ (b : Book) (core : Nat) (g : Nat → Nat),
      (∀ st, get_yield_smc_active_flag st = 0 → get_yield_smc_active_flag (g st) = 0) →
      (∀ c, get_yield_smc_active_flag (b.state c) = 0) →
      ∀ c, get_yield_smc_active_flag ((b.set_state core g).state c) = 0 := by
    intro b core g hg h c
    by_cases hc : c = core
    · subst hc
      simp only [Book.set_state, Function.update_same]
      exact hg _ (h c)
    · simp only [Book.set_state, Function.update_noteq hc]
      exact h c
  have hset : ∀ x st, get_yield_smc_active_flag st = 0 →
      get_yield_smc_active_flag (set_linux_pstate st x) = 0 := by
    intro x st h
    rw [get_yield_set_pstate]
    exact h
  refine ⟨?_, ?_, ?_, ?_, ?_⟩
  · exact fun b core h => key b core _ (fun st _ => get_yield_clr st) h
  · exact fun b core x _ h => key b core _ (hset x) h
  · exact fun b core h => key b core _ (fun _ _ => by decide) h
  · exact fun b h => h
  · intro b core x1 _ h
    have h2 : ∀ c, get_yield_smc_active_flag
        (((b.entry_done_1 x1).set_state core
          (fun st => set_linux_pstate st LINUX_PSTATE_ON)).state c) = 0 :=
      key (b.entry_done_1 x1) core _ (hset _) h
    exact ⟨h, h2, h2, h2⟩

/-- Two `case` labels at different places of the `switch` are different. -/
theorem label_ne (P : Platform) (hP : P.labels_distinct) (i j : Nat) (hi : i < 17)
    (hj : j < 17) (hij : i ≠ j) : P.case_labels.getD i 0 ≠ P.case_labels.getD j 0 := by
  have hl : P.case_labels.length = 17 := rfl
  rw [List.getD_eq_getElem _ _ (by rw [hl]; exact hi),
    List.getD_eq_getElem _ _ (by rw [hl]; exact hj)]
  intro h
  exact hij ((List.Nodup.getElem_inj_iff hP).1 h)

/-- C28. No function of the dispatcher sets `yield_active`: a call of any of them on a state
in which the flag of every context is clear leaves the dispatcher only in such states, also
after the entries it makes.  So in every state reached from boot by any sequence of events
(calls with any identifier from either world, interrupts, lifecycle events), however the
platform routes them, the flag of every context is clear; there `linuxd_abort_preempted_smc`
returns 0 at once, without entering the payload and without a write, and a non-secure
Abort-request or Resume-request made with the registered non-secure context answers
`SMC_UNK` and changes nothing of the bookkeeping. -/
theorem C28_yield_never_set (cfg : BuildConfig) (P : Platform) (hP : P.labels_distinct)
    (g : Routing) (bl32 bl33 : Option entry_point_info_t) (es : List (Nat × Event)) :
    (∀ c, ((Machine.boot bl32 bl33).run cfg P g es).d.yield_active c = 0)
    ∧ (∀ (m : Machine) (core : Nat) (e : Event), (∀ c, m.d.yield_active c = 0) →
        (m.call cfg P core e).Keeps (fun d => ∀ c, d.yield_active c = 0))
    ∧ (∀ core, linuxd_abort_preempted_smc cfg P core ((Machine.boot bl32 bl33).run cfg P g es).d
        = .ret 0 ((Machine.boot bl32 bl33).run cfg P g es).d)
    ∧ (∀ (core fid x1 x2 x3 x4 cookie flags : Nat),
        fid = P.LINUX_FID_ABORT ∨ fid = P.LINUX_FID_RESUME →
        is_caller_non_secure flags = true →
        ((Machine.boot bl32 bl33).run cfg P g es).d.cm_context core NON_SECURE
          = some (.ns_cpu_ctx core) →
        ∃ s', linuxd_smc_handler cfg P core fid x1 x2 x3 x4 cookie (.ns_cpu_ctx core) flags
              ((Machine.boot bl32 bl33).run cfg P g es).d = .ret (some (.ns_cpu_ctx core)) s'
          ∧ (s'.ns_cpu_context core).gpregs.x0 = P.SMC_UNK
          ∧ s'.book = ((Machine.boot bl32 bl33).run cfg P g es).d.book) := by
  have hreach : ∀ c, ((Machine.boot bl32 bl33).run cfg P g es).d.yield_active c = 0 :=
    run_keeps cfg _ (yield_clear_closed cfg) P g es (Machine.boot bl32 bl33)
      (boot_sound cfg bl32 bl33) (fun _ => by show get_yield_smc_active_flag 0 = 0; decide)
  refine ⟨hreach, ?_, ?_, ?_⟩
  · intro m core e hm
    exact call_keeps _ cfg (yield_clear_closed cfg) P m core e hm
  · intro core
    unfold linuxd_abort_preempted_smc
    rw [if_pos (show get_yield_smc_active_flag
      (((Machine.boot bl32 bl33).run cfg P g es).d.linuxd_sp_context core).state = 0 from
        hreach core)]
  · intro core fid x1 x2 x3 x4 cookie flags hfid hns hcm
    apply ns_call_unknown cfg P hP core fid x1 x2 x3 x4 cookie flags _ hns hcm (hreach core)
    simp only [List.mem_cons, List.mem_singleton, List.not_mem_nil, or_false, not_or]
    rcases hfid with h | h
    · subst h
      exact ⟨label_ne P hP 11 0 (by decide) (by decide) (by decide),
        label_ne P hP 11 14 (by decide) (by decide) (by decide),
        label_ne P hP 11 15 (by decide) (by decide) (by decide),
        label_ne P hP 11 16 (by decide) (by decide) (by decide)⟩
    · subst h
      exact ⟨label_ne P hP 12 0 (by decide) (by decide) (by decide),
        label_ne P hP 12 14 (by decide) (by decide) (by decide),
        label_ne P hP 12 15 (by decide) (by decide) (by decide),
        label_ne P hP 12 16 (by decide) (by decide) (by decide)⟩

/-- Witness of C28: core 0 after the setup of the service and a non-secure call; a
non-secure Resume-request then answers `SMC_UNK`. -/
theorem C28_yield_never_set_witness :
    sample_platform.labels_distinct
    ∧ ((linuxd_smc_handler debug_build sample_platform 0 sample_platform.LINUX_FID_RESUME
          0 0 0 0 0 (.ns_cpu_ctx 0) 1
          ((Machine.boot (some sample_bl32) none).run debug_build sample_platform
            platform_routing
            [(0, .setup), (0, .smc 0x72002000 1 2 0 0 0 (.ns_cpu_ctx 0) 1)]).d).state.ns_cpu_context
        0).gpregs.x0 = sample_platform.SMC_UNK
    ∧ ∀ c, ((Machine.boot (some sample_bl32) none).run debug_build sample_platform
        platform_routing
        [(0, .setup), (0, .smc 0x72002000 1 2 0 0 0 (.ns_cpu_ctx 0) 1)]).d.yield_active c = 0 :=
  ⟨by decide, by decide,
    (C28_yield_never_set debug_build sample_platform (by decide) platform_routing
      (some sample_bl32) none
      [(0, .setup), (0, .smc 0x72002000 1 2 0 0 0 (.ns_cpu_ctx 0) 1)]).1⟩

/-! ### The saved arguments are never written -/

/-- What a secure Get-arguments call returns. -/
theorem get_args_result (cfg : BuildConfig) (P : Platform) (hP : P.labels_distinct)
    (core x1 x2 x3 x4 cookie : Nat) (handle : CtxPtr) (flags : Nat) (s : DState)
    (hsec : is_caller_non_secure flags = false) :
    ∃ s', linuxd_smc_handler cfg P core P.LINUX_GET_ARGS x1 x2 x3 x4 cookie handle flags s
        = .ret (some handle) s' ∧
      (s'.ctx_at handle).gpregs.x0 = (s.linuxd_sp_context core).saved_linux_args.1 ∧
      (s'.ctx_at handle).gpregs.x1 = (s.linuxd_sp_context core).saved_linux_args.2 := by
  rw [get_args_case cfg P hP core x1 x2 x3 x4 cookie handle flags s hsec]
  refine ⟨_, rfl, ?_, ?_⟩
  · show ((write_ctx handle _ s).ctx_at handle).gpregs.x0 = _
    rw [ctx_at_write]; rfl
  · show ((write_ctx handle _ s).ctx_at handle).gpregs.x1 = _
    rw [ctx_at_write]; rfl

/-- C29. No function of the dispatcher writes `saved_linux_args` (`store_linux_args` is
applied nowhere): a call of any of them leaves the dispatcher only in states in which the pair
of every context is what it was, also after the entries it makes.  So in every state reached
from boot by any sequence of events, however the platform routes them and whatever arguments
the non-secure calls among them carried, the pair of every context is `(0, 0)` and a secure
Get-arguments call returns 0 in `x0` and 0 in `x1`. -/
theorem C29_saved_args_zero (cfg : BuildConfig) (P : Platform) (hP : P.labels_distinct)
    (g : Routing) (bl32 bl33 : Option entry_point_info_t) (es : List (Nat × Event)) :
    (∀ c, (((Machine.boot bl32 bl33).run cfg P g es).d.linuxd_sp_context c).saved_linux_args
        = (0, 0))
    ∧ (∀ (m : Machine) (core : Nat) (e : Event),
        (m.call cfg P core e).Keeps
          (fun d => d.book.saved_linux_args = m.d.book.saved_linux_args))
    ∧ (∀ (core x1 x2 x3 x4 cookie : Nat) (handle : CtxPtr) (flags : Nat),
        is_caller_non_secure flags = false →
        ∃ s', linuxd_smc_handler cfg P core P.LINUX_GET_ARGS x1 x2 x3 x4 cookie handle flags
              ((Machine.boot bl32 bl33).run cfg P g es).d = .ret (some handle) s'
          ∧ (s'.ctx_at handle).gpregs.x0 = 0 ∧ (s'.ctx_at handle).gpregs.x1 = 0) := by
  have hinv := run_keeps cfg _ (saved_args_closed cfg (fun _ => (0, 0))) P g es
    (Machine.boot bl32 bl33) (boot_sound cfg bl32 bl33) rfl
  refine ⟨fun c => congrFun hinv c, ?_, ?_⟩
  · intro m core e
    exact call_keeps _ cfg (saved_args_closed cfg _) P m core e rfl
  · intro core x1 x2 x3 x4 cookie handle flags hsec
    obtain ⟨s', h1, h2, h3⟩ := get_args_result cfg P hP core x1 x2 x3 x4 cookie handle flags
      ((Machine.boot bl32 bl33).run cfg P g es).d hsec
    have hc := congrFun hinv core
    refine ⟨s', h1, ?_, ?_⟩
    · rw [h2]; exact congrArg Prod.fst hc
    · rw [h3]; exact congrArg Prod.snd hc

/-- Witness of C29: after the cold boot of core 0 and a non-secure call that carries the
arguments 7 and 9, a secure Get-arguments call returns `(0, 0)`. -/
theorem C29_saved_args_zero_witness :
    sample_platform.labels_distinct
    ∧ ∀ c, (((Machine.boot (some sample_bl32) (some sample_bl33)).run debug_build
        sample_platform platform_routing
        [(0, .setup), (0, .init), (0, .smc 0x72002000 7 9 0 0 0 (.ns_cpu_ctx 0) 1)]).d.linuxd_sp_context
        c).saved_linux_args = (0, 0) :=
  ⟨by decide,
    (C29_saved_args_zero debug_build sample_platform (by decide) platform_routing
      (some sample_bl32) (some sample_bl33)
      [(0, .setup), (0, .init), (0, .smc 0x72002000 7 9 0 0 0 (.ns_cpu_ctx 0) 1)]).1⟩

/-! ### A set yield flag implies power state On -/

/-- A call that keeps a property of the state word of a core, also when resumed in any state
with the property, has it in every state in which it leaves the dispatcher. -/
theorem Holds_of_Keeps {α : Type} (c : Nat) (J : Nat → Prop) (o : Outcome α)
    (h : o.Keeps (fun d => J (d.book.state c))) : o.Holds c J := by
  induction o with
  | ret a s => exact h
  | halt s => exact h
  | exit_sp x r s => exact h
  | enter_sp x s k ih =>
    refine ⟨h.1, fun v t ht => ih v t (h.2 v t ?_)⟩
    show J (t.linuxd_sp_context c).state
    rw [ht]
    exact h.1

/-- A weaker property holds where a stronger one does. -/
theorem Holds_mono {α : Type} (c : Nat) (J K : Nat → Prop) (hJK : ∀ w, J w → K w)
    (o : Outcome α) (h : o.Holds c J) : o.Holds c K := by
  induction o with
  | ret a s => exact hJK _ h
  | halt s => exact hJK _ h
  | exit_sp x r s => exact hJK _ h
  | enter_sp x s k ih => exact ⟨hJK _ h.1, fun v t ht => ih v t (h.2 v t ht)⟩

/-- A property of the state word and an `assert`. -/
theorem Holds_assert {α : Type} (c : Nat) (J : Nat → Prop) (cfg : BuildConfig) (b : Bool)
    (s : DState) (k : Outcome α) (hs : J (s.linuxd_sp_context c).state) (hk : k.Holds c J) :
    (c_assert cfg b s k).Holds c J := by
  unfold c_assert
  split
  · exact hs
  · exact hk

/-- A property of the state word when the result is dropped. -/
theorem Holds_void {α : Type} (c : Nat) (J : Nat → Prop) (o : Outcome α) (h : o.Holds c J) :
    o.void.Holds c J := by
  unfold Outcome.void
  induction o with
  | ret a s => exact h
  | halt s => exact h
  | exit_sp x r s => exact h
  | enter_sp x s k ih => exact ⟨h.1, fun v t ht => ih v t (h.2 v t ht)⟩

/-- A word with a clear yield flag satisfies the invariant. -/
theorem yield_implies_on_of_clear (w : Nat) (h : get_yield_smc_active_flag w = 0) :
    yield_implies_on w :=
  fun hne => absurd h hne

/-- The abort helper leaves the dispatcher only with the yield flag of the core clear,
whatever the flag was. -/
theorem abort_clears (cfg : BuildConfig) (P : Platform) (core : Nat) (s : DState) :
    (linuxd_abort_preempted_smc cfg P core s).Keeps
      (fun d => get_yield_smc_active_flag (d.book.state core) = 0) := by
  unfold linuxd_abort_preempted_smc
  split
  · rename_i h
    exact h
  · apply Keeps_bind
    · apply entry_keeps (fun b => get_yield_smc_active_flag (b.state core) = 0)
      simp only [book_cm_set_elr, book_upd_state core clr_yield_smc_active_flag]
      simp [Book.set_state, get_yield_clr]
    · intro rc t ht
      split
      · exact ht
      · exact ht

/-- The part shared by the off and the suspend handler after their checks: the abort helper,
the entry at offset `off`, and the write of the power state `x`.  It leaves the dispatcher
only with the yield flag of the core clear. -/
theorem hook_clears {α : Type} (cfg : BuildConfig) (P : Platform) (core off x : Nat) (a : α)
    (s : DState) :
    ((linuxd_abort_preempted_smc cfg P core s).bind fun _ s =>
      let s := cm_set_elr_el3 core SECURE ((s.linux_vectors + off) % 2 ^ 64) s
      (linuxd_synchronous_sp_entry cfg P core s).bind fun rc s =>
      let rc := to_int32 rc
      if rc != 0 then .halt s
      else (.ret a (upd_linux_ctx core
        (fun c => { c with state := set_linux_pstate c.state x }) s) : Outcome α)).Keeps
      (fun d => get_yield_smc_active_flag (d.book.state core) = 0) := by
  apply Keeps_bind _ _ _ (abort_clears cfg P core s)
  intro _ t ht
  apply Keeps_bind
  · apply entry_keeps (fun b => get_yield_smc_active_flag (b.state core) = 0)
    simpa using ht
  · intro rc u hu
    simp only []
    split
    · exact hu
    · show get_yield_smc_active_flag ((upd_linux_ctx core _ u).book.state core) = 0
      rw [book_upd_state core (fun st => set_linux_pstate st x)]
      simp only [Book.set_state, Function.update_same]
      rw [get_yield_set_pstate]
      exact hu

/-- A property of the state word of `c` after the state word of `core` went through `g`. -/
theorem word_set_state (J : Nat → Prop) (c core : Nat) (g : Nat → Nat) (b : Book)
    (hg : c = core → J (g (b.state core))) (h : J (b.state c)) :
    J ((b.set_state core g).state c) := by
  by_cases hc : c = core
  · have := hg hc
    subst hc
    simpa [Book.set_state] using this
  · simpa [Book.set_state, Function.update_noteq hc] using h

/-- The invariant after the yield flag of a core is cleared. -/
theorem implies_on_clr (c core : Nat) (b : Book) (h : yield_implies_on (b.state c)) :
    yield_implies_on ((b.set_state core clr_yield_smc_active_flag).state c) :=
  word_set_state _ c core _ b (fun _ => yield_implies_on_of_clear _ (get_yield_clr _)) h

/-- The invariant after the power state of a core is set to On. -/
theorem implies_on_set_on (c core : Nat) (b : Book) (h : yield_implies_on (b.state c)) :
    yield_implies_on
      ((b.set_state core (fun st => set_linux_pstate st LINUX_PSTATE_ON)).state c) :=
  word_set_state _ c core _ b (fun _ _ => get_set_pstate _ _ (by decide)) h

/-- The invariant after the Entry-State Builder wrote the state word of a core. -/
theorem implies_on_builder (c core : Nat) (b : Book) (h : yield_implies_on (b.state c)) :
    yield_implies_on
      ((((b.set_state core (fun _ => 0)).set_state core
          (fun st => set_linux_pstate st LINUX_PSTATE_OFF)).set_state core
            clr_yield_smc_active_flag).state c) :=
  word_set_state _ c core _ _ (fun _ => yield_implies_on_of_clear _ (get_yield_clr _))
    (word_set_state _ c core _ _
      (fun hc => by
        subst hc
        simp only [Book.set_state, Function.update_same]
        exact yield_implies_on_of_clear _ (by decide))
      (word_set_state _ c core _ b (fun _ => yield_implies_on_of_clear _ (by decide)) h))

/-- Every hook of `linuxd_pm` maintains the invariant. -/
theorem lifecycle_holds (cfg : BuildConfig) (P : Platform) (core c arg : Nat) (l : Lifecycle)
    (s : DState) (hJ : yield_implies_on (s.linuxd_sp_context c).state) :
    (l.run cfg P core arg s).Holds c yield_implies_on := by
  have hgen : (∀ x, l.post = some x → c = core → x = LINUX_PSTATE_ON) →
      (l.run cfg P core arg s).Holds c yield_implies_on := by
    intro hx
    apply Holds_of_Keeps
    refine (lifecycle_both_of (fun b => yield_implies_on (b.state c)) cfg P core arg l s
      (fun b hb => implies_on_clr c core b hb) ?_
      (fun _ b hb => implies_on_builder c core b hb)).2 hJ
    intro x hl b hb
    by_cases hc : c = core
    · rw [hx x hl hc]
      exact implies_on_set_on c core b hb
    · exact word_set_state _ c core _ b (fun h => absurd h hc) hb
  have hclear : ∀ {α : Type} (o : Outcome α),
      o.Keeps (fun d => get_yield_smc_active_flag (d.book.state core) = 0) → c = core →
      o.Holds c yield_implies_on := by
    intro α o ho hc
    subst hc
    exact Holds_mono c _ _ yield_implies_on_of_clear o (Holds_of_Keeps c _ o ho)
  by_cases hc : c = core
  · cases l with
    | cpu_off =>
      show (linuxd_cpu_off_handler cfg P core arg s).void.Holds c yield_implies_on
      apply Holds_void
      unfold linuxd_cpu_off_handler
      apply Holds_assert _ _ _ _ _ _ hJ
      apply Holds_assert _ _ _ _ _ _ hJ
      exact hclear _ (hook_clears cfg P core P.cpu_off_entry LINUX_PSTATE_OFF (0 : Int) s) hc
    | cpu_suspend =>
      show (linuxd_cpu_suspend_handler cfg P core arg s).Holds c yield_implies_on
      unfold linuxd_cpu_suspend_handler
      apply Holds_assert _ _ _ _ _ _ hJ
      apply Holds_assert _ _ _ _ _ _ hJ
      exact hclear _ (hook_clears cfg P core P.cpu_suspend_entry LINUX_PSTATE_SUSPEND () s) hc
    | cpu_on_finish => exact hgen (fun x hx _ => by cases hx; rfl)
    | cpu_suspend_finish => exact hgen (fun x hx _ => by cases hx; rfl)
    | system_off => exact hgen (fun x hx _ => by cases hx)
    | system_reset => exact hgen (fun x hx _ => by cases hx)
  · exact hgen (fun _ _ h => absurd h hc)

/-- C22. Invariant (c): a set yield flag implies `power_state` On.  The Entry-State Builder
leaves the context of its core with the flag clear.  From a state in which the context of
a core `c` satisfies the invariant, the call handler (every identifier, either world), the
S-EL1 and the non-secure interrupt handler, the abort helper, the Entry-State Builder and
every hook of `linuxd_pm`, run on any core, leave the dispatcher only in states that satisfy
it on `c`, the payload handing each entry back with the state word it was entered with.  In
every state reached from boot by any sequence of events, however the platform routes them,
the context of every core satisfies it. -/
theorem C22_yield_implies_on (cfg : BuildConfig) (P : Platform) (core c : Nat) (s : DState)
    (hJ : yield_implies_on (s.linuxd_sp_context c).state) :
    (∀ (ep : entry_point_info_t) (rw pc : Nat) (s0 : DState),
      (linuxd_init_linux_ep_state cfg P core ep rw pc s0).halts = false →
        (linuxd_init_linux_ep_state cfg P core ep rw pc s0).state.yield_active core = 0 ∧
        yield_implies_on
          ((linuxd_init_linux_ep_state cfg P core ep rw pc s0).state.linuxd_sp_context core).state)
    ∧ (∀ (ep : entry_point_info_t) (rw pc : Nat),
      (linuxd_init_linux_ep_state cfg P core ep rw pc s).Holds c yield_implies_on)
    ∧ (∀ (fid x1 x2 x3 x4 cookie : Nat) (handle : CtxPtr) (flags : Nat),
      (linuxd_smc_handler cfg P core fid x1 x2 x3 x4 cookie handle flags s).Holds c
        yield_implies_on)
    ∧ (∀ (id flags : Nat) (handle : CtxPtr) (cookie : Nat),
      (linuxd_sel1_interrupt_handler cfg P core id flags handle cookie s).Holds c
        yield_implies_on ∧
      (linuxd_ns_interrupt_handler cfg P core id flags handle cookie s).Holds c
        yield_implies_on)
    ∧ (linuxd_abort_preempted_smc cfg P core s).Holds c yield_implies_on
    ∧ (∀ (l : Lifecycle) (arg : Nat), (l.run cfg P core arg s).Holds c yield_implies_on)
    ∧ (∀ (g : Routing) bl32 bl33 es d,
      yield_implies_on (((Machine.boot bl32 bl33).run cfg P g es).d.linuxd_sp_context d).state) := by
  refine ⟨?_, ?_, ?_, ?_, ?_, ?_, ?_⟩
  · intro ep rw pc s0 hh
    have hy : (linuxd_init_linux_ep_state cfg P core ep rw pc s0).state.yield_active core = 0 := by
      by_cases hc : cfg.ENABLE_ASSERTIONS = false ∨ (pc ≠ 0 ∧ rw = LINUX_AARCH64)
      · rw [builder_ret cfg P core ep rw pc s0 hc]
        simp [Outcome.state, DState.yield_active, cm_set_context, upd_linux_ctx]
        decide
      · have ha : cfg.ENABLE_ASSERTIONS = true := by
          cases h : cfg.ENABLE_ASSERTIONS
          · exact absurd (Or.inl h) hc
          · rfl
        have hw : pc = 0 ∨ rw ≠ LINUX_AARCH64 := by
          by_contra hn
          push_neg at hn
          exact hc (Or.inr hn)
        rw [builder_halt cfg P core ep rw pc s0 ha hw] at hh
        simp [Outcome.halts] at hh
    exact ⟨hy, yield_implies_on_of_clear _ hy⟩
  · intro ep rw pc
    exact Holds_of_Keeps c _ _ (builder_keeps (fun b => yield_implies_on (b.state c)) cfg P core
      ep rw pc s hJ (implies_on_builder c core _ hJ))
  · intro fid x1 x2 x3 x4 cookie handle flags
    apply Holds_of_Keeps
    apply smc_keeps (fun b => yield_implies_on (b.state c))
    · exact hJ
    · exact fun b hb => implies_on_clr c core b hb
    · intro _ _ _
      have h2 := implies_on_set_on c core (s.book.entry_done_1 x1) hJ
      exact ⟨hJ, h2, h2, h2⟩
  · intro id flags handle cookie
    exact ⟨Holds_of_Keeps c _ _ (sel1_keeps (fun b => yield_implies_on (b.state c))
        cfg P core id flags handle cookie s hJ),
      Holds_of_Keeps c _ _ (ns_keeps (fun b => yield_implies_on (b.state c))
        cfg P core id flags handle cookie s hJ)⟩
  · exact Holds_of_Keeps c _ _ (abort_keeps (fun b => yield_implies_on (b.state c))
      cfg P core s hJ (fun b hb => implies_on_clr c core b hb))
  · intro l arg
    exact lifecycle_holds cfg P core c arg l s hJ
  · intro g bl32 bl33 es d
    have h := run_keeps cfg _ (yield_clear_closed cfg) P g es (Machine.boot bl32 bl33)
      (boot_sound cfg bl32 bl33) (fun _ => by show get_yield_smc_active_flag 0 = 0; decide) d
    exact yield_implies_on_of_clear _ h

/-- Witness of C22: the off hook on core 0 called while a yielding call is pending; it aborts
the call, which clears the flag, before it writes Off. -/
theorem C22_yield_implies_on_witness :
    yielding_state.yield_active 0 = 1 ∧ yielding_state.pstate 0 = LINUX_PSTATE_ON
    ∧ ((((Lifecycle.run debug_build sample_platform 0 0 .cpu_off yielding_state).answer
          0).answer 0).state.yield_active 0 = 0)
    ∧ ((((Lifecycle.run debug_build sample_platform 0 0 .cpu_off yielding_state).answer
          0).answer 0).state.pstate 0 = LINUX_PSTATE_OFF)
    ∧ (Lifecycle.run debug_build sample_platform 0 0 .cpu_off yielding_state).Holds 0
        yield_implies_on :=
  ⟨by decide, by decide, by decide, by decide,
    (C22_yield_implies_on debug_build sample_platform 0 0 yielding_state
      (fun _ => by decide)).2.2.2.2.2.1 .cpu_off 0⟩

/-! ### A call on one core leaves the contexts of the other cores alone -/

/-- A state with the same contexts and the same registered pointers. -/
theorem apart_of_eq (core j : Nat) (X : linux_context_t) (s t : DState)
    (h1 : t.linuxd_sp_context = s.linuxd_sp_context) (h2 : t.cm_context = s.cm_context) :
    t.apart core j X ↔ s.apart core j X := by
  unfold DState.apart
  rw [h1, h2]

/-- A store through a pointer that is not the register file of the other context. -/
theorem apart_write (core j : Nat) (X : linux_context_t) (p : CtxPtr)
    (hp : p ≠ .sp_cpu_ctx j) (f : cpu_context_t → cpu_context_t) (s : DState) :
    (write_ctx p f s).apart core j X ↔ s.apart core j X := by
  cases p with
  | ns_cpu_ctx d => exact apart_of_eq core j X s _ rfl rfl
  | sp_cpu_ctx d =>
    have hd : j ≠ d := fun h => hp (by rw [h])
    unfold DState.apart write_ctx upd_linux_ctx
    simp [Function.update_noteq hd]

/-- A store through a pointer registered for the core. -/
theorem apart_write_cm (core j : Nat) (X : linux_context_t) (w : SecurityState)
    (f : cpu_context_t → cpu_context_t) (s : DState) :
    (write_ctx_opt (s.cm_context core w) f s).apart core j X ↔ s.apart core j X := by
  cases hc : s.cm_context core w with
  | none => exact Iff.rfl
  | some p =>
    by_cases hp : p = .sp_cpu_ctx j
    · subst hp
      have h1 : ¬ s.apart core j X := fun h => h.2 w hc
      have h2 : ¬ (write_ctx_opt (some (.sp_cpu_ctx j)) f s).apart core j X := by
        intro h
        apply h.2 w
        rw [(write_ctx_opt_fields _ _ s).1]
        exact hc
      exact ⟨fun h => absurd h h2, fun h => absurd h h1⟩
    · exact apart_write core j X p hp f s

/-- A call of `cm_el1_sysregs_context_save` on the core leaves the context of another core. -/
@[simp] theorem apart_cm_save (core j : Nat) (X : linux_context_t) (w : SecurityState)
    (s : DState) :
    (cm_el1_sysregs_context_save core w s).apart core j X ↔ s.apart core j X :=
  apart_write_cm core j X w _ s

/-- A call of `cm_set_elr_el3` on the core leaves the context of another core. -/
@[simp] theorem apart_cm_set_elr (core j : Nat) (X : linux_context_t) (w : SecurityState)
    (pc : Nat) (s : DState) :
    (cm_set_elr_el3 core w pc s).apart core j X ↔ s.apart core j X :=
  apart_write_cm core j X w _ s

/-- A call of `cm_init_my_context` on the core leaves the context of another core. -/
@[simp] theorem apart_cm_init (core j : Nat) (X : linux_context_t) (ep : entry_point_info_t)
    (s : DState) :
    (cm_init_my_context core ep s).apart core j X ↔ s.apart core j X :=
  apart_write_cm core j X _ _ s

/-- A call of `disable_intr_rm_local` writes no context and registers none. -/
@[simp] theorem apart_disable_intr (core j : Nat) (X : linux_context_t) (s : DState) :
    (disable_intr_rm_local core s).apart core j X ↔ s.apart core j X :=
  apart_of_eq core j X s _ rfl rfl

/-- A call of `enable_intr_rm_local` writes no context and registers none. -/
@[simp] theorem apart_enable_intr (core j : Nat) (X : linux_context_t) (s : DState) :
    (enable_intr_rm_local core s).apart core j X ↔ s.apart core j X :=
  apart_of_eq core j X s _ rfl rfl

/-- A call of `ehf_allow_ns_preemption` writes no context and registers none. -/
@[simp] theorem apart_ehf (core j code : Nat) (X : linux_context_t) (s : DState) :
    (ehf_allow_ns_preemption core code s).apart core j X ↔ s.apart core j X :=
  apart_of_eq core j X s _ rfl rfl

/-- A call of `putchar` writes no context and registers none. -/
@[simp] theorem apart_putchar (core j c : Nat) (X : linux_context_t) (s : DState) :
    (putchar c s).apart core j X ↔ s.apart core j X :=
  apart_of_eq core j X s _ rfl rfl

/-- A call of `psci_register_spd_pm_hook` writes no context and registers none. -/
@[simp] theorem apart_psci_hook (core j : Nat) (X : linux_context_t) (s : DState) :
    (psci_register_spd_pm_hook s).apart core j X ↔ s.apart core j X :=
  apart_of_eq core j X s _ rfl rfl

/-- A call of `bl31_register_bl32_init` writes no context and registers none. -/
@[simp] theorem apart_bl32_init (core j : Nat) (X : linux_context_t) (s : DState) :
    (bl31_register_bl32_init s).apart core j X ↔ s.apart core j X :=
  apart_of_eq core j X s _ rfl rfl

/-- A call of `bl31_set_next_image_type` writes no context and registers none. -/
@[simp] theorem apart_next_image (core j : Nat) (X : linux_context_t) (w : SecurityState)
    (s : DState) :
    (bl31_set_next_image_type w s).apart core j X ↔ s.apart core j X :=
  apart_of_eq core j X s _ rfl rfl

/-- The registration of an interrupt handler leaves the contexts and the registered
pointers. -/
@[simp] theorem apart_register (core j : Nat) (X : linux_context_t) (type : Nat)
    (handler : IntrHandler) (flags : Nat) (s : DState) :
    (register_interrupt_type_handler type handler flags s).2.apart core j X
      ↔ s.apart core j X := by
  unfold register_interrupt_type_handler
  split
  · exact Iff.rfl
  · exact apart_of_eq core j X s _ rfl rfl

end Linuxd
